import Mathlib

/-! # 8211createfromxml: a shallow embedding

The program `frmts/iso8211/8211createfromxml.cpp` reads an XML description of an
ISO 8211 file and replays it on the ISO 8211 writer (`DDFModule`, `DDFFieldDefn`,
`DDFRecord`).  The whole program is one `main`; the embedding below follows it
block by block and returns the ordered list of calls the program makes on its
collaborators (the XML reader, the ISO 8211 writer, the standard streams)
together with the way the run ends.

Conventions of the embedding.

* A C string is a Lean `String`, one character per `char`; `strlen` is the number
  of characters and `strcmp(a, b) == 0` is equality.
* `int` values are unbounded integers (naturals where the program only counts
  up from zero); no text handled here comes near `INT_MAX` characters.  The
  value `atoi` reads from a text is the result of the C library's `atoi` only
  when it fits a C `int` (`fitsInt`); outside that range the C library leaves
  the result open, and the statements on the integer the program reads from an
  attribute or a subfield text are made under the condition `fitsInt`.
* The stored byte of the hexadecimal decoder is reduced modulo 256, as the
  assignment to a `char` does; this makes the signedness of `char` irrelevant.
-/

namespace Iso8211Create

/-! ## C strings -/

/-- The terminating NUL of a C string. -/
def NUL : Char := Char.ofNat 0

/-- The read `psz[k]` on a C string: a character of the text, the terminating NUL
at index `strlen`, and `none` for an index past the terminator (outside the
object). -/
def cAt (psz : List Char) (k : Nat) : Option Char :=
  match psz, k with
  | [], 0 => some NUL
  | [], _ + 1 => none
  | c :: _, 0 => some c
  | _ :: rest, k + 1 => cAt rest k

/-- The test `STARTS_WITH(psz, "0x")` together with `psz += 2`: the text after the marker
when the string starts with the two characters `0x`, otherwise `none`. -/
def skip0x (psz : String) : Option (List Char) :=
  match psz.data with
  | c0 :: c1 :: rest => if c0 = '0' ∧ c1 = 'x' then some rest else none
  | _ => none

/-! ## The hexadecimal decoder (lines 263-281 and 330-350) -/

/-- One nibble of the raw-field loop (lines 271-274 and 276-279):
`if (c >= 'A' && c <= 'F') n = 10 + c - 'A'; else n = c - '0';`. -/
def rawNibble (c : Char) : Int :=
  if 'A'.toNat ≤ c.toNat ∧ c.toNat ≤ 'F'.toNat then 10 + (c.toNat : Int) - ('A'.toNat : Int)
  else (c.toNat : Int) - ('0'.toNat : Int)

/-- The byte stored by `pabyData[i] = (nHigh << 4) + nLow` (line 280): the sum,
reduced to the eight bits of a `char`. -/
def rawByte (nHigh nLow : Int) : Nat :=
  ((nHigh * 16 + nLow) % 256).toNat

/-- The raw-field loop `for (int i = 0; i < nDataLen; i++)` (lines 266-281), from
index `i` with `todo = nDataLen - i` rounds left.  `none` when a read leaves the
string. -/
def rawLoop (pszValue : List Char) : Nat → Nat → Option (List Nat)
  | _, 0 => some []
  | i, todo + 1 =>
    match cAt pszValue (2 * i), cAt pszValue (2 * i + 1) with
    | some c, some d =>
      match rawLoop pszValue (i + 1) todo with
      | some rest => some (rawByte (rawNibble c) (rawNibble d) :: rest)
      | none => none
    | _, _ => none

/-- The raw-field decoder (lines 263-281) applied to the text after `0x`:
`nDataLen = strlen(pszValue) / 2`, then the loop. -/
def rawDecode (pszValue : List Char) : Option (List Nat) :=
  rawLoop pszValue 0 (pszValue.length / 2)

/-- One nibble of the binary-subfield loop (lines 340-343 and 345-348). -/
def binNibble (c : Char) : Int :=
  if 'A'.toNat ≤ c.toNat ∧ c.toNat ≤ 'F'.toNat then 10 + (c.toNat : Int) - ('A'.toNat : Int)
  else (c.toNat : Int) - ('0'.toNat : Int)

/-- The byte stored by `pabyData[i] = (nHigh << 4) + nLow` (line 349). -/
def binByte (nHigh nLow : Int) : Nat :=
  ((nHigh * 16 + nLow) % 256).toNat

/-- The binary-subfield loop (lines 335-350), from index `i` with `todo` rounds
left.  `none` when a read leaves the string. -/
def binLoop (pszSubfieldValue : List Char) : Nat → Nat → Option (List Nat)
  | _, 0 => some []
  | i, todo + 1 =>
    match cAt pszSubfieldValue (2 * i), cAt pszSubfieldValue (2 * i + 1) with
    | some c, some d =>
      match binLoop pszSubfieldValue (i + 1) todo with
      | some rest => some (binByte (binNibble c) (binNibble d) :: rest)
      | none => none
    | _, _ => none

/-- The binary-subfield decoder (lines 330-350) applied to the text after `0x`. -/
def binDecode (pszSubfieldValue : List Char) : Option (List Nat) :=
  binLoop pszSubfieldValue 0 (pszSubfieldValue.length / 2)

/-! ## The encoder the round trip is stated against -/

/-- The uppercase hexadecimal digit of a nibble value `0..15`. -/
def hexDigit (n : Nat) : Char :=
  if n < 10 then Char.ofNat ('0'.toNat + n) else Char.ofNat ('A'.toNat + (n - 10))

/-- Modelled from the spec: the re-encoding of the round-trip property, which is
not part of this program: every byte becomes two uppercase hexadecimal digits,
high nibble first. -/
def hexEncode : List Nat → List Char
  | [] => []
  | b :: rest => hexDigit (b / 16) :: hexDigit (b % 16) :: hexEncode rest

/-- The characters the decoder is written for: `0`-`9` and `A`-`F`. -/
def isUpperHex (c : Char) : Prop :=
  ('0'.toNat ≤ c.toNat ∧ c.toNat ≤ '9'.toNat) ∨ ('A'.toNat ≤ c.toNat ∧ c.toNat ≤ 'F'.toNat)

instance (c : Char) : Decidable (isUpperHex c) := by
  unfold isUpperHex; infer_instance

/-- The value of an uppercase hexadecimal digit: `0`..`9` for `0`-`9`, `10`..`15`
for `A`-`F`. -/
def hexValue (c : Char) : Nat :=
  if 'A'.toNat ≤ c.toNat then c.toNat - 'A'.toNat + 10 else c.toNat - '0'.toNat

/-! ## The C library: `atoi` and the `%d` conversion -/

/-- The C library test `isspace` in the C locale. -/
def isspace (c : Char) : Bool :=
  c.toNat = 32 ∨ (9 ≤ c.toNat ∧ c.toNat ≤ 13)

/-- The C library test `isdigit`. -/
def isdigit (c : Char) : Bool :=
  '0'.toNat ≤ c.toNat ∧ c.toNat ≤ '9'.toNat

/-- The digit run of `atoi`: base-10 accumulation until the first non-digit. -/
def atoiDigits : Nat → List Char → Nat
  | acc, [] => acc
  | acc, c :: rest =>
    if isdigit c then atoiDigits (acc * 10 + (c.toNat - '0'.toNat)) rest else acc

/-- The part of `atoi` after the leading white space: an optional sign, then the
digit run. -/
def atoiSigned : List Char → Int
  | [] => 0
  | c :: rest =>
    if c = '-' then -((atoiDigits 0 rest : Nat) : Int)
    else if c = '+' then ((atoiDigits 0 rest : Nat) : Int)
    else ((atoiDigits 0 (c :: rest) : Nat) : Int)

/-- The white-space skip of `atoi`. -/
def atoiSkip : List Char → Int
  | [] => 0
  | c :: rest => if isspace c then atoiSkip rest else atoiSigned (c :: rest)

/-- The C library `atoi`: leading white space, an optional sign, base-10 digits
up to the first other character; `0` when there is no digit.  The value is the
unbounded base-10 value of the digits: it is what the C library returns exactly
when it fits a C `int` (`fitsInt` below); the C library leaves the result open
otherwise, and the statements on the integer read from an attribute or a
subfield text are made under `fitsInt`. -/
def atoi (psz : String) : Int :=
  atoiSkip psz.data

/-- The decimal digits of a natural number, most significant first, pushed in
front of `acc`; `fuel` bounds the number of digits. -/
def fmtNatAux : Nat → Nat → List Char → List Char
  | 0, _, acc => acc
  | fuel + 1, n, acc =>
    if n < 10 then Char.ofNat ('0'.toNat + n) :: acc
    else fmtNatAux fuel (n / 10) (Char.ofNat ('0'.toNat + n % 10) :: acc)

/-- The `%d` conversion of a natural number. -/
def fmtNat (n : Nat) : List Char :=
  fmtNatAux (n + 1) n []

/-- The call `CPLSPrintf("%d", n)`: the `%d` conversion of an `int`. -/
def fmtInt : Int → String
  | Int.ofNat n => String.mk (fmtNat n)
  | Int.negSucc n => String.mk ('-' :: fmtNat (n + 1))

/-! ## The XML tree (`cpl_minixml.h`) -/

/-- The node kinds of `CPLXMLNodeType`. -/
inductive CPLXMLNodeType where
  | CXT_Element
  | CXT_Text
  | CXT_Attribute
  | CXT_Comment
  | CXT_Literal
  deriving DecidableEq, Repr

/-- Modelled from the spec: `CPLXMLNode` is declared in `cpl_minixml.h`, which is
not part of the sources at hand; the spec describes the input as an ordered tree
of named nodes with attributes and children.  A node has its kind `eType`, its
name `pszValue`, its attributes in document order, its text content when it has
one, and its child nodes in document order (the `psChild`/`psNext` chain). -/
inductive CPLXMLNode where
  | mk (eType : CPLXMLNodeType) (pszValue : String) (attrs : List (String × String))
      (text : Option String) (psChild : List CPLXMLNode) : CPLXMLNode

namespace CPLXMLNode

/-- The kind of a node. -/
def eType : CPLXMLNode → CPLXMLNodeType
  | mk t _ _ _ _ => t

/-- The name of a node. -/
def pszValue : CPLXMLNode → String
  | mk _ v _ _ _ => v

/-- The attributes of a node, in document order. -/
def attrs : CPLXMLNode → List (String × String)
  | mk _ _ a _ _ => a

/-- The text content of a node. -/
def text : CPLXMLNode → Option String
  | mk _ _ _ t _ => t

/-- The children of a node, in document order. -/
def psChild : CPLXMLNode → List CPLXMLNode
  | mk _ _ _ _ c => c

end CPLXMLNode

/-- The first value stored under `key` in an attribute list. -/
def attrLookup (key : String) : List (String × String) → Option String
  | [] => none
  | (k, v) :: rest => if k = key then some v else attrLookup key rest

/-- Modelled from the spec: `CPLGetXMLValue(psRoot, pszPath, nullptr)` is defined in
`cpl_minixml.cpp`, not part of the sources at hand; it yields the value of the
attribute named `pszPath`, and the null pointer (`none`) when the node has no such
attribute. -/
def CPLGetXMLValueOrNull (psRoot : CPLXMLNode) (pszPath : String) : Option String :=
  attrLookup pszPath psRoot.attrs

/-- Modelled from the spec: `CPLGetXMLValue(psRoot, pszPath, pszDefault)` with a
default that is not null: the value of the attribute named `pszPath`, or the text
content of the node itself when `pszPath` is the null pointer (`none`); the default
when that is absent. -/
def CPLGetXMLValue (psRoot : CPLXMLNode) (pszPath : Option String) (pszDefault : String) :
    String :=
  match pszPath with
  | some path => (attrLookup path psRoot.attrs).getD pszDefault
  | none => psRoot.text.getD pszDefault

/-- The test `psIter->eType == CXT_Element && strcmp(psIter->pszValue, name) == 0`
of every loop of `main`. -/
def isElementNamed (psIter : CPLXMLNode) (name : String) : Bool :=
  psIter.eType = CPLXMLNodeType.CXT_Element ∧ psIter.pszValue = name

/-! ## The collaborators of `main` -/

/-- The values of `DDF_data_struct_code` (`iso8211.h`). -/
inductive DDF_data_struct_code where
  | dsc_elementary
  | dsc_vector
  | dsc_array
  | dsc_concatenated
  deriving DecidableEq, Repr

/-- The values of `DDF_data_type_code` (`iso8211.h`). -/
inductive DDF_data_type_code where
  | dtc_char_string
  | dtc_implicit_point
  | dtc_explicit_point
  | dtc_explicit_point_scaled
  | dtc_char_bit_string
  | dtc_bit_string
  | dtc_mixed_data_type
  deriving DecidableEq, Repr

/-- One call of `main` on a collaborator, with the arguments it passes.  A field
definition and a field instance are identified by the tag they were created or
looked up with. -/
inductive Call where
  /-- Call `printf(msg)`: a message on the standard output. -/
  | printf (msg : String)
  /-- Call `fprintf(stderr, ...)`: a message on the diagnostic stream. -/
  | fprintf_stderr (msg : String)
  /-- Call `CPLParseXMLFile(pszFilename)`: the description file is read. -/
  | CPLParseXMLFile (pszFilename : String)
  /-- Call `oModule.Initialize(...)` (lines 125-128). -/
  | Initialize (chInterchangeLevel chLeaderIden chCodeExtensionIndicator chVersionNumber
      chAppIndicator : Char) (pszExtendedCharSet : String)
      (nSizeFieldLength nSizeFieldPos nSizeFieldTag : Int)
  /-- Call `oModule.SetFieldControlLength(n)` (lines 129-131). -/
  | SetFieldControlLength (n : Int)
  /-- Call `poFDefn->Create(...)` (lines 186-189); `pszFormatControls` is `none` for the
  null pointer. -/
  | FieldDefnCreate (pszTag pszFieldName pszArrayDescr : String)
      (eStructCode : DDF_data_struct_code) (eTypeCode : DDF_data_type_code)
      (pszFormatControls : Option String)
  /-- Call `poFDefn->AddSubfield(name, format)` (lines 197-199). -/
  | AddSubfield (pszTag pszName pszFormat : String)
  /-- Call `poFDefn->SetFormatControls(...)` (line 207). -/
  | SetFormatControls (pszTag pszFormatControls : String)
  /-- Call `oModule.AddField(poFDefn)` (line 209). -/
  | ModuleAddField (pszTag : String)
  /-- Call `oModule.Create(pszOutFilename)` (line 217); `none` is the null pointer. -/
  | ModuleCreate (pszOutFilename : Option String)
  /-- Call `new DDFRecord(&oModule)` (line 221). -/
  | NewRecord
  /-- Call `poRec->SetSizeFieldLength(n)` (line 228). -/
  | SetSizeFieldLength (n : Int)
  /-- Call `poRec->SetSizeFieldPos(n)` (line 231). -/
  | SetSizeFieldPos (n : Int)
  /-- Call `poRec->SetSizeFieldTag(n)` (line 234). -/
  | SetSizeFieldTag (n : Int)
  /-- Call `poRec->AddField(poFieldDefn)` (line 258). -/
  | RecordAddField (pszFieldName : String)
  /-- Call `poRec->SetFieldRaw(poField, nFieldOcc, pabyData, nDataLen)` (lines 282-283). -/
  | SetFieldRaw (pszFieldName : String) (nFieldOcc : Nat) (pabyData : List Nat)
      (nDataLen : Nat)
  /-- Call `poRec->SetFloatSubfield(...)` (lines 306-309); the last argument is the text
  handed to `CPLAtof`, and the floating-point value the call passes is `CPLAtof` of
  that text (`Call.floatValue`, for any reading of `CPLAtof`). -/
  | SetFloatSubfield (pszFieldName : String) (nFieldOcc : Nat) (pszSubfieldName : String)
      (nOcc : Nat) (pszSubfieldValue : String)
  /-- Call `poRec->SetIntSubfield(...)` (lines 314-317). -/
  | SetIntSubfield (pszFieldName : String) (nFieldOcc : Nat) (pszSubfieldName : String)
      (nOcc : Nat) (nValue : Int)
  /-- Call `poRec->SetStringSubfield(...)` with a C string (lines 321-324). -/
  | SetStringSubfield (pszFieldName : String) (nFieldOcc : Nat) (pszSubfieldName : String)
      (nOcc : Nat) (pszSubfieldValue : String)
  /-- Call `poRec->SetStringSubfield(...)` with a byte buffer and its length
  (lines 351-354). -/
  | SetStringSubfieldBytes (pszFieldName : String) (nFieldOcc : Nat)
      (pszSubfieldName : String) (nOcc : Nat) (pabyData : List Nat) (nDataLen : Nat)
  /-- Call `poRec->Write()` (line 365). -/
  | Write
  /-- Call `oModule.Close()` (line 374). -/
  | Close
  deriving DecidableEq, Repr

/-- How a piece of the program ends: it runs to its end (`done`), it calls
`exit(code)`, or it reads outside a string (`fault`, undefined behaviour). -/
inductive Status where
  | done
  | exit (code : Int)
  | fault
  deriving DecidableEq, Repr

/-- The calls a piece of the program makes, in order, and how it ends. -/
structure Run where
  calls : List Call
  status : Status
  deriving DecidableEq, Repr

/-- Sequencing: `second` runs only when `first` ran to its end. -/
def Run.andThen (first second : Run) : Run :=
  match first.status with
  | Status.done => { calls := first.calls ++ second.calls, status := second.status }
  | _ => first

/-- A piece that makes the given calls and runs to its end. -/
def Run.ofCalls (calls : List Call) : Run :=
  { calls := calls, status := Status.done }

/-- The process exit code of a finished run: `0` when `main` returns, the argument
of `exit` otherwise; none for undefined behaviour. -/
def Run.exitCode (r : Run) : Option Int :=
  match r.status with
  | Status.done => some 0
  | Status.exit code => some code
  | Status.fault => none

/-- What `main` is run against: the file system seen through the XML reader, and
the parts of the ISO 8211 library whose values it reads back. -/
structure Env where
  /-- Call `CPLParseXMLFile(pszFilename)`: the parsed document, `none` for the null
  pointer. -/
  CPLParseXMLFile : String → Option CPLXMLNode
  /-- The result of `CPLSearchXMLNode(poRoot, pszTarget)`: the node found, `none` for the null
  pointer. -/
  CPLSearchXMLNode : CPLXMLNode → String → Option CPLXMLNode
  /-- Call `oModule.GetFieldControlLength()` right after `Initialize`. -/
  GetFieldControlLength : Int

/-- The occurrence counters `std::map<std::string, int>`: a name that was never
stored reads as `0`, as `operator[]` value-initialises it. -/
abbrev OccMap := String → Nat

/-- The empty `std::map`. -/
def OccMap.empty : OccMap := fun _ => 0

/-- The update `oMap[key]++`. -/
def OccMap.incr (oMap : OccMap) (key : String) : OccMap :=
  fun k => if k = key then oMap k + 1 else oMap k

/-- Modelled from the spec: `DDFModule::FindFieldDefn` is defined in the ISO 8211
library, not part of the sources at hand; the spec resolves a field definition by
exact name match against the catalog, where a definition is known under the tag it
was created with.  The catalog is the list of the tags added so far; `true` when
the lookup yields a definition, `false` for the null pointer. -/
def FindFieldDefn (catalog : List String) (pszFieldName : String) : Bool :=
  catalog.contains pszFieldName

/-! ## `main`, block by block -/

/-- The argument loop (lines 28-43) over `papszArgv[1..]`, started with both file
names null: the first argument is the input name, the second the output name, a
third one resets the input name and leaves the loop. -/
def argLoop : Option String → Option String → List String → Option String × Option String
  | pszFilename, pszOutFilename, [] => (pszFilename, pszOutFilename)
  | pszFilename, pszOutFilename, arg :: rest =>
    if pszFilename.isNone then argLoop (some arg) pszOutFilename rest
    else if pszOutFilename.isNone then argLoop pszFilename (some arg) rest
    else (none, pszOutFilename)

/-- The tag-size loop (lines 67-84) from the current `nSizeFieldTag`; `none` when
it reaches `exit(1)`. -/
def tagSizeLoop : Nat → List CPLXMLNode → Option Nat
  | nSizeFieldTag, [] => some nSizeFieldTag
  | nSizeFieldTag, psIter :: psNext =>
    if isElementNamed psIter "DDFFieldDefn" then
      let pszTag := CPLGetXMLValue psIter (some "tag") ""
      if nSizeFieldTag = 0 then tagSizeLoop pszTag.length psNext
      else if nSizeFieldTag ≠ pszTag.length then none
      else tagSizeLoop nSizeFieldTag psNext
    else tagSizeLoop nSizeFieldTag psNext

/-- The first character `psz[0]` of a C string (the NUL of the empty string). -/
def firstChar (psz : String) : Char :=
  psz.data.headD NUL

/-- The three size values handed to `Initialize`, which a new record starts
from. -/
structure SizeFields where
  nSizeFieldLength : Int
  nSizeFieldPos : Int
  nSizeFieldTag : Int
  deriving DecidableEq, Repr

/-- The size values read from the module node (lines 114-122); `nSizeFieldTag` is
the width computed by the tag-size loop. -/
def moduleSizes (poXMLDDFModule : CPLXMLNode) (nSizeFieldTag : Nat) : SizeFields :=
  { nSizeFieldLength := atoi (CPLGetXMLValue poXMLDDFModule (some "_sizeFieldLength") (fmtInt 3))
    nSizeFieldPos := atoi (CPLGetXMLValue poXMLDDFModule (some "_sizeFieldPos") (fmtInt 4))
    nSizeFieldTag :=
      atoi (CPLGetXMLValue poXMLDDFModule (some "_sizeFieldTag") (fmtInt (nSizeFieldTag : Int))) }

/-- The call `oModule.Initialize(...)` of lines 86-128. -/
def initializeCall (poXMLDDFModule : CPLXMLNode) (nSizeFieldTag : Nat) : Call :=
  Call.Initialize
    (firstChar (CPLGetXMLValue poXMLDDFModule (some "_interchangeLevel") "3"))
    (firstChar (CPLGetXMLValue poXMLDDFModule (some "_leaderIden") "L"))
    (firstChar (CPLGetXMLValue poXMLDDFModule (some "_inlineCodeExtensionIndicator") "E"))
    (firstChar (CPLGetXMLValue poXMLDDFModule (some "_versionNumber") "1"))
    (firstChar (CPLGetXMLValue poXMLDDFModule (some "_appIndicator") " "))
    (String.mk ((CPLGetXMLValue poXMLDDFModule (some "_extendedCharSet") " ! ").data.take 3))
    (moduleSizes poXMLDDFModule nSizeFieldTag).nSizeFieldLength
    (moduleSizes poXMLDDFModule nSizeFieldTag).nSizeFieldPos
    (moduleSizes poXMLDDFModule nSizeFieldTag).nSizeFieldTag

/-- The structure code of lines 144-154. -/
def structCode (pszStructCode : String) : DDF_data_struct_code :=
  if pszStructCode = "elementary" then DDF_data_struct_code.dsc_elementary
  else if pszStructCode = "vector" then DDF_data_struct_code.dsc_vector
  else if pszStructCode = "array" then DDF_data_struct_code.dsc_array
  else if pszStructCode = "concatenated" then DDF_data_struct_code.dsc_concatenated
  else DDF_data_struct_code.dsc_elementary

/-- The type code of lines 156-172. -/
def typeCode (pszTypeCode : String) : DDF_data_type_code :=
  if pszTypeCode = "char_string" then DDF_data_type_code.dtc_char_string
  else if pszTypeCode = "implicit_point" then DDF_data_type_code.dtc_implicit_point
  else if pszTypeCode = "explicit_point" then DDF_data_type_code.dtc_explicit_point
  else if pszTypeCode = "explicit_point_scaled" then
    DDF_data_type_code.dtc_explicit_point_scaled
  else if pszTypeCode = "char_bit_string" then DDF_data_type_code.dtc_char_bit_string
  else if pszTypeCode = "bit_string" then DDF_data_type_code.dtc_bit_string
  else if pszTypeCode = "mixed_data_type" then DDF_data_type_code.dtc_mixed_data_type
  else DDF_data_type_code.dtc_char_string

/-- The format controls handed to `Create` (lines 174-177). -/
def createFormatControls (psIter : CPLXMLNode) (eStructCode : DDF_data_struct_code) :
    Option String :=
  if eStructCode ≠ DDF_data_struct_code.dsc_elementary then none
  else CPLGetXMLValueOrNull psIter "formatControls"

/-- The array descriptor handed to `Create` (lines 179-184). -/
def createArrayDescr (psIter : CPLXMLNode) (eStructCode : DDF_data_struct_code) : String :=
  if eStructCode = DDF_data_struct_code.dsc_vector then ""
  else if eStructCode = DDF_data_struct_code.dsc_array then "*"
  else CPLGetXMLValue psIter (some "arrayDescr") ""

/-- The subfield-definition loop (lines 191-202) of the definition created with
`pszTag`. -/
def subfieldDefnLoop (pszTag : String) : List CPLXMLNode → List Call
  | [] => []
  | psSubIter :: psNext =>
    if isElementNamed psSubIter "DDFSubfieldDefn" then
      Call.AddSubfield pszTag (CPLGetXMLValue psSubIter (some "name") "")
          (CPLGetXMLValue psSubIter (some "format") "")
        :: subfieldDefnLoop pszTag psNext
    else subfieldDefnLoop pszTag psNext

/-- The late `SetFormatControls` of lines 204-207. -/
def setFormatControlsCalls (psIter : CPLXMLNode) (pszTag : String) : List Call :=
  match CPLGetXMLValueOrNull psIter "formatControls" with
  | some pszFormatControls => [Call.SetFormatControls pszTag pszFormatControls]
  | none => []

/-- The `DDFFieldDefn` branch of the main loop (lines 142-209). -/
def fieldDefnCalls (psIter : CPLXMLNode) : List Call :=
  let eStructCode := structCode (CPLGetXMLValue psIter (some "dataStructCode") "")
  let eTypeCode := typeCode (CPLGetXMLValue psIter (some "dataTypeCode") "")
  let pszTag := CPLGetXMLValue psIter (some "tag") ""
  [Call.FieldDefnCreate pszTag (CPLGetXMLValue psIter (some "fieldName") "")
      (createArrayDescr psIter eStructCode) eStructCode eTypeCode
      (createFormatControls psIter eStructCode)]
    ++ subfieldDefnLoop pszTag psIter.psChild
    ++ setFormatControlsCalls psIter pszTag
    ++ [Call.ModuleAddField pszTag]

/-- The type dispatch of one `DDFSubfield` node (lines 304-356), with the
occurrence index `nOcc` read at line 302. -/
def subfieldBody (pszFieldName : String) (nFieldOcc : Nat) (psSubfieldIter : CPLXMLNode)
    (nOcc : Nat) : Run :=
  let pszSubfieldName := CPLGetXMLValue psSubfieldIter (some "name") ""
  let pszSubfieldType := CPLGetXMLValue psSubfieldIter (some "type") ""
  let pszSubfieldValue := CPLGetXMLValue psSubfieldIter none ""
  if pszSubfieldType = "float" then
    Run.ofCalls
      [Call.SetFloatSubfield pszFieldName nFieldOcc pszSubfieldName nOcc pszSubfieldValue]
  else if pszSubfieldType = "integer" then
    Run.ofCalls
      [Call.SetIntSubfield pszFieldName nFieldOcc pszSubfieldName nOcc (atoi pszSubfieldValue)]
  else if pszSubfieldType = "string" then
    Run.ofCalls
      [Call.SetStringSubfield pszFieldName nFieldOcc pszSubfieldName nOcc pszSubfieldValue]
  else if pszSubfieldType = "binary" then
    match skip0x pszSubfieldValue with
    | some pszHex =>
      match binDecode pszHex with
      | some pabyData =>
        Run.ofCalls
          [Call.SetStringSubfieldBytes pszFieldName nFieldOcc pszSubfieldName nOcc pabyData
            (pszHex.length / 2)]
      | none => { calls := [], status := Status.fault }
    | none => Run.ofCalls []
  else Run.ofCalls []

/-- The subfield loop (lines 290-359) of one field instance, from the current
`oMapSubfield`. -/
def subfieldLoop (pszFieldName : String) (nFieldOcc : Nat) :
    OccMap → List CPLXMLNode → Run
  | _, [] => Run.ofCalls []
  | oMapSubfield, psSubfieldIter :: psNext =>
    if isElementNamed psSubfieldIter "DDFSubfield" then
      let pszSubfieldName := CPLGetXMLValue psSubfieldIter (some "name") ""
      let nOcc := oMapSubfield pszSubfieldName
      (subfieldBody pszFieldName nFieldOcc psSubfieldIter nOcc).andThen
        (subfieldLoop pszFieldName nFieldOcc (oMapSubfield.incr pszSubfieldName) psNext)
    else subfieldLoop pszFieldName nFieldOcc oMapSubfield psNext

/-- The value of one resolved `DDFField` node (lines 258-360), with the
occurrence index `nFieldOcc` read at line 255: the raw path when the `value`
attribute is present and starts with `0x`, the subfield loop with a fresh
`oMapSubfield` otherwise. -/
def fieldBody (pszFieldName : String) (nFieldOcc : Nat) (psSubIter : CPLXMLNode) : Run :=
  (Run.ofCalls [Call.RecordAddField pszFieldName]).andThen
    (match (CPLGetXMLValueOrNull psSubIter "value").bind skip0x with
     | some pszHex =>
       match rawDecode pszHex with
       | some pabyData =>
         Run.ofCalls [Call.SetFieldRaw pszFieldName nFieldOcc pabyData (pszHex.length / 2)]
       | none => { calls := [], status := Status.fault }
     | none => subfieldLoop pszFieldName nFieldOcc OccMap.empty psSubIter.psChild)

/-- The field loop (lines 239-363) of one record, from the current `oMapField`,
against the catalog of the definitions added so far. -/
def fieldLoop (catalog : List String) : OccMap → List CPLXMLNode → Run
  | _, [] => Run.ofCalls []
  | oMapField, psSubIter :: psNext =>
    if isElementNamed psSubIter "DDFField" then
      let pszFieldName := CPLGetXMLValue psSubIter (some "name") ""
      if FindFieldDefn catalog pszFieldName then
        let nFieldOcc := oMapField pszFieldName
        (fieldBody pszFieldName nFieldOcc psSubIter).andThen
          (fieldLoop catalog (oMapField.incr pszFieldName) psNext)
      else
        { calls := [Call.fprintf_stderr ("Can't find field '" ++ pszFieldName ++ "'\n")],
          status := Status.exit 1 }
    else fieldLoop catalog oMapField psNext

/-- Modelled from the spec: the getters `GetSizeFieldLength`, `GetSizeFieldPos` and
`GetSizeFieldTag` of a new `DDFRecord` are defined in the ISO 8211 library, not
part of the sources at hand; by the spec a record inherits the three values from
the module.  These are the three setter calls of lines 228-236. -/
def recordSizeCalls (sizes : SizeFields) (psIter : CPLXMLNode) : List Call :=
  [Call.SetSizeFieldLength
      (atoi (CPLGetXMLValue psIter (some "_sizeFieldLength") (fmtInt sizes.nSizeFieldLength))),
    Call.SetSizeFieldPos
      (atoi (CPLGetXMLValue psIter (some "_sizeFieldPos") (fmtInt sizes.nSizeFieldPos))),
    Call.SetSizeFieldTag
      (atoi (CPLGetXMLValue psIter (some "_sizeFieldTag") (fmtInt sizes.nSizeFieldTag)))]

/-- The lazy `oModule.Create` of lines 215-219. -/
def createCalls (pszOutFilename : Option String) (bCreated : Bool) : List Call :=
  if bCreated then [] else [Call.ModuleCreate pszOutFilename]

/-- The `DDFRecord` branch of the main loop (lines 214-366). -/
def recordBody (pszOutFilename : Option String) (sizes : SizeFields) (catalog : List String)
    (bCreated : Bool) (psIter : CPLXMLNode) : Run :=
  (Run.ofCalls (createCalls pszOutFilename bCreated ++ [Call.NewRecord]
      ++ recordSizeCalls sizes psIter)).andThen
    ((fieldLoop catalog OccMap.empty psIter.psChild).andThen (Run.ofCalls [Call.Write]))

/-- The main loop (lines 136-370) over the children of the module node, from the
current catalog and `bCreated`. -/
def moduleLoop (pszOutFilename : Option String) (sizes : SizeFields) :
    List String → Bool → List CPLXMLNode → Run
  | _, _, [] => Run.ofCalls []
  | catalog, bCreated, psIter :: psNext =>
    if isElementNamed psIter "DDFFieldDefn" then
      (Run.ofCalls (fieldDefnCalls psIter)).andThen
        (moduleLoop pszOutFilename sizes
          (catalog ++ [CPLGetXMLValue psIter (some "tag") ""]) bCreated psNext)
    else if isElementNamed psIter "DDFRecord" then
      (recordBody pszOutFilename sizes catalog bCreated psIter).andThen
        (moduleLoop pszOutFilename sizes catalog true psNext)
    else moduleLoop pszOutFilename sizes catalog bCreated psNext

/-- The part of `main` after the tag-size loop (lines 86-376): the module is
initialised, the main loop runs, the module is closed and `main` returns. -/
def mainBody (env : Env) (pszOutFilename : Option String) (poXMLDDFModule : CPLXMLNode)
    (nSizeFieldTag : Nat) : Run :=
  (Run.ofCalls
      [initializeCall poXMLDDFModule nSizeFieldTag,
        Call.SetFieldControlLength
          (atoi (CPLGetXMLValue poXMLDDFModule (some "_fieldControlLength")
            (fmtInt env.GetFieldControlLength)))]).andThen
    ((moduleLoop pszOutFilename (moduleSizes poXMLDDFModule nSizeFieldTag) [] false
        poXMLDDFModule.psChild).andThen
      (Run.ofCalls [Call.Close]))

/-- The program `main` (lines 20-377) on the argument vector `papszArgv`, whose
first entry is the program name. -/
def main (env : Env) (papszArgv : List String) : Run :=
  match argLoop none none (papszArgv.drop 1) with
  | (none, _) =>
    { calls := [Call.printf "Usage: 8211createfromxml filename.xml outfilename\n"],
      status := Status.exit 1 }
  | (some pszFilename, pszOutFilename) =>
    match env.CPLParseXMLFile pszFilename with
    | none =>
      { calls := [Call.CPLParseXMLFile pszFilename,
          Call.fprintf_stderr ("Cannot parse XML file '" ++ pszFilename ++ "'\n")],
        status := Status.exit 1 }
    | some poRoot =>
      match env.CPLSearchXMLNode poRoot "=DDFModule" with
      | none =>
        { calls := [Call.CPLParseXMLFile pszFilename,
            Call.fprintf_stderr
              ("Cannot find DDFModule node in XML file '" ++ pszFilename ++ "'\n")],
          status := Status.exit 1 }
      | some poXMLDDFModule =>
        match tagSizeLoop 0 poXMLDDFModule.psChild with
        | none =>
          { calls := [Call.CPLParseXMLFile pszFilename,
              Call.fprintf_stderr "All fields have not the same tag size\n"],
            status := Status.exit 1 }
        | some nSizeFieldTag =>
          (Run.ofCalls [Call.CPLParseXMLFile pszFilename]).andThen
            (mainBody env pszOutFilename poXMLDDFModule nSizeFieldTag)

/-- The bytes of a text read two characters at a time, a trailing single
character left out: the closed form of the decoding loops. -/
def pairsDecode : List Char → List Nat
  | a :: b :: rest => rawByte (rawNibble a) (rawNibble b) :: pairsDecode rest
  | _ => []

/-! ## Vocabulary of the statements -/

/-- The name a `DDFField` or `DDFSubfield` node is looked up with:
`CPLGetXMLValue(node, "name", "")`. -/
def nodeName (node : CPLXMLNode) : String :=
  CPLGetXMLValue node (some "name") ""

/-- The number of `DDFField` elements named `pszFieldName` in a list of sibling
nodes. -/
def countField (pszFieldName : String) (nodes : List CPLXMLNode) : Nat :=
  nodes.countP (fun g => isElementNamed g "DDFField" && decide (nodeName g = pszFieldName))

/-- The number of `DDFSubfield` elements named `pszSubfieldName` in a list of
sibling nodes. -/
def countSubfield (pszSubfieldName : String) (nodes : List CPLXMLNode) : Nat :=
  nodes.countP
    (fun g => isElementNamed g "DDFSubfield" && decide (nodeName g = pszSubfieldName))

/-- The counters that map every name to the number of `DDFField` elements of that
name in `nodes`. -/
def fieldOccMap (nodes : List CPLXMLNode) : OccMap :=
  fun k => countField k nodes

/-- The counters that map every name to the number of `DDFSubfield` elements of
that name in `nodes`. -/
def subfieldOccMap (nodes : List CPLXMLNode) : OccMap :=
  fun k => countSubfield k nodes

/-- The tags of the `DDFFieldDefn` elements of a list of sibling nodes, in
document order. -/
def defnTags : List CPLXMLNode → List String
  | [] => []
  | node :: rest =>
    if isElementNamed node "DDFFieldDefn" then
      CPLGetXMLValue node (some "tag") "" :: defnTags rest
    else defnTags rest

/-- The number of `DDFRecord` elements the main loop takes as records in a list of
sibling nodes. -/
def countRecords (nodes : List CPLXMLNode) : Nat :=
  nodes.countP (fun g => isElementNamed g "DDFRecord")

/-- The number of `Write` calls in a list of calls. -/
def countWrites (calls : List Call) : Nat :=
  calls.count Call.Write

/-- The calls that assign the raw payload of a field instance. -/
def Call.isSetFieldRaw : Call → Bool
  | Call.SetFieldRaw _ _ _ _ => true
  | _ => false

/-- The calls that assign a subfield of a field instance. -/
def Call.isSubfieldSetter : Call → Bool
  | Call.SetFloatSubfield _ _ _ _ _ => true
  | Call.SetIntSubfield _ _ _ _ _ => true
  | Call.SetStringSubfield _ _ _ _ _ => true
  | Call.SetStringSubfieldBytes _ _ _ _ _ _ => true
  | _ => false

/-- The flag `bCreated` after the main loop went over `nodes`, started with
`bCreated`: set once a `DDFRecord` element was met. -/
def createdAfter (bCreated : Bool) (nodes : List CPLXMLNode) : Bool :=
  bCreated || nodes.any (fun g => isElementNamed g "DDFRecord")

/-- The field occurrence index a call passes, for the calls that pass one. -/
def Call.fieldOcc : Call → Option Nat
  | Call.SetFieldRaw _ nFieldOcc _ _ => some nFieldOcc
  | Call.SetFloatSubfield _ nFieldOcc _ _ _ => some nFieldOcc
  | Call.SetIntSubfield _ nFieldOcc _ _ _ => some nFieldOcc
  | Call.SetStringSubfield _ nFieldOcc _ _ _ => some nFieldOcc
  | Call.SetStringSubfieldBytes _ nFieldOcc _ _ _ _ => some nFieldOcc
  | _ => none

/-- The subfield name and subfield occurrence index a subfield setter passes. -/
def Call.subfieldOcc : Call → Option (String × Nat)
  | Call.SetFloatSubfield _ _ pszSubfieldName nOcc _ => some (pszSubfieldName, nOcc)
  | Call.SetIntSubfield _ _ pszSubfieldName nOcc _ => some (pszSubfieldName, nOcc)
  | Call.SetStringSubfield _ _ pszSubfieldName nOcc _ => some (pszSubfieldName, nOcc)
  | Call.SetStringSubfieldBytes _ _ pszSubfieldName nOcc _ _ => some (pszSubfieldName, nOcc)
  | _ => none

/-- An element node without text content. -/
def elementNode (pszValue : String) (attrs : List (String × String))
    (psChild : List CPLXMLNode) : CPLXMLNode :=
  CPLXMLNode.mk CPLXMLNodeType.CXT_Element pszValue attrs none psChild

/-- A `DDFSubfield` element with its name, type and text. -/
def subfieldNode (pszName pszType pszText : String) : CPLXMLNode :=
  CPLXMLNode.mk CPLXMLNodeType.CXT_Element "DDFSubfield"
    [("name", pszName), ("type", pszType)] (some pszText) []

/-- The field definition of the scenario: tag `0001`, elementary, `char_string`. -/
def scenarioDefn : CPLXMLNode :=
  elementNode "DDFFieldDefn"
    [("tag", "0001"), ("fieldName", "Text"), ("dataStructCode", "elementary"),
      ("dataTypeCode", "char_string")] []

/-- The first field node of the scenario: `0001` with the string subfield
`TXT` = `A`. -/
def scenarioFieldA : CPLXMLNode :=
  elementNode "DDFField" [("name", "0001")] [subfieldNode "TXT" "string" "A"]

/-- The second field node of the scenario: `0001` with the string subfield
`TXT` = `B`. -/
def scenarioFieldB : CPLXMLNode :=
  elementNode "DDFField" [("name", "0001")] [subfieldNode "TXT" "string" "B"]

/-- The record of the scenario: the two `0001` field nodes. -/
def scenarioRecord : CPLXMLNode :=
  elementNode "DDFRecord" [] [scenarioFieldA, scenarioFieldB]

/-- The module node of the scenario: the definition, then the record. -/
def scenarioModule : CPLXMLNode :=
  elementNode "DDFModule" [] [scenarioDefn, scenarioRecord]

/-- A field node `0001` with two `TXT` string subfields, `A` then `B`. -/
def twoSubfieldsField : CPLXMLNode :=
  elementNode "DDFField" [("name", "0001")]
    [subfieldNode "TXT" "string" "A", subfieldNode "TXT" "string" "B"]

/-- A field node with the raw value `0x4142` that also has a subfield child. -/
def rawFieldWithChild : CPLXMLNode :=
  elementNode "DDFField" [("name", "0001"), ("value", "0x4142")]
    [subfieldNode "TXT" "string" "A"]

/-- The tag-size loop read on the tags of the definitions alone. -/
def tagSizeTags : Nat → List String → Option Nat
  | nSizeFieldTag, [] => some nSizeFieldTag
  | nSizeFieldTag, pszTag :: rest =>
    if nSizeFieldTag = 0 then tagSizeTags pszTag.length rest
    else if nSizeFieldTag ≠ pszTag.length then none
    else tagSizeTags nSizeFieldTag rest

/-- A `DDFFieldDefn` element that has only its tag. -/
def defnNode (pszTag : String) : CPLXMLNode :=
  elementNode "DDFFieldDefn" [("tag", pszTag)] []

/-- The base-10 value of a run of digits, continued from `acc`. -/
def digitsValue (acc : Nat) (ds : List Char) : Nat :=
  ds.foldl (fun a c => a * 10 + (c.toNat - '0'.toNat)) acc

/-- The tag width a call hands to `Initialize`, for the calls that are one. -/
def Call.initTagWidth : Call → Option Int
  | Call.Initialize _ _ _ _ _ _ _ _ nSizeFieldTag => some nSizeFieldTag
  | _ => none

/-- The calls made from inside the field loop of a record. -/
def Call.isFieldCall : Call → Bool
  | Call.fprintf_stderr _ => true
  | Call.RecordAddField _ => true
  | Call.SetFieldRaw _ _ _ _ => true
  | Call.SetFloatSubfield _ _ _ _ _ => true
  | Call.SetIntSubfield _ _ _ _ _ => true
  | Call.SetStringSubfield _ _ _ _ _ => true
  | Call.SetStringSubfieldBytes _ _ _ _ _ _ => true
  | _ => false

/-- The calls that build and register a field definition. -/
def Call.isDefnCall : Call → Bool
  | Call.FieldDefnCreate _ _ _ _ _ _ => true
  | Call.AddSubfield _ _ _ => true
  | Call.SetFormatControls _ _ => true
  | Call.ModuleAddField _ => true
  | _ => false

/-- The calls that open a record: the lazy `Create`, the construction and the
three size setters. -/
def Call.isRecordHeadCall : Call → Bool
  | Call.ModuleCreate _ => true
  | Call.NewRecord => true
  | Call.SetSizeFieldLength _ => true
  | Call.SetSizeFieldPos _ => true
  | Call.SetSizeFieldTag _ => true
  | _ => false

/-- An environment in which every file parses to the given module node, which is
also the node the search for `DDFModule` finds. -/
def envOf (poXMLDDFModule : CPLXMLNode) (nFieldControlLength : Int) : Env :=
  { CPLParseXMLFile := fun _ => some poXMLDDFModule
    CPLSearchXMLNode := fun poRoot _ => some poRoot
    GetFieldControlLength := nFieldControlLength }

/-- A module node with the attribute `_sizeFieldTag` = `7` and one definition
tagged `0001`. -/
def overrideModule : CPLXMLNode :=
  elementNode "DDFModule" [("_sizeFieldTag", "7")] [defnNode "0001"]

/-- A field node naming the undeclared field `XXXX`. -/
def unresolvedField : CPLXMLNode :=
  elementNode "DDFField" [("name", "XXXX")] []

/-- A record whose second field node names the undeclared field `XXXX`. -/
def unresolvedRecord : CPLXMLNode :=
  elementNode "DDFRecord" [] [scenarioFieldA, unresolvedField, scenarioFieldB]

/-- A module node with the scenario definition and record, then a record that
names an undeclared field, then the scenario record again. -/
def unresolvedModule : CPLXMLNode :=
  elementNode "DDFModule" [] [scenarioDefn, scenarioRecord, unresolvedRecord, scenarioRecord]

/-- The tag a `DDFFieldDefn` node is created with: `CPLGetXMLValue(psIter, "tag", "")`. -/
def defnTag (psIter : CPLXMLNode) : String :=
  CPLGetXMLValue psIter (some "tag") ""

/-- The structure code resolved for a `DDFFieldDefn` node (lines 144-154). -/
def defnStructCode (psIter : CPLXMLNode) : DDF_data_struct_code :=
  structCode (CPLGetXMLValue psIter (some "dataStructCode") "")

/-- The type code resolved for a `DDFFieldDefn` node (lines 156-172). -/
def defnTypeCode (psIter : CPLXMLNode) : DDF_data_type_code :=
  typeCode (CPLGetXMLValue psIter (some "dataTypeCode") "")

/-- A `DDFFieldDefn` element with the given attributes and no child. -/
def defnWith (attrs : List (String × String)) : CPLXMLNode :=
  elementNode "DDFFieldDefn" attrs []

/-- A `DDFSubfieldDefn` element with its name and format. -/
def subfieldDefnNode (pszName pszFormat : String) : CPLXMLNode :=
  elementNode "DDFSubfieldDefn" [("name", pszName), ("format", pszFormat)] []

/-- A vector definition tagged `0001` with the attribute `formatControls` =
`(A)` and one subfield definition. -/
def vectorDefnWithControls : CPLXMLNode :=
  elementNode "DDFFieldDefn"
    [("tag", "0001"), ("fieldName", "Text"), ("dataStructCode", "vector"),
      ("dataTypeCode", "char_string"), ("formatControls", "(A)")]
    [subfieldDefnNode "TXT" "A"]

/-- An elementary definition tagged `0001` with the attribute `arrayDescr` = `3`. -/
def elementaryDefnWithArrayDescr : CPLXMLNode :=
  defnWith [("tag", "0001"), ("dataStructCode", "elementary"), ("arrayDescr", "3")]

/-- An elementary definition tagged `0001` with the attribute `formatControls` =
`(A)` and one subfield definition. -/
def elementaryDefnWithControls : CPLXMLNode :=
  elementNode "DDFFieldDefn"
    [("tag", "0001"), ("fieldName", "Text"), ("dataStructCode", "elementary"),
      ("dataTypeCode", "char_string"), ("formatControls", "(A)")]
    [subfieldDefnNode "TXT" "A"]

/-- The `AddSubfield` calls for the `DDFSubfieldDefn` children of a definition
node, one per child in document order, other children left out. -/
def subfieldDefnCalls (pszTag : String) (children : List CPLXMLNode) : List Call :=
  (children.filter (fun c => isElementNamed c "DDFSubfieldDefn")).map
    (fun c => Call.AddSubfield pszTag (nodeName c) (CPLGetXMLValue c (some "format") ""))

/-- A `DDFSubfield` element named `BIN` of type `binary` with the text `0x4142`. -/
def binarySubfield : CPLXMLNode :=
  subfieldNode "BIN" "binary" "0x4142"

/-- The calls that add a field to a record or write the record. -/
def Call.isAddFieldOrWrite : Call → Bool
  | Call.RecordAddField _ => true
  | Call.Write => true
  | _ => false

/-- The `AddField` calls expected for the children of a record node: one per
`DDFField` element, in document order, with the name of that element. -/
def fieldOutline (children : List CPLXMLNode) : List Call :=
  (children.filter (fun f => isElementNamed f "DDFField")).map
    (fun f => Call.RecordAddField (nodeName f))

/-- The `AddField` and `Write` calls expected for a list of sibling nodes: for
every `DDFRecord` element, in document order, the `AddField` calls of its
`DDFField` children followed by one `Write`. -/
def recordsOutline : List CPLXMLNode → List Call
  | [] => []
  | node :: rest =>
    if isElementNamed node "DDFRecord" then
      fieldOutline node.psChild ++ [Call.Write] ++ recordsOutline rest
    else recordsOutline rest

/-- A module node with a definition `0001`, a record with the fields `0001`
(subfield `A`) and `0001` (subfield `B`), and a second record with the raw field
`0001`. -/
def twoRecordsModule : CPLXMLNode :=
  elementNode "DDFModule" []
    [scenarioDefn, scenarioRecord, elementNode "DDFRecord" [] [rawFieldWithChild]]

/-- The calls that create the output file. -/
def Call.isModuleCreate : Call → Bool
  | Call.ModuleCreate _ => true
  | _ => false

/-- The number of `Create` calls in a list of calls. -/
def countCreates (calls : List Call) : Nat :=
  calls.countP Call.isModuleCreate

/-- A module node that holds two definitions and no record. -/
def noRecordModule : CPLXMLNode :=
  elementNode "DDFModule" [] [scenarioDefn, defnNode "DSID"]

/-- The nibble `n(c)` the low-bits reading gives a character: the value of the
digit for `0`-`9` and `A`-`F`, the character code modulo 16 for any other
character. -/
def lowBitsNibble (c : Char) : Nat :=
  if isUpperHex c then hexValue c else c.toNat % 16

/-- A module node whose record comes before the definition its fields name: the
scenario record, then the scenario definition. -/
def lateDefnModule : CPLXMLNode :=
  elementNode "DDFModule" [] [scenarioRecord, scenarioDefn]

/-- A field node `0001` with two `TXT` subfields: the first of the unknown type
`real`, which sets no value, the second the string `B`. -/
def skippedThenSetField : CPLXMLNode :=
  elementNode "DDFField" [("name", "0001")]
    [subfieldNode "TXT" "real" "1.5", subfieldNode "TXT" "string" "B"]

/-- The test `STARTS_WITH(psz, "0x")` read on the text alone: the first two
characters are `0` and `x`. -/
def startsWith0x (psz : String) : Prop :=
  psz.data.take 2 = ['0', 'x']

instance (psz : String) : Decidable (startsWith0x psz) := by
  unfold startsWith0x; infer_instance

/-- The least value of a C `int`. -/
def INT_MIN : Int := -2147483648

/-- The greatest value of a C `int`. -/
def INT_MAX : Int := 2147483647

/-- The integers a C `int` can hold.  The value `atoi` reads is the result of the
C library's `atoi` exactly when it is one of them. -/
def fitsInt (n : Int) : Prop :=
  INT_MIN ≤ n ∧ n ≤ INT_MAX

instance (n : Int) : Decidable (fitsInt n) := by
  unfold fitsInt; infer_instance

/-- The floating-point value a call hands to `SetFloatSubfield`, under a reading
`CPLAtof` of texts as floating-point values: the call of lines 306-309 passes
`CPLAtof(pszSubfieldValue)`, and the parse itself belongs to the library. -/
def Call.floatValue {F : Type} (CPLAtof : String → F) : Call → Option F
  | Call.SetFloatSubfield _ _ _ _ pszSubfieldValue => some (CPLAtof pszSubfieldValue)
  | _ => none

/-- A field node whose `value` attribute, `zz4142`, does not start with `0x`, with
one string subfield. -/
def otherValueField : CPLXMLNode :=
  elementNode "DDFField" [("name", "0001"), ("value", "zz4142")]
    [subfieldNode "TXT" "string" "A"]

/-! # Theorems -/

/-! ## The hexadecimal decoder -/

theorem binLoop_eq_rawLoop (s : List Char) (todo i : Nat) : binLoop s i todo = rawLoop s i todo := by
  induction todo generalizing i with
  | zero => rfl
  | succ k ih => simp only [binLoop, rawLoop, ih, binByte, rawByte, binNibble, rawNibble]

theorem binDecode_eq_rawDecode (s : List Char) : binDecode s = rawDecode s := by
  unfold binDecode rawDecode
  exact binLoop_eq_rawLoop s _ 0

theorem cAt_cons_cons (a b : Char) (rest : List Char) (k : Nat) :
    cAt (a :: b :: rest) (k + 2) = cAt rest k := by
  simp [cAt]

theorem rawLoop_shift (a b : Char) (rest : List Char) (todo i : Nat) :
    rawLoop (a :: b :: rest) (i + 1) todo = rawLoop rest i todo := by
  induction todo generalizing i with
  | zero => rfl
  | succ k ih =>
    have h1 : cAt (a :: b :: rest) (2 * (i + 1)) = cAt rest (2 * i) := cAt_cons_cons a b rest (2 * i)
    have h2 : cAt (a :: b :: rest) (2 * (i + 1) + 1) = cAt rest (2 * i + 1) :=
      cAt_cons_cons a b rest (2 * i + 1)
    simp only [rawLoop, h1, h2, ih]

/-- The decoder read off the text two characters at a time. -/
theorem rawDecode_pairs (s : List Char) : rawDecode s = some (pairsDecode s) := by
  induction s using pairsDecode.induct with
  | case1 a b rest ih =>
    have hlen : (a :: b :: rest).length / 2 = rest.length / 2 + 1 := by
      simp only [List.length_cons]; omega
    unfold rawDecode at ih ⊢
    rw [hlen]
    simp only [rawLoop, cAt, rawLoop_shift, ih, pairsDecode]
  | case2 s h =>
    match s, h with
    | [], _ => rfl
    | [_], _ => simp [rawDecode, rawLoop, pairsDecode]
    | a :: b :: rest, h => exact absurd rfl (h a b rest)

theorem rawNibble_of_isUpperHex (c : Char) (h : isUpperHex c) :
    rawNibble c = (hexValue c : Int) ∧ hexValue c < 16 := by
  have e0 : '0'.toNat = 48 := rfl
  have e9 : '9'.toNat = 57 := rfl
  have eA : 'A'.toNat = 65 := rfl
  have eF : 'F'.toNat = 70 := rfl
  unfold isUpperHex at h
  unfold rawNibble hexValue
  rw [e0, e9, eA, eF] at h
  rw [e0, eA, eF]
  rcases h with h | h
  · rw [if_neg (by omega), if_neg (by omega)]
    constructor <;> omega
  · rw [if_pos (by omega), if_pos (by omega)]
    constructor <;> omega

theorem hexDigit_hexValue (c : Char) (h : isUpperHex c) : hexDigit (hexValue c) = c := by
  have e0 : '0'.toNat = 48 := rfl
  have e9 : '9'.toNat = 57 := rfl
  have eA : 'A'.toNat = 65 := rfl
  have eF : 'F'.toNat = 70 := rfl
  unfold isUpperHex at h
  rw [e0, e9, eA, eF] at h
  rcases h with h | h
  · have hv : hexValue c = c.toNat - 48 := by
      unfold hexValue; rw [e0, eA, if_neg (by omega)]
    unfold hexDigit
    rw [hv, e0, if_pos (by omega)]
    have : 48 + (c.toNat - 48) = c.toNat := by omega
    rw [this, Char.ofNat_toNat]
  · have hv : hexValue c = c.toNat - 65 + 10 := by
      unfold hexValue; rw [eA, if_pos (by omega)]
    unfold hexDigit
    rw [hv, eA, if_neg (by omega)]
    have : 65 + (c.toNat - 65 + 10 - 10) = c.toNat := by omega
    rw [this, Char.ofNat_toNat]

theorem rawByte_of_isUpperHex (a b : Char) (ha : isUpperHex a) (hb : isUpperHex b) :
    rawByte (rawNibble a) (rawNibble b) = 16 * hexValue a + hexValue b := by
  obtain ⟨ea, la⟩ := rawNibble_of_isUpperHex a ha
  obtain ⟨eb, lb⟩ := rawNibble_of_isUpperHex b hb
  unfold rawByte
  rw [ea, eb]
  omega

theorem hexEncode_pairsDecode (s : List Char) (n : Nat) (hlen : s.length = 2 * n)
    (hhex : ∀ c ∈ s, isUpperHex c) : hexEncode (pairsDecode s) = s := by
  induction s using pairsDecode.induct generalizing n with
  | case1 a b rest ih =>
    have ha : isUpperHex a := hhex a (by simp)
    have hb : isUpperHex b := hhex b (by simp)
    have hrest : ∀ c ∈ rest, isUpperHex c := fun c hc => hhex c (by simp [hc])
    have hl : rest.length = 2 * (n - 1) := by
      simp only [List.length_cons] at hlen; omega
    have la := (rawNibble_of_isUpperHex a ha).2
    have lb := (rawNibble_of_isUpperHex b hb).2
    simp only [pairsDecode, hexEncode, rawByte_of_isUpperHex a b ha hb, ih (n - 1) hl hrest]
    have h1 : (16 * hexValue a + hexValue b) / 16 = hexValue a := by omega
    have h2 : (16 * hexValue a + hexValue b) % 16 = hexValue b := by omega
    rw [h1, h2, hexDigit_hexValue a ha, hexDigit_hexValue b hb]
  | case2 s h =>
    match s, h with
    | [], _ => rfl
    | [_], _ => simp only [List.length_singleton] at hlen; omega
    | a :: b :: rest, h => exact absurd rfl (h a b rest)

theorem pairsDecode_length (s : List Char) : (pairsDecode s).length = s.length / 2 := by
  induction s using pairsDecode.induct with
  | case1 a b rest ih =>
    simp only [pairsDecode, List.length_cons, ih]; omega
  | case2 s h =>
    match s, h with
    | [], _ => rfl
    | [_], _ => simp [pairsDecode]
    | a :: b :: rest, h => exact absurd rfl (h a b rest)

theorem pairsDecode_get (s : List Char) (i : Nat) (h : 2 * i + 1 < s.length) :
    (pairsDecode s)[i]? =
      some (rawByte (rawNibble (s.getD (2 * i) NUL)) (rawNibble (s.getD (2 * i + 1) NUL))) := by
  induction s using pairsDecode.induct generalizing i with
  | case1 a b rest ih =>
    cases i with
    | zero => simp [pairsDecode]
    | succ j =>
      have hj : 2 * j + 1 < rest.length := by
        simp only [List.length_cons] at h; omega
      have e1 : 2 * (j + 1) = 2 * j + 1 + 1 := by omega
      have e2 : 2 * (j + 1) + 1 = 2 * j + 1 + 1 + 1 := by omega
      simp only [pairsDecode, List.getElem?_cons_succ, ih j hj, e1, e2, List.getD_cons_succ]
      
  | case2 s hs =>
    match s, hs with
    | [], _ => simp at h
    | [_], _ => simp at h
    | a :: b :: rest, hs => exact absurd rfl (hs a b rest)

/-- C1: for every even-length text made only of the characters `0`-`9` and `A`-`F`,
decoding it with the per-pair loop (the raw-field loop, also entered through a
`0x` value whose marker is removed, and the binary-subfield loop) and re-encoding
the bytes as two uppercase hexadecimal digits per byte, high nibble first, gives
the text back. -/
theorem hex_decode_encode_roundtrip (s : List Char) (heven : s.length % 2 = 0)
    (hhex : ∀ c ∈ s, isUpperHex c) :
    (rawDecode s).map hexEncode = some s ∧
      (binDecode s).map hexEncode = some s ∧
      ((skip0x (String.mk ('0' :: 'x' :: s))).bind rawDecode).map hexEncode = some s := by
  have hlen : s.length = 2 * (s.length / 2) := by omega
  have hrt := hexEncode_pairsDecode s (s.length / 2) hlen hhex
  refine ⟨?_, ?_, ?_⟩
  · rw [rawDecode_pairs, Option.map_some', hrt]
  · rw [binDecode_eq_rawDecode, rawDecode_pairs, Option.map_some', hrt]
  · have hskip : skip0x (String.mk ('0' :: 'x' :: s)) = some s := by simp [skip0x]
    rw [hskip, Option.some_bind, rawDecode_pairs, Option.map_some', hrt]

/-- The round trip of C1 on the text `4142`. -/
theorem hex_decode_encode_roundtrip_witness :
    (rawDecode "4142".data).map hexEncode = some "4142".data ∧
      (binDecode "4142".data).map hexEncode = some "4142".data ∧
      ((skip0x (String.mk ('0' :: 'x' :: "4142".data))).bind rawDecode).map hexEncode
        = some "4142".data :=
  hex_decode_encode_roundtrip "4142".data (by decide) (by decide)

/-- C2: for every text `s` of `2n` characters drawn from `0`-`9` and `A`-`F`, the
raw whole-field loop and the binary-subfield loop both produce exactly `n` bytes,
byte `i` being `16 * v(s[2i]) + v(s[2i+1])` with `v` the value of the hexadecimal
digit; the two loops return the same result on every text; and a field node whose
value is `0x4142` is handed to `SetFieldRaw` as the two bytes `0x41, 0x42`. -/
theorem hex_decode_bytes (s : List Char) (n : Nat) (hlen : s.length = 2 * n)
    (hhex : ∀ c ∈ s, isUpperHex c) :
    (∃ bytes, rawDecode s = some bytes ∧ binDecode s = some bytes ∧ bytes.length = n ∧
        ∀ i, i < n → ∃ c d, s[2 * i]? = some c ∧ s[2 * i + 1]? = some d ∧
          bytes[i]? = some (16 * hexValue c + hexValue d)) ∧
      (∀ t : List Char, rawDecode t = binDecode t) ∧
      (∀ (psSubIter : CPLXMLNode) (pszFieldName : String) (nFieldOcc : Nat),
        CPLGetXMLValueOrNull psSubIter "value" = some "0x4142" →
        fieldBody pszFieldName nFieldOcc psSubIter =
          Run.ofCalls [Call.RecordAddField pszFieldName,
            Call.SetFieldRaw pszFieldName nFieldOcc [0x41, 0x42] 2]) := by
  refine ⟨⟨pairsDecode s, rawDecode_pairs s, ?_, ?_, ?_⟩, ?_, ?_⟩
  · rw [binDecode_eq_rawDecode, rawDecode_pairs]
  · rw [pairsDecode_length, hlen]; omega
  · intro i hi
    have h0 : 2 * i < s.length := by omega
    have h1 : 2 * i + 1 < s.length := by omega
    refine ⟨s[2 * i], s[2 * i + 1], List.getElem?_eq_getElem h0, List.getElem?_eq_getElem h1, ?_⟩
    rw [pairsDecode_get s i h1, List.getD_eq_getElem _ _ h0, List.getD_eq_getElem _ _ h1,
      rawByte_of_isUpperHex _ _ (hhex _ (List.getElem_mem _)) (hhex _ (List.getElem_mem _))]
  · intro t
    rw [binDecode_eq_rawDecode]
  · intro psSubIter pszFieldName nFieldOcc hv
    have hskip : skip0x "0x4142" = some "4142".data := by decide
    have hdec : rawDecode "4142".data = some [0x41, 0x42] := by decide
    unfold fieldBody
    rw [hv, Option.some_bind, hskip]
    simp only [hdec]
    rfl

/-- The statement of C2 on the text `4142`. -/
theorem hex_decode_bytes_witness :
    (∃ bytes, rawDecode "4142".data = some bytes ∧ binDecode "4142".data = some bytes ∧
        bytes.length = 2 ∧
        ∀ i, i < 2 → ∃ c d, "4142".data[2 * i]? = some c ∧ "4142".data[2 * i + 1]? = some d ∧
          bytes[i]? = some (16 * hexValue c + hexValue d)) ∧
      (∀ t : List Char, rawDecode t = binDecode t) ∧
      (∀ (psSubIter : CPLXMLNode) (pszFieldName : String) (nFieldOcc : Nat),
        CPLGetXMLValueOrNull psSubIter "value" = some "0x4142" →
        fieldBody pszFieldName nFieldOcc psSubIter =
          Run.ofCalls [Call.RecordAddField pszFieldName,
            Call.SetFieldRaw pszFieldName nFieldOcc [0x41, 0x42] 2]) :=
  hex_decode_bytes "4142".data 2 (by decide) (by decide)

/-! ## Sequencing -/

theorem Run.andThen_assoc (a b c : Run) :
    (a.andThen b).andThen c = a.andThen (b.andThen c) := by
  obtain ⟨ca, sa⟩ := a
  obtain ⟨cb, sb⟩ := b
  cases sa <;> cases sb <;> simp [Run.andThen]

theorem Run.ofCalls_andThen (calls : List Call) (r : Run) :
    (Run.ofCalls calls).andThen r = { calls := calls ++ r.calls, status := r.status } := rfl

theorem Run.nil_andThen (r : Run) : (Run.ofCalls []).andThen r = r := rfl

theorem Run.andThen_of_done (a b : Run) (h : a.status = Status.done) :
    a.andThen b = { calls := a.calls ++ b.calls, status := b.status } := by
  simp [Run.andThen, h]

theorem Run.andThen_of_not_done (a b : Run) (h : a.status ≠ Status.done) : a.andThen b = a := by
  obtain ⟨ca, sa⟩ := a
  cases sa <;> simp_all [Run.andThen]

/-! ## The loops over a list of siblings split at any point -/

theorem OccMap.incr_add_count (m : OccMap) (name : String) (p : String → Nat) :
    (fun k => OccMap.incr m name k + p k) = fun k => m k + ((if name = k then 1 else 0) + p k) := by
  funext k
  unfold OccMap.incr
  by_cases h : k = name
  · subst h; simp; omega
  · have h2 : ¬ name = k := fun e => h e.symm
    simp [h, h2]

theorem fieldLoop_cons (catalog : List String) (m : OccMap) (g : CPLXMLNode)
    (rest : List CPLXMLNode) :
    fieldLoop catalog m (g :: rest) =
      if isElementNamed g "DDFField" then
        if FindFieldDefn catalog (nodeName g) then
          (fieldBody (nodeName g) (m (nodeName g)) g).andThen
            (fieldLoop catalog (m.incr (nodeName g)) rest)
        else
          { calls := [Call.fprintf_stderr ("Can't find field '" ++ nodeName g ++ "'\n")],
            status := Status.exit 1 }
      else fieldLoop catalog m rest := rfl

theorem subfieldLoop_cons (pszFieldName : String) (nFieldOcc : Nat) (m : OccMap)
    (g : CPLXMLNode) (rest : List CPLXMLNode) :
    subfieldLoop pszFieldName nFieldOcc m (g :: rest) =
      if isElementNamed g "DDFSubfield" then
        (subfieldBody pszFieldName nFieldOcc g (m (nodeName g))).andThen
          (subfieldLoop pszFieldName nFieldOcc (m.incr (nodeName g)) rest)
      else subfieldLoop pszFieldName nFieldOcc m rest := rfl

theorem fieldLoop_append (catalog : List String) (pre rest : List CPLXMLNode) (m : OccMap) :
    fieldLoop catalog m (pre ++ rest) =
      (fieldLoop catalog m pre).andThen
        (fieldLoop catalog (fun k => m k + countField k pre) rest) := by
  induction pre generalizing m with
  | nil =>
    have : (fun k => m k + countField k []) = m := by funext k; simp [countField]
    rw [this]; rfl
  | cons g pre ih =>
    rw [List.cons_append, fieldLoop_cons, fieldLoop_cons]
    by_cases hg : isElementNamed g "DDFField" = true
    · by_cases hres : FindFieldDefn catalog (nodeName g) = true
      · have hmap : (fun k => OccMap.incr m (nodeName g) k + countField k pre)
            = fun k => m k + countField k (g :: pre) := by
          rw [OccMap.incr_add_count]
          funext k
          simp only [countField, List.countP_cons, hg, Bool.true_and, decide_eq_true_eq]
          omega
        simp only [hg, hres, if_true]
        rw [ih, hmap, Run.andThen_assoc]
      · simp only [hg, hres, if_true, Bool.false_eq_true, if_false]
        rfl
    · have hmap : (fun k => m k + countField k (g :: pre)) = fun k => m k + countField k pre := by
        funext k
        simp [countField, List.countP_cons, hg]
      simp only [hg, Bool.false_eq_true, if_false]
      rw [ih, hmap]

theorem subfieldLoop_append (pszFieldName : String) (nFieldOcc : Nat)
    (pre rest : List CPLXMLNode) (m : OccMap) :
    subfieldLoop pszFieldName nFieldOcc m (pre ++ rest) =
      (subfieldLoop pszFieldName nFieldOcc m pre).andThen
        (subfieldLoop pszFieldName nFieldOcc (fun k => m k + countSubfield k pre) rest) := by
  induction pre generalizing m with
  | nil =>
    have : (fun k => m k + countSubfield k []) = m := by funext k; simp [countSubfield]
    rw [this]; rfl
  | cons g pre ih =>
    rw [List.cons_append, subfieldLoop_cons, subfieldLoop_cons]
    by_cases hg : isElementNamed g "DDFSubfield" = true
    · have hmap : (fun k => OccMap.incr m (nodeName g) k + countSubfield k pre)
          = fun k => m k + countSubfield k (g :: pre) := by
        rw [OccMap.incr_add_count]
        funext k
        simp only [countSubfield, List.countP_cons, hg, Bool.true_and, decide_eq_true_eq]
        omega
      simp only [hg, if_true]
      rw [ih, hmap, Run.andThen_assoc]
    · have hmap : (fun k => m k + countSubfield k (g :: pre))
          = fun k => m k + countSubfield k pre := by
        funext k
        simp [countSubfield, List.countP_cons, hg]
      simp only [hg, Bool.false_eq_true, if_false]
      rw [ih, hmap]

theorem not_record_of_fieldDefn (g : CPLXMLNode) (h : isElementNamed g "DDFFieldDefn" = true) :
    isElementNamed g "DDFRecord" = false := by
  unfold isElementNamed at h ⊢
  simp only [decide_eq_true_eq, decide_eq_false_iff_not, not_and] at h ⊢
  intro _ hname
  rw [h.2] at hname
  exact absurd hname (by decide)

theorem moduleLoop_cons (pszOutFilename : Option String) (sizes : SizeFields)
    (catalog : List String) (bCreated : Bool) (g : CPLXMLNode) (rest : List CPLXMLNode) :
    moduleLoop pszOutFilename sizes catalog bCreated (g :: rest) =
      if isElementNamed g "DDFFieldDefn" then
        (Run.ofCalls (fieldDefnCalls g)).andThen
          (moduleLoop pszOutFilename sizes (catalog ++ defnTags [g]) bCreated rest)
      else if isElementNamed g "DDFRecord" then
        (recordBody pszOutFilename sizes catalog bCreated g).andThen
          (moduleLoop pszOutFilename sizes catalog true rest)
      else moduleLoop pszOutFilename sizes catalog bCreated rest := by
  by_cases hg : isElementNamed g "DDFFieldDefn" = true
  · simp only [moduleLoop, defnTags, hg, if_true]
  · simp only [moduleLoop, hg, Bool.false_eq_true, if_false]

theorem defnTags_cons (g : CPLXMLNode) (rest : List CPLXMLNode) :
    defnTags (g :: rest) = defnTags [g] ++ defnTags rest := by
  by_cases hg : isElementNamed g "DDFFieldDefn" = true <;> simp [defnTags, hg]

theorem moduleLoop_append (pszOutFilename : Option String) (sizes : SizeFields)
    (pre rest : List CPLXMLNode) (catalog : List String) (bCreated : Bool) :
    moduleLoop pszOutFilename sizes catalog bCreated (pre ++ rest) =
      (moduleLoop pszOutFilename sizes catalog bCreated pre).andThen
        (moduleLoop pszOutFilename sizes (catalog ++ defnTags pre) (createdAfter bCreated pre)
          rest) := by
  induction pre generalizing catalog bCreated with
  | nil => simp [defnTags, createdAfter, moduleLoop, Run.nil_andThen]
  | cons g pre ih =>
    rw [List.cons_append, moduleLoop_cons, moduleLoop_cons]
    by_cases hg : isElementNamed g "DDFFieldDefn" = true
    · have hr := not_record_of_fieldDefn g hg
      have hc : createdAfter bCreated (g :: pre) = createdAfter bCreated pre := by
        simp [createdAfter, hr]
      simp only [hg, if_true]
      rw [ih, Run.andThen_assoc, hc, defnTags_cons g pre, List.append_assoc]
    · have ht : defnTags (g :: pre) = defnTags pre := by simp [defnTags, hg]
      by_cases hr : isElementNamed g "DDFRecord" = true
      · have hc : createdAfter bCreated (g :: pre) = createdAfter true pre := by
          simp [createdAfter, hr]
        simp only [hg, hr, if_true, Bool.false_eq_true, if_false]
        rw [ih, Run.andThen_assoc, hc, ht]
      · have hc : createdAfter bCreated (g :: pre) = createdAfter bCreated pre := by
          simp [createdAfter, hr]
        simp only [hg, hr, Bool.false_eq_true, if_false]
        rw [ih, hc, ht]

/-! ## The start of `main` -/

theorem main_of_loaded (env : Env) (prog pszFilename pszOutFilename : String)
    (poRoot poXMLDDFModule : CPLXMLNode) (nSizeFieldTag : Nat)
    (hparse : env.CPLParseXMLFile pszFilename = some poRoot)
    (hsearch : env.CPLSearchXMLNode poRoot "=DDFModule" = some poXMLDDFModule)
    (htag : tagSizeLoop 0 poXMLDDFModule.psChild = some nSizeFieldTag) :
    main env [prog, pszFilename, pszOutFilename] =
      (Run.ofCalls [Call.CPLParseXMLFile pszFilename]).andThen
        (mainBody env (some pszOutFilename) poXMLDDFModule nSizeFieldTag) := by
  simp [main, argLoop, hparse, hsearch, htag]

/-! ## The decoders never leave the string -/

theorem rawDecode_length (s : List Char) :
    ∃ data, rawDecode s = some data ∧ data.length = s.length / 2 :=
  ⟨pairsDecode s, rawDecode_pairs s, pairsDecode_length s⟩

/-! ## What the field and subfield bodies call -/

theorem subfieldBody_calls (pszFieldName : String) (nFieldOcc : Nat) (sf : CPLXMLNode)
    (nOcc : Nat) (c : Call) (hc : c ∈ (subfieldBody pszFieldName nFieldOcc sf nOcc).calls) :
    c.fieldOcc = some nFieldOcc ∧ c.subfieldOcc = some (nodeName sf, nOcc) ∧
      c.isSubfieldSetter = true ∧ c.isSetFieldRaw = false ∧ c ≠ Call.Write := by
  unfold subfieldBody at hc
  dsimp only at hc
  split_ifs at hc
  · simp only [Run.ofCalls, List.mem_singleton] at hc; subst hc
    simp [Call.fieldOcc, Call.subfieldOcc, Call.isSubfieldSetter, Call.isSetFieldRaw, nodeName]
  · simp only [Run.ofCalls, List.mem_singleton] at hc; subst hc
    simp [Call.fieldOcc, Call.subfieldOcc, Call.isSubfieldSetter, Call.isSetFieldRaw, nodeName]
  · simp only [Run.ofCalls, List.mem_singleton] at hc; subst hc
    simp [Call.fieldOcc, Call.subfieldOcc, Call.isSubfieldSetter, Call.isSetFieldRaw, nodeName]
  · split at hc
    · rw [binDecode_eq_rawDecode, rawDecode_pairs] at hc
      simp only [Run.ofCalls, List.mem_singleton] at hc; subst hc
      simp [Call.fieldOcc, Call.subfieldOcc, Call.isSubfieldSetter, Call.isSetFieldRaw, nodeName]
    · simp [Run.ofCalls] at hc
  · simp [Run.ofCalls] at hc

theorem Run.mem_andThen (a b : Run) (c : Call) (hc : c ∈ (a.andThen b).calls) :
    c ∈ a.calls ∨ c ∈ b.calls := by
  obtain ⟨ca, sa⟩ := a
  cases sa <;> simp_all [Run.andThen]

theorem subfieldLoop_calls (pszFieldName : String) (nFieldOcc : Nat) (nodes : List CPLXMLNode)
    (m : OccMap) (c : Call) (hc : c ∈ (subfieldLoop pszFieldName nFieldOcc m nodes).calls) :
    c.fieldOcc = some nFieldOcc ∧ c.isSubfieldSetter = true ∧ c.isSetFieldRaw = false ∧
      c ≠ Call.Write := by
  induction nodes generalizing m with
  | nil => simp [subfieldLoop, Run.ofCalls] at hc
  | cons g rest ih =>
    rw [subfieldLoop_cons] at hc
    split_ifs at hc
    · rcases Run.mem_andThen _ _ c hc with h | h
      · have := subfieldBody_calls pszFieldName nFieldOcc g _ c h
        exact ⟨this.1, this.2.2.1, this.2.2.2.1, this.2.2.2.2⟩
      · exact ih _ h
    · exact ih _ hc

theorem subfieldBody_status (pszFieldName : String) (nFieldOcc : Nat) (sf : CPLXMLNode)
    (nOcc : Nat) : (subfieldBody pszFieldName nFieldOcc sf nOcc).status = Status.done := by
  unfold subfieldBody
  dsimp only
  split_ifs
  · rfl
  · rfl
  · rfl
  · split
    · rw [binDecode_eq_rawDecode, rawDecode_pairs]; rfl
    · rfl
  · rfl

theorem subfieldLoop_status (pszFieldName : String) (nFieldOcc : Nat) (nodes : List CPLXMLNode)
    (m : OccMap) : (subfieldLoop pszFieldName nFieldOcc m nodes).status = Status.done := by
  induction nodes generalizing m with
  | nil => rfl
  | cons g rest ih =>
    rw [subfieldLoop_cons]
    split_ifs
    · rw [Run.andThen_of_done _ _ (subfieldBody_status _ _ _ _)]
      exact ih _
    · exact ih _

theorem fieldBody_raw (pszFieldName : String) (nFieldOcc : Nat) (f : CPLXMLNode)
    (pszHex : List Char)
    (hv : (CPLGetXMLValueOrNull f "value").bind skip0x = some pszHex) :
    fieldBody pszFieldName nFieldOcc f =
      Run.ofCalls [Call.RecordAddField pszFieldName,
        Call.SetFieldRaw pszFieldName nFieldOcc (pairsDecode pszHex) (pszHex.length / 2)] := by
  unfold fieldBody
  rw [hv]
  simp only [rawDecode_pairs]
  rfl

theorem fieldBody_structured (pszFieldName : String) (nFieldOcc : Nat) (f : CPLXMLNode)
    (hv : (CPLGetXMLValueOrNull f "value").bind skip0x = none) :
    fieldBody pszFieldName nFieldOcc f =
      (Run.ofCalls [Call.RecordAddField pszFieldName]).andThen
        (subfieldLoop pszFieldName nFieldOcc OccMap.empty f.psChild) := by
  unfold fieldBody
  rw [hv]

theorem fieldBody_status (pszFieldName : String) (nFieldOcc : Nat) (f : CPLXMLNode) :
    (fieldBody pszFieldName nFieldOcc f).status = Status.done := by
  cases hv : (CPLGetXMLValueOrNull f "value").bind skip0x with
  | some pszHex => rw [fieldBody_raw _ _ _ _ hv]; rfl
  | none =>
    rw [fieldBody_structured _ _ _ hv, Run.ofCalls_andThen]
    exact subfieldLoop_status _ _ _ _

theorem fieldBody_calls (pszFieldName : String) (nFieldOcc : Nat) (f : CPLXMLNode) (c : Call)
    (hc : c ∈ (fieldBody pszFieldName nFieldOcc f).calls) :
    (c = Call.RecordAddField pszFieldName ∨ c.fieldOcc = some nFieldOcc) ∧ c ≠ Call.Write := by
  cases hv : (CPLGetXMLValueOrNull f "value").bind skip0x with
  | some pszHex =>
    rw [fieldBody_raw _ _ _ _ hv] at hc
    simp only [Run.ofCalls, List.mem_cons, List.mem_singleton, List.not_mem_nil, or_false] at hc
    rcases hc with h | h <;> subst h <;> simp [Call.fieldOcc]
  | none =>
    rw [fieldBody_structured _ _ _ hv, Run.ofCalls_andThen] at hc
    simp only [List.singleton_append, List.mem_cons] at hc
    rcases hc with h | h
    · subst h; simp
    · have := subfieldLoop_calls _ _ _ _ c h
      exact ⟨Or.inr this.1, this.2.2.2⟩

/-- C3: for every record node and every `DDFField` child of it whose name
resolves, the field occurrence index used for that field (the index every setter
call of the field passes) is the number of earlier `DDFField` children of the same
record node with the identical name; the count is taken over this record alone,
whatever the nodes before the record in the document were. -/
theorem field_occurrence_index (pszOutFilename : Option String) (sizes : SizeFields)
    (catalog : List String) (bCreated : Bool) (mpre mpost : List CPLXMLNode)
    (psIter : CPLXMLNode) (pre post : List CPLXMLNode) (f : CPLXMLNode)
    (hrec : isElementNamed psIter "DDFRecord" = true)
    (hchildren : psIter.psChild = pre ++ f :: post)
    (hf : isElementNamed f "DDFField" = true)
    (hres : FindFieldDefn (catalog ++ defnTags mpre) (nodeName f) = true) :
    moduleLoop pszOutFilename sizes catalog bCreated (mpre ++ psIter :: mpost) =
        (moduleLoop pszOutFilename sizes catalog bCreated mpre).andThen
          ((Run.ofCalls (createCalls pszOutFilename (createdAfter bCreated mpre)
              ++ [Call.NewRecord] ++ recordSizeCalls sizes psIter)).andThen
            ((fieldLoop (catalog ++ defnTags mpre) OccMap.empty pre).andThen
              ((fieldBody (nodeName f) (countField (nodeName f) pre) f).andThen
                ((fieldLoop (catalog ++ defnTags mpre) (fieldOccMap (pre ++ [f])) post).andThen
                  ((Run.ofCalls [Call.Write]).andThen
                    (moduleLoop pszOutFilename sizes (catalog ++ defnTags mpre) true
                      mpost)))))) ∧
      ∀ c ∈ (fieldBody (nodeName f) (countField (nodeName f) pre) f).calls,
        c = Call.RecordAddField (nodeName f) ∨
          c.fieldOcc = some (countField (nodeName f) pre) := by
  constructor
  · have hnd : ¬ isElementNamed psIter "DDFFieldDefn" = true := by
      intro h
      rw [not_record_of_fieldDefn psIter h] at hrec
      exact absurd hrec (by decide)
    have hempty : (fun k => OccMap.empty k + countField k pre) = fieldOccMap pre := by
      funext k; simp [OccMap.empty, fieldOccMap]
    have hincr : OccMap.incr (fieldOccMap pre) (nodeName f) = fieldOccMap (pre ++ [f]) := by
      funext k
      unfold OccMap.incr fieldOccMap countField
      by_cases hk : k = nodeName f
      · subst hk; simp [List.countP_append, hf]
      · have hk2 : ¬ nodeName f = k := fun e => hk e.symm
        simp [List.countP_append, hk, hk2]
    rw [moduleLoop_append, moduleLoop_cons]
    simp only [hnd, hrec, if_true, Bool.false_eq_true, if_false]
    unfold recordBody
    rw [hchildren, fieldLoop_append, fieldLoop_cons]
    simp only [hf, hres, if_true, hempty, hincr]
    have h0 : OccMap.empty (nodeName f) + countField (nodeName f) pre
        = countField (nodeName f) pre := by simp [OccMap.empty]
    simp only [Run.andThen_assoc, h0]
  · intro c hc
    exact (fieldBody_calls _ _ _ c hc).1

/-- The statement of C3 on the scenario document: the second `0001` field of the
record gets the index 1. -/
theorem field_occurrence_index_witness :
    (isElementNamed scenarioRecord "DDFRecord" = true ∧
      scenarioRecord.psChild = [scenarioFieldA] ++ scenarioFieldB :: [] ∧
      isElementNamed scenarioFieldB "DDFField" = true ∧
      FindFieldDefn ([] ++ defnTags [scenarioDefn]) (nodeName scenarioFieldB) = true) ∧
    (moduleLoop none ⟨3, 4, 4⟩ [] false ([scenarioDefn] ++ scenarioRecord :: []) =
        (moduleLoop none ⟨3, 4, 4⟩ [] false [scenarioDefn]).andThen
          ((Run.ofCalls (createCalls none (createdAfter false [scenarioDefn])
              ++ [Call.NewRecord] ++ recordSizeCalls ⟨3, 4, 4⟩ scenarioRecord)).andThen
            ((fieldLoop ([] ++ defnTags [scenarioDefn]) OccMap.empty [scenarioFieldA]).andThen
              ((fieldBody (nodeName scenarioFieldB)
                  (countField (nodeName scenarioFieldB) [scenarioFieldA]) scenarioFieldB).andThen
                ((fieldLoop ([] ++ defnTags [scenarioDefn])
                    (fieldOccMap ([scenarioFieldA] ++ [scenarioFieldB])) []).andThen
                  ((Run.ofCalls [Call.Write]).andThen
                    (moduleLoop none ⟨3, 4, 4⟩ ([] ++ defnTags [scenarioDefn]) true [])))))) ∧
      ∀ c ∈ (fieldBody (nodeName scenarioFieldB)
          (countField (nodeName scenarioFieldB) [scenarioFieldA]) scenarioFieldB).calls,
        c = Call.RecordAddField (nodeName scenarioFieldB) ∨
          c.fieldOcc = some (countField (nodeName scenarioFieldB) [scenarioFieldA])) :=
  ⟨⟨by decide, rfl, by decide, by decide⟩,
    field_occurrence_index none ⟨3, 4, 4⟩ [] false [scenarioDefn] [] scenarioRecord
      [scenarioFieldA] [] scenarioFieldB (by decide) rfl (by decide) (by decide)⟩

/-- C4: for every `DDFField` node taking the structured path and every
`DDFSubfield` child of it, the subfield occurrence index passed to the setter is
the number of earlier `DDFSubfield` children of that same field node with the
identical name, counted from 0 for each field instance.  On the scenario document
(one definition tagged `0001`, a record with two `0001` field nodes holding the
string subfield `TXT` = `A`, then `TXT` = `B`) the setter calls are
`("0001", 0, "TXT", 0, "A")` and `("0001", 1, "TXT", 0, "B")`. -/
theorem subfield_occurrence_index (pszFieldName : String) (nFieldOcc : Nat)
    (psSubIter : CPLXMLNode) (pre post : List CPLXMLNode) (sf : CPLXMLNode)
    (hpath : (CPLGetXMLValueOrNull psSubIter "value").bind skip0x = none)
    (hchildren : psSubIter.psChild = pre ++ sf :: post)
    (hsf : isElementNamed sf "DDFSubfield" = true) :
    (fieldBody pszFieldName nFieldOcc psSubIter =
        (Run.ofCalls [Call.RecordAddField pszFieldName]).andThen
          ((subfieldLoop pszFieldName nFieldOcc OccMap.empty pre).andThen
            ((subfieldBody pszFieldName nFieldOcc sf (countSubfield (nodeName sf) pre)).andThen
              (subfieldLoop pszFieldName nFieldOcc (subfieldOccMap (pre ++ [sf])) post)))) ∧
      (∀ c ∈ (subfieldBody pszFieldName nFieldOcc sf (countSubfield (nodeName sf) pre)).calls,
        c.subfieldOcc = some (nodeName sf, countSubfield (nodeName sf) pre)) ∧
      (∀ (env : Env) (prog pszFilename pszOutFilename : String) (poRoot : CPLXMLNode),
        env.CPLParseXMLFile pszFilename = some poRoot →
        env.CPLSearchXMLNode poRoot "=DDFModule" = some scenarioModule →
        (main env [prog, pszFilename, pszOutFilename]).calls.filter Call.isSubfieldSetter =
          [Call.SetStringSubfield "0001" 0 "TXT" 0 "A",
            Call.SetStringSubfield "0001" 1 "TXT" 0 "B"]) := by
  refine ⟨?_, ?_, ?_⟩
  · have hempty : (fun k => OccMap.empty k + countSubfield k pre) = subfieldOccMap pre := by
      funext k; simp [OccMap.empty, subfieldOccMap]
    have hincr : OccMap.incr (subfieldOccMap pre) (nodeName sf) = subfieldOccMap (pre ++ [sf]) := by
      funext k
      unfold OccMap.incr subfieldOccMap countSubfield
      by_cases hk : k = nodeName sf
      · subst hk; simp [List.countP_append, hsf]
      · have hk2 : ¬ nodeName sf = k := fun e => hk e.symm
        simp [List.countP_append, hk, hk2]
    have h0 : OccMap.empty (nodeName sf) + countSubfield (nodeName sf) pre
        = countSubfield (nodeName sf) pre := by simp [OccMap.empty]
    rw [fieldBody_structured _ _ _ hpath, hchildren, subfieldLoop_append, subfieldLoop_cons]
    simp only [hsf, if_true, hempty, hincr, h0]
  · intro c hc
    exact (subfieldBody_calls _ _ _ _ c hc).2.1
  · intro env prog pszFilename pszOutFilename poRoot hparse hsearch
    have htag : tagSizeLoop 0 scenarioModule.psChild = some 4 := by decide
    rw [main_of_loaded env prog pszFilename pszOutFilename poRoot scenarioModule 4 hparse hsearch
      htag]
    have hloop : moduleLoop (some pszOutFilename) (moduleSizes scenarioModule 4) [] false
        scenarioModule.psChild =
        Run.ofCalls [Call.FieldDefnCreate "0001" "Text" ""
            DDF_data_struct_code.dsc_elementary DDF_data_type_code.dtc_char_string none,
          Call.ModuleAddField "0001", Call.ModuleCreate (some pszOutFilename), Call.NewRecord,
          Call.SetSizeFieldLength 3, Call.SetSizeFieldPos 4, Call.SetSizeFieldTag 4,
          Call.RecordAddField "0001", Call.SetStringSubfield "0001" 0 "TXT" 0 "A",
          Call.RecordAddField "0001", Call.SetStringSubfield "0001" 1 "TXT" 0 "B",
          Call.Write] := by
      rfl
    unfold mainBody
    rw [hloop]
    simp [Run.andThen, Run.ofCalls, initializeCall, Call.isSubfieldSetter]

/-- The statement of C4 on a field node with two `TXT` subfields: the second one
gets the index 1. -/
theorem subfield_occurrence_index_witness :
    ((CPLGetXMLValueOrNull twoSubfieldsField "value").bind skip0x = none ∧
      twoSubfieldsField.psChild =
        [subfieldNode "TXT" "string" "A"] ++ subfieldNode "TXT" "string" "B" :: [] ∧
      isElementNamed (subfieldNode "TXT" "string" "B") "DDFSubfield" = true) ∧
    ((fieldBody "0001" 0 twoSubfieldsField =
        (Run.ofCalls [Call.RecordAddField "0001"]).andThen
          ((subfieldLoop "0001" 0 OccMap.empty [subfieldNode "TXT" "string" "A"]).andThen
            ((subfieldBody "0001" 0 (subfieldNode "TXT" "string" "B")
                (countSubfield (nodeName (subfieldNode "TXT" "string" "B"))
                  [subfieldNode "TXT" "string" "A"])).andThen
              (subfieldLoop "0001" 0
                (subfieldOccMap
                  ([subfieldNode "TXT" "string" "A"] ++ [subfieldNode "TXT" "string" "B"]))
                [])))) ∧
      (∀ c ∈ (subfieldBody "0001" 0 (subfieldNode "TXT" "string" "B")
          (countSubfield (nodeName (subfieldNode "TXT" "string" "B"))
            [subfieldNode "TXT" "string" "A"])).calls,
        c.subfieldOcc = some (nodeName (subfieldNode "TXT" "string" "B"),
          countSubfield (nodeName (subfieldNode "TXT" "string" "B"))
            [subfieldNode "TXT" "string" "A"])) ∧
      (∀ (env : Env) (prog pszFilename pszOutFilename : String) (poRoot : CPLXMLNode),
        env.CPLParseXMLFile pszFilename = some poRoot →
        env.CPLSearchXMLNode poRoot "=DDFModule" = some scenarioModule →
        (main env [prog, pszFilename, pszOutFilename]).calls.filter Call.isSubfieldSetter =
          [Call.SetStringSubfield "0001" 0 "TXT" 0 "A",
            Call.SetStringSubfield "0001" 1 "TXT" 0 "B"])) :=
  ⟨⟨by decide, rfl, by decide⟩,
    subfield_occurrence_index "0001" 0 twoSubfieldsField [subfieldNode "TXT" "string" "A"] []
      (subfieldNode "TXT" "string" "B") (by decide) rfl (by decide)⟩

theorem skip0x_eq_none_iff (psz : String) : skip0x psz = none ↔ ¬ startsWith0x psz := by
  unfold skip0x startsWith0x
  match psz.data with
  | [] => simp
  | [_] => simp
  | c0 :: c1 :: rest =>
    simp only [List.take_succ_cons, List.take_zero, List.cons.injEq, and_true]
    split_ifs with h
    · simp [h]
    · simp [h]

theorem skip0x_of_data (psz : String) (pszHex : List Char)
    (h : psz.data = '0' :: 'x' :: pszHex) : skip0x psz = some pszHex := by
  simp [skip0x, h]

theorem fieldBody_without_raw (pszFieldName : String) (nFieldOcc : Nat) (psSubIter : CPLXMLNode)
    (hv : (CPLGetXMLValueOrNull psSubIter "value").bind skip0x = none) :
    ∀ c ∈ (fieldBody pszFieldName nFieldOcc psSubIter).calls, c.isSetFieldRaw = false := by
  intro c hc
  rw [fieldBody_structured _ _ _ hv, Run.ofCalls_andThen] at hc
  simp only [List.singleton_append, List.mem_cons] at hc
  rcases hc with h | h
  · subst h; rfl
  · exact (subfieldLoop_calls _ _ _ _ c h).2.2.1

/-- C5: for every `DDFField` node whose `value` attribute is present and starts
with `0x`, exactly one `SetFieldRaw` call, with the bytes decoded from the rest of
the value, and no subfield setter call is made for that field instance, whatever
children the node has; for every other `DDFField` node, that is one without a
`value` attribute or with a value whose first two characters are not `0x`, no
`SetFieldRaw` call is made.  So no field instance gets both a raw payload and
subfield assignments. -/
theorem raw_and_structured_exclusive (pszFieldName : String) (nFieldOcc : Nat)
    (psSubIter : CPLXMLNode) :
    (∀ (pszValue : String) (pszHex : List Char),
        CPLGetXMLValueOrNull psSubIter "value" = some pszValue →
        pszValue.data = '0' :: 'x' :: pszHex →
        ∃ pabyData, rawDecode pszHex = some pabyData ∧
          fieldBody pszFieldName nFieldOcc psSubIter =
            Run.ofCalls [Call.RecordAddField pszFieldName,
              Call.SetFieldRaw pszFieldName nFieldOcc pabyData (pszHex.length / 2)]) ∧
      (CPLGetXMLValueOrNull psSubIter "value" = none →
        fieldBody pszFieldName nFieldOcc psSubIter =
            (Run.ofCalls [Call.RecordAddField pszFieldName]).andThen
              (subfieldLoop pszFieldName nFieldOcc OccMap.empty psSubIter.psChild) ∧
          ∀ c ∈ (fieldBody pszFieldName nFieldOcc psSubIter).calls, c.isSetFieldRaw = false) ∧
      (∀ pszValue : String,
        CPLGetXMLValueOrNull psSubIter "value" = some pszValue → ¬ startsWith0x pszValue →
        fieldBody pszFieldName nFieldOcc psSubIter =
            (Run.ofCalls [Call.RecordAddField pszFieldName]).andThen
              (subfieldLoop pszFieldName nFieldOcc OccMap.empty psSubIter.psChild) ∧
          ∀ c ∈ (fieldBody pszFieldName nFieldOcc psSubIter).calls, c.isSetFieldRaw = false) ∧
      ¬ ((∃ c ∈ (fieldBody pszFieldName nFieldOcc psSubIter).calls, c.isSetFieldRaw = true) ∧
          (∃ c ∈ (fieldBody pszFieldName nFieldOcc psSubIter).calls,
            c.isSubfieldSetter = true)) := by
  refine ⟨?_, ?_, ?_, ?_⟩
  · intro pszValue pszHex hv hdata
    have hb : (CPLGetXMLValueOrNull psSubIter "value").bind skip0x = some pszHex := by
      rw [hv, Option.some_bind, skip0x_of_data _ _ hdata]
    exact ⟨pairsDecode pszHex, rawDecode_pairs pszHex, fieldBody_raw _ _ _ _ hb⟩
  · intro hv
    have hb : (CPLGetXMLValueOrNull psSubIter "value").bind skip0x = none := by
      rw [hv]; rfl
    exact ⟨fieldBody_structured _ _ _ hb, fieldBody_without_raw _ _ _ hb⟩
  · intro pszValue hv hno
    have hb : (CPLGetXMLValueOrNull psSubIter "value").bind skip0x = none := by
      rw [hv, Option.some_bind]
      exact (skip0x_eq_none_iff pszValue).mpr hno
    exact ⟨fieldBody_structured _ _ _ hb, fieldBody_without_raw _ _ _ hb⟩
  · rintro ⟨⟨c, hc, hraw⟩, ⟨d, hd, hset⟩⟩
    cases hv : (CPLGetXMLValueOrNull psSubIter "value").bind skip0x with
    | some pszHex =>
      rw [fieldBody_raw _ _ _ _ hv] at hd
      simp only [Run.ofCalls, List.mem_cons, List.mem_singleton, List.not_mem_nil, or_false] at hd
      rcases hd with h | h <;> subst h <;> simp [Call.isSubfieldSetter] at hset
    | none =>
      rw [fieldBody_without_raw _ _ _ hv c hc] at hraw
      exact absurd hraw (by decide)

/-- The statement of C5 on a field node with the value `0x4142` and a subfield
child, on a field node without a value, and on a field node whose value `zz4142`
does not start with `0x`. -/
theorem raw_and_structured_exclusive_witness :
    (∃ pabyData, rawDecode "4142".data = some pabyData ∧
        fieldBody "0001" 0 rawFieldWithChild =
          Run.ofCalls [Call.RecordAddField "0001",
            Call.SetFieldRaw "0001" 0 pabyData ("4142".data.length / 2)]) ∧
      (fieldBody "0001" 0 scenarioFieldA =
          (Run.ofCalls [Call.RecordAddField "0001"]).andThen
            (subfieldLoop "0001" 0 OccMap.empty scenarioFieldA.psChild) ∧
        ∀ c ∈ (fieldBody "0001" 0 scenarioFieldA).calls, c.isSetFieldRaw = false) ∧
      (fieldBody "0001" 0 otherValueField =
          (Run.ofCalls [Call.RecordAddField "0001"]).andThen
            (subfieldLoop "0001" 0 OccMap.empty otherValueField.psChild) ∧
        ∀ c ∈ (fieldBody "0001" 0 otherValueField).calls, c.isSetFieldRaw = false) :=
  ⟨(raw_and_structured_exclusive "0001" 0 rawFieldWithChild).1 "0x4142" "4142".data rfl rfl,
    (raw_and_structured_exclusive "0001" 0 scenarioFieldA).2.1 rfl,
    (raw_and_structured_exclusive "0001" 0 otherValueField).2.2.1 "zz4142" rfl (by decide)⟩

/-! ## The tag-size loop -/

theorem tagSizeLoop_eq_tagSizeTags (nodes : List CPLXMLNode) (n : Nat) :
    tagSizeLoop n nodes = tagSizeTags n (defnTags nodes) := by
  induction nodes generalizing n with
  | nil => rfl
  | cons g rest ih =>
    by_cases hg : isElementNamed g "DDFFieldDefn" = true
    · simp only [tagSizeLoop, defnTags, hg, if_true, tagSizeTags, ih]
    · simp only [tagSizeLoop, defnTags, hg, Bool.false_eq_true, if_false, ih]

theorem tagSizeTags_uniform (tags : List String) (n : Nat)
    (hall : ∀ t ∈ tags, t.length = n) : tagSizeTags n tags = some n := by
  induction tags with
  | nil => rfl
  | cons t rest ih =>
    have ht : t.length = n := hall t (by simp)
    have hrest : ∀ u ∈ rest, u.length = n := fun u hu => hall u (by simp [hu])
    unfold tagSizeTags
    by_cases h0 : n = 0
    · rw [if_pos h0, ht]; exact ih hrest
    · rw [if_neg h0, if_neg (by rw [ht]; exact fun h => h rfl)]; exact ih hrest

theorem tagSizeTags_zero_uniform (tags : List String) (n : Nat) (hne : tags ≠ [])
    (hall : ∀ t ∈ tags, t.length = n) : tagSizeTags 0 tags = some n := by
  cases tags with
  | nil => exact absurd rfl hne
  | cons t rest =>
    have ht : t.length = n := hall t (by simp)
    have hrest : ∀ u ∈ rest, u.length = n := fun u hu => hall u (by simp [hu])
    unfold tagSizeTags
    rw [if_pos rfl, ht]
    exact tagSizeTags_uniform rest n hrest

/-- C6: for every list of field-definition tags that all have the same length `n`
the tag-size loop does not fail, and the inferred tag width is `n` (as soon as
there is a definition to infer it from); for two definitions with tags of lengths
4 and 5 the run ends with `exit(1)` right after the diagnostic, before
`Initialize`: no `Create`, `AddField` or `Write` call is made. -/
theorem tag_width_uniform (nodes : List CPLXMLNode) (n : Nat)
    (hall : ∀ t ∈ defnTags nodes, t.length = n) :
    (∃ nSizeFieldTag, tagSizeLoop 0 nodes = some nSizeFieldTag) ∧
      (defnTags nodes ≠ [] → tagSizeLoop 0 nodes = some n) ∧
      ∀ (env : Env) (prog pszFilename pszOutFilename : String)
        (poRoot poXMLDDFModule : CPLXMLNode) (t4 t5 : String),
        env.CPLParseXMLFile pszFilename = some poRoot →
        env.CPLSearchXMLNode poRoot "=DDFModule" = some poXMLDDFModule →
        defnTags poXMLDDFModule.psChild = [t4, t5] → t4.length = 4 → t5.length = 5 →
        main env [prog, pszFilename, pszOutFilename] =
          { calls := [Call.CPLParseXMLFile pszFilename,
              Call.fprintf_stderr "All fields have not the same tag size\n"],
            status := Status.exit 1 } := by
  have hwidth : defnTags nodes ≠ [] → tagSizeLoop 0 nodes = some n := by
    intro hne
    rw [tagSizeLoop_eq_tagSizeTags]
    exact tagSizeTags_zero_uniform _ n hne hall
  refine ⟨?_, hwidth, ?_⟩
  · by_cases hne : defnTags nodes = []
    · exact ⟨0, by rw [tagSizeLoop_eq_tagSizeTags, hne]; rfl⟩
    · exact ⟨n, hwidth hne⟩
  · intro env prog pszFilename pszOutFilename poRoot poXMLDDFModule t4 t5 hparse hsearch htags
      h4 h5
    have htag : tagSizeLoop 0 poXMLDDFModule.psChild = none := by
      rw [tagSizeLoop_eq_tagSizeTags, htags]
      simp [tagSizeTags, h4, h5]
    simp [main, argLoop, hparse, hsearch, htag]

/-- The statement of C6 on three definitions with the tags `0001`, `DSID` and
`FRID`. -/
theorem tag_width_uniform_witness :
    (∀ t ∈ defnTags [defnNode "0001", defnNode "DSID", defnNode "FRID"], t.length = 4) ∧
    ((∃ nSizeFieldTag,
        tagSizeLoop 0 [defnNode "0001", defnNode "DSID", defnNode "FRID"]
          = some nSizeFieldTag) ∧
      (defnTags [defnNode "0001", defnNode "DSID", defnNode "FRID"] ≠ [] →
        tagSizeLoop 0 [defnNode "0001", defnNode "DSID", defnNode "FRID"] = some 4) ∧
      ∀ (env : Env) (prog pszFilename pszOutFilename : String)
        (poRoot poXMLDDFModule : CPLXMLNode) (t4 t5 : String),
        env.CPLParseXMLFile pszFilename = some poRoot →
        env.CPLSearchXMLNode poRoot "=DDFModule" = some poXMLDDFModule →
        defnTags poXMLDDFModule.psChild = [t4, t5] → t4.length = 4 → t5.length = 5 →
        main env [prog, pszFilename, pszOutFilename] =
          { calls := [Call.CPLParseXMLFile pszFilename,
              Call.fprintf_stderr "All fields have not the same tag size\n"],
            status := Status.exit 1 }) :=
  ⟨by decide,
    tag_width_uniform [defnNode "0001", defnNode "DSID", defnNode "FRID"] 4 (by decide)⟩

/-- C7, evaluated where the code departs from it: when the first definition has
an empty tag, the tag-size loop takes the width from the next definition and does
not fail, although the later tag is longer than the first; the same two tags in
the other order make it fail. -/
theorem tag_width_empty_first_tag :
    tagSizeLoop 0 [defnNode "", defnNode "AB"] = some 2 ∧
      tagSizeLoop 0 [defnNode "AB", defnNode ""] = none := by
  decide

/-! ## `atoi` after `%d` -/

theorem digitChar_toNat : ∀ d, d < 10 → (Char.ofNat ('0'.toNat + d)).toNat = 48 + d := by
  decide

theorem atoiDigits_eq_digitsValue (ds : List Char) (acc : Nat)
    (hds : ∀ c ∈ ds, isdigit c = true) : atoiDigits acc ds = digitsValue acc ds := by
  induction ds generalizing acc with
  | nil => rfl
  | cons c rest ih =>
    have hc : isdigit c = true := hds c (by simp)
    have hrest : ∀ d ∈ rest, isdigit d = true := fun d hd => hds d (by simp [hd])
    simp only [atoiDigits, hc, if_true, digitsValue, List.foldl_cons]
    exact ih _ hrest

theorem fmtNatAux_spec (fuel n : Nat) (acc : List Char) (h : n < fuel) :
    ∃ ds, fmtNatAux fuel n acc = ds ++ acc ∧ (∀ c ∈ ds, isdigit c = true) ∧
      digitsValue 0 ds = n ∧ ds ≠ [] := by
  induction fuel generalizing n acc with
  | zero => omega
  | succ fuel ih =>
    unfold fmtNatAux
    by_cases h10 : n < 10
    · rw [if_pos h10]
      refine ⟨[Char.ofNat ('0'.toNat + n)], rfl, ?_, ?_, by simp⟩
      · intro c hc
        simp only [List.mem_singleton] at hc
        subst hc
        simp only [isdigit, digitChar_toNat n h10, decide_eq_true_eq]
        constructor
        · show 48 ≤ 48 + n; omega
        · show 48 + n ≤ 57; omega
      · simp only [digitsValue, List.foldl_cons, List.foldl_nil, digitChar_toNat n h10]
        show 0 * 10 + (48 + n - 48) = n
        omega
    · rw [if_neg h10]
      have hlt : n / 10 < fuel := by omega
      have hmod : n % 10 < 10 := Nat.mod_lt _ (by decide)
      obtain ⟨ds, hds, hdig, hval, _⟩ := ih (n / 10) (Char.ofNat ('0'.toNat + n % 10) :: acc) hlt
      refine ⟨ds ++ [Char.ofNat ('0'.toNat + n % 10)], ?_, ?_, ?_, by simp⟩
      · rw [hds]; simp
      · intro c hc
        simp only [List.mem_append, List.mem_singleton] at hc
        rcases hc with hc | hc
        · exact hdig c hc
        · subst hc
          simp only [isdigit, digitChar_toNat _ hmod, decide_eq_true_eq]
          constructor
          · show 48 ≤ 48 + n % 10; omega
          · show 48 + n % 10 ≤ 57; omega
      · unfold digitsValue at hval ⊢
        rw [List.foldl_append, hval]
        simp only [List.foldl_cons, List.foldl_nil, digitChar_toNat _ hmod]
        show n / 10 * 10 + (48 + n % 10 - 48) = n
        omega

theorem atoi_fmtInt_natCast (n : Nat) : atoi (fmtInt (n : Int)) = (n : Int) := by
  obtain ⟨ds, hds, hdig, hval, hne⟩ := fmtNatAux_spec (n + 1) n [] (by omega)
  have hfmt : fmtInt (n : Int) = String.mk (fmtNat n) := rfl
  rw [hfmt]
  unfold atoi fmtNat
  rw [hds, List.append_nil]
  cases ds with
  | nil => exact absurd rfl hne
  | cons c rest =>
    have hc : isdigit c = true := hdig c (by simp)
    have hc2 : 48 ≤ c.toNat ∧ c.toNat ≤ 57 := by
      simpa [isdigit] using hc
    have hsp : isspace c = false := by
      simp only [isspace, decide_eq_false_iff_not]
      omega
    have hminus : c ≠ '-' := by
      intro e; subst e; revert hc2; decide
    have hplus : c ≠ '+' := by
      intro e; subst e; revert hc2; decide
    simp only [atoiSkip, hsp, Bool.false_eq_true, if_false, atoiSigned, hminus, hplus]
    rw [atoiDigits_eq_digitsValue _ _ hdig, hval]

/-! ## Which calls each loop makes -/

theorem Run.andThen_status_done (a b : Run) :
    (a.andThen b).status = Status.done ↔ a.status = Status.done ∧ b.status = Status.done := by
  obtain ⟨ca, sa⟩ := a
  cases sa <;> simp [Run.andThen]

theorem fieldLoop_calls (catalog : List String) (nodes : List CPLXMLNode) (m : OccMap)
    (c : Call) (hc : c ∈ (fieldLoop catalog m nodes).calls) : c.isFieldCall = true := by
  induction nodes generalizing m with
  | nil => simp [fieldLoop, Run.ofCalls] at hc
  | cons g rest ih =>
    rw [fieldLoop_cons] at hc
    split_ifs at hc
    · rcases Run.mem_andThen _ _ c hc with h | h
      · rcases (fieldBody_calls _ _ _ c h).1 with h1 | h1
        · subst h1; rfl
        · cases c <;> simp_all [Call.fieldOcc, Call.isFieldCall]
      · exact ih _ h
    · simp only [List.mem_singleton] at hc
      subst hc; rfl
    · exact ih _ hc

theorem fieldLoop_status (catalog : List String) (nodes : List CPLXMLNode) (m : OccMap) :
    (fieldLoop catalog m nodes).status = Status.done ∨
      (fieldLoop catalog m nodes).status = Status.exit 1 := by
  induction nodes generalizing m with
  | nil => exact Or.inl rfl
  | cons g rest ih =>
    rw [fieldLoop_cons]
    split_ifs
    · rw [Run.andThen_of_done _ _ (fieldBody_status _ _ _)]
      exact ih _
    · exact Or.inr rfl
    · exact ih _

theorem subfieldDefnLoop_calls (pszTag : String) (nodes : List CPLXMLNode) (c : Call)
    (hc : c ∈ subfieldDefnLoop pszTag nodes) : c.isDefnCall = true := by
  induction nodes with
  | nil => simp [subfieldDefnLoop] at hc
  | cons g rest ih =>
    unfold subfieldDefnLoop at hc
    split_ifs at hc
    · simp only [List.mem_cons] at hc
      rcases hc with h | h
      · subst h; rfl
      · exact ih h
    · exact ih hc

theorem fieldDefnCalls_calls (g : CPLXMLNode) (c : Call) (hc : c ∈ fieldDefnCalls g) :
    c.isDefnCall = true := by
  unfold fieldDefnCalls at hc
  simp only [List.mem_append, List.mem_singleton] at hc
  rcases hc with ((h | h) | h) | h
  · subst h; rfl
  · exact subfieldDefnLoop_calls _ _ c h
  · unfold setFormatControlsCalls at h
    split at h
    · simp only [List.mem_singleton] at h; subst h; rfl
    · simp at h
  · subst h; rfl

theorem recordHead_calls (pszOutFilename : Option String) (sizes : SizeFields) (bCreated : Bool)
    (g : CPLXMLNode) (c : Call)
    (hc : c ∈ createCalls pszOutFilename bCreated ++ [Call.NewRecord] ++ recordSizeCalls sizes g) :
    c.isRecordHeadCall = true := by
  simp only [List.mem_append, List.mem_singleton, createCalls, recordSizeCalls, List.mem_cons,
    List.not_mem_nil, or_false] at hc
  rcases hc with (h | h) | h
  · split_ifs at h
    · simp at h
    · simp only [List.mem_singleton] at h; subst h; rfl
  · subst h; rfl
  · rcases h with h | h | h <;> subst h <;> rfl

theorem recordBody_calls (pszOutFilename : Option String) (sizes : SizeFields)
    (catalog : List String) (bCreated : Bool) (g : CPLXMLNode) (c : Call)
    (hc : c ∈ (recordBody pszOutFilename sizes catalog bCreated g).calls) :
    c.isRecordHeadCall = true ∨ c.isFieldCall = true ∨ c = Call.Write := by
  unfold recordBody at hc
  rw [Run.ofCalls_andThen] at hc
  rcases List.mem_append.mp hc with h | h
  · exact Or.inl (recordHead_calls pszOutFilename sizes bCreated g c h)
  · rcases Run.mem_andThen _ _ c h with h1 | h1
    · exact Or.inr (Or.inl (fieldLoop_calls _ _ _ c h1))
    · simp only [Run.ofCalls, List.mem_singleton] at h1
      exact Or.inr (Or.inr h1)

theorem moduleLoop_calls (pszOutFilename : Option String) (sizes : SizeFields)
    (nodes : List CPLXMLNode) (catalog : List String) (bCreated : Bool) (c : Call)
    (hc : c ∈ (moduleLoop pszOutFilename sizes catalog bCreated nodes).calls) :
    c.isDefnCall = true ∨ c.isRecordHeadCall = true ∨ c.isFieldCall = true ∨ c = Call.Write := by
  induction nodes generalizing catalog bCreated with
  | nil => simp [moduleLoop, Run.ofCalls] at hc
  | cons g rest ih =>
    rw [moduleLoop_cons] at hc
    split_ifs at hc
    · rcases Run.mem_andThen _ _ c hc with h | h
      · exact Or.inl (fieldDefnCalls_calls g c h)
      · exact ih _ _ h
    · rcases Run.mem_andThen _ _ c hc with h | h
      · exact Or.inr (recordBody_calls _ _ _ _ g c h)
      · exact ih _ _ h
    · exact ih _ _ hc

/-! ## The calls of `main` after the tag-size loop -/

theorem Run.andThen_calls (a b : Run) :
    (a.andThen b).calls = a.calls ++ (if a.status = Status.done then b.calls else []) := by
  obtain ⟨ca, sa⟩ := a
  cases sa <;> simp [Run.andThen]

theorem Call.initTagWidth_of_isDefnCall (c : Call) (h : c.isDefnCall = true) :
    c.initTagWidth = none := by
  cases c <;> first | rfl | exact absurd h (Bool.false_ne_true)

theorem Call.initTagWidth_of_isRecordHeadCall (c : Call) (h : c.isRecordHeadCall = true) :
    c.initTagWidth = none := by
  cases c <;> first | rfl | exact absurd h (Bool.false_ne_true)

theorem Call.initTagWidth_of_isFieldCall (c : Call) (h : c.isFieldCall = true) :
    c.initTagWidth = none := by
  cases c <;> first | rfl | exact absurd h (Bool.false_ne_true)

theorem moduleLoop_initTagWidth (pszOutFilename : Option String) (sizes : SizeFields)
    (nodes : List CPLXMLNode) (catalog : List String) (bCreated : Bool) (tail : Run)
    (htail : ∀ c ∈ tail.calls, c.initTagWidth = none) :
    ((moduleLoop pszOutFilename sizes catalog bCreated nodes).andThen tail).calls.filterMap
      Call.initTagWidth = [] := by
  rw [List.filterMap_eq_nil_iff]
  intro c hc
  rcases Run.mem_andThen _ _ c hc with h | h
  · rcases moduleLoop_calls _ _ _ _ _ c h with h1 | h1 | h1 | h1
    · exact Call.initTagWidth_of_isDefnCall c h1
    · exact Call.initTagWidth_of_isRecordHeadCall c h1
    · exact Call.initTagWidth_of_isFieldCall c h1
    · subst h1; rfl
  · exact htail c h

/-- C8: when the module node carries a `_sizeFieldTag` attribute whose base-10
integer value fits a C `int`, the tag width handed to `Initialize` (the one
`Initialize` call of the run) is that value, whatever width the tag-size loop
inferred from the definitions; when the attribute is absent, it is the inferred
width.  For a value outside the range of `int` the C library leaves the result of
`atoi` open, and nothing is stated. -/
theorem init_tag_width_override (env : Env) (prog pszFilename pszOutFilename : String)
    (poRoot poXMLDDFModule : CPLXMLNode) (nSizeFieldTag : Nat)
    (hparse : env.CPLParseXMLFile pszFilename = some poRoot)
    (hsearch : env.CPLSearchXMLNode poRoot "=DDFModule" = some poXMLDDFModule)
    (htag : tagSizeLoop 0 poXMLDDFModule.psChild = some nSizeFieldTag) :
    (∀ pszValue, CPLGetXMLValueOrNull poXMLDDFModule "_sizeFieldTag" = some pszValue →
        fitsInt (atoi pszValue) →
        (main env [prog, pszFilename, pszOutFilename]).calls.filterMap Call.initTagWidth
          = [atoi pszValue]) ∧
      (CPLGetXMLValueOrNull poXMLDDFModule "_sizeFieldTag" = none →
        (main env [prog, pszFilename, pszOutFilename]).calls.filterMap Call.initTagWidth
          = [(nSizeFieldTag : Int)]) := by
  have hmain : (main env [prog, pszFilename, pszOutFilename]).calls.filterMap Call.initTagWidth
      = [(moduleSizes poXMLDDFModule nSizeFieldTag).nSizeFieldTag] := by
    rw [main_of_loaded env prog pszFilename pszOutFilename poRoot poXMLDDFModule nSizeFieldTag
      hparse hsearch htag]
    unfold mainBody
    rw [Run.ofCalls_andThen, Run.ofCalls_andThen]
    simp only [List.filterMap_append]
    rw [moduleLoop_initTagWidth _ _ _ _ _ _ (by
      intro c hc
      simp only [Run.ofCalls, List.mem_singleton] at hc
      subst hc; rfl)]
    rfl
  constructor
  · intro pszValue hv _
    rw [hmain]
    unfold CPLGetXMLValueOrNull at hv
    simp only [moduleSizes, CPLGetXMLValue, hv, Option.getD_some]
  · intro hv
    rw [hmain]
    unfold CPLGetXMLValueOrNull at hv
    simp only [moduleSizes, CPLGetXMLValue, hv, Option.getD_none, atoi_fmtInt_natCast]

/-- The statement of C8 on a module node with `_sizeFieldTag` = `7` whose one
definition has a tag of four characters: the width handed to `Initialize` is 7,
which fits a C `int`, not the inferred 4. -/
theorem init_tag_width_override_witness :
    ((envOf overrideModule 9).CPLParseXMLFile "in.xml" = some overrideModule ∧
      (envOf overrideModule 9).CPLSearchXMLNode overrideModule "=DDFModule"
        = some overrideModule ∧
      tagSizeLoop 0 overrideModule.psChild = some 4) ∧
    (CPLGetXMLValueOrNull overrideModule "_sizeFieldTag" = some "7" ∧
      fitsInt (atoi "7")) ∧
    (main (envOf overrideModule 9) ["8211createfromxml", "in.xml", "out.ddf"]).calls.filterMap
      Call.initTagWidth = [atoi "7"] :=
  ⟨⟨rfl, rfl, by decide⟩, ⟨rfl, by decide⟩,
    (init_tag_width_override (envOf overrideModule 9) "8211createfromxml" "in.xml" "out.ddf"
      overrideModule overrideModule 4 rfl rfl (by decide)).1 "7" rfl (by decide)⟩

/-- C9, evaluated where the code departs from it: with a single argument after the
program name the run does not end in the usage error; its first call reads the
description file, and on the scenario document it prints no usage message and
goes on to `Create` with a null output name. -/
theorem one_argument_is_not_a_usage_error :
    (∀ (env : Env) (prog pszFilename : String),
        (main env [prog, pszFilename]).calls.head? = some (Call.CPLParseXMLFile pszFilename)) ∧
      Call.printf "Usage: 8211createfromxml filename.xml outfilename\n"
        ∉ (main (envOf scenarioModule 9) ["8211createfromxml", "in.xml"]).calls ∧
      Call.ModuleCreate none
        ∈ (main (envOf scenarioModule 9) ["8211createfromxml", "in.xml"]).calls := by
  refine ⟨?_, by decide, by decide⟩
  intro env prog pszFilename
  simp only [main, argLoop, List.drop_succ_cons, List.drop_zero, Option.isNone_none, if_true]
  split
  · rfl
  · split
    · rfl
    · split <;> rfl

/-! ## Counting the records written -/

theorem countWrites_append (a b : List Call) :
    countWrites (a ++ b) = countWrites a + countWrites b := by
  unfold countWrites
  exact List.count_append _ _ _

theorem countWrites_eq_zero (calls : List Call) (h : ∀ c ∈ calls, c ≠ Call.Write) :
    countWrites calls = 0 := by
  unfold countWrites
  rw [List.count_eq_zero]
  intro hmem
  exact h _ hmem rfl

theorem Call.ne_write_of_isDefnCall (c : Call) (h : c.isDefnCall = true) : c ≠ Call.Write := by
  intro e; subst e; exact absurd h Bool.false_ne_true

theorem Call.ne_write_of_isRecordHeadCall (c : Call) (h : c.isRecordHeadCall = true) :
    c ≠ Call.Write := by
  intro e; subst e; exact absurd h Bool.false_ne_true

theorem Call.ne_write_of_isFieldCall (c : Call) (h : c.isFieldCall = true) : c ≠ Call.Write := by
  intro e; subst e; exact absurd h Bool.false_ne_true

theorem countWrites_fieldLoop (catalog : List String) (nodes : List CPLXMLNode) (m : OccMap) :
    countWrites (fieldLoop catalog m nodes).calls = 0 :=
  countWrites_eq_zero _ fun c hc => Call.ne_write_of_isFieldCall c (fieldLoop_calls _ _ _ c hc)

theorem countWrites_recordHead (pszOutFilename : Option String) (sizes : SizeFields)
    (bCreated : Bool) (g : CPLXMLNode) :
    countWrites (createCalls pszOutFilename bCreated ++ [Call.NewRecord]
      ++ recordSizeCalls sizes g) = 0 :=
  countWrites_eq_zero _ fun c hc =>
    Call.ne_write_of_isRecordHeadCall c (recordHead_calls _ _ _ g c hc)

theorem countWrites_fieldDefnCalls (g : CPLXMLNode) : countWrites (fieldDefnCalls g) = 0 :=
  countWrites_eq_zero _ fun c hc => Call.ne_write_of_isDefnCall c (fieldDefnCalls_calls g c hc)

theorem recordBody_eq (pszOutFilename : Option String) (sizes : SizeFields)
    (catalog : List String) (bCreated : Bool) (g : CPLXMLNode) :
    recordBody pszOutFilename sizes catalog bCreated g =
      { calls := (createCalls pszOutFilename bCreated ++ [Call.NewRecord]
            ++ recordSizeCalls sizes g) ++ (fieldLoop catalog OccMap.empty g.psChild).calls
            ++ (if (fieldLoop catalog OccMap.empty g.psChild).status = Status.done
                then [Call.Write] else []),
        status := (fieldLoop catalog OccMap.empty g.psChild).status } := by
  unfold recordBody
  rw [Run.ofCalls_andThen]
  rcases fieldLoop_status catalog g.psChild OccMap.empty with h | h
  · rw [Run.andThen_of_done _ _ h]
    simp [h, Run.ofCalls]
  · have hnd : (fieldLoop catalog OccMap.empty g.psChild).status ≠ Status.done := by
      rw [h]; exact fun e => Status.noConfusion e
    rw [Run.andThen_of_not_done _ _ hnd]
    simp [h]

theorem countWrites_recordBody (pszOutFilename : Option String) (sizes : SizeFields)
    (catalog : List String) (bCreated : Bool) (g : CPLXMLNode)
    (hdone : (recordBody pszOutFilename sizes catalog bCreated g).status = Status.done) :
    countWrites (recordBody pszOutFilename sizes catalog bCreated g).calls = 1 := by
  rw [recordBody_eq] at hdone ⊢
  simp only at hdone
  simp only [hdone, if_true]
  rw [countWrites_append, countWrites_append, countWrites_recordHead, countWrites_fieldLoop]
  rfl

theorem countWrites_moduleLoop (pszOutFilename : Option String) (sizes : SizeFields)
    (nodes : List CPLXMLNode) (catalog : List String) (bCreated : Bool)
    (hdone : (moduleLoop pszOutFilename sizes catalog bCreated nodes).status = Status.done) :
    countWrites (moduleLoop pszOutFilename sizes catalog bCreated nodes).calls
      = countRecords nodes := by
  induction nodes generalizing catalog bCreated with
  | nil => rfl
  | cons g rest ih =>
    rw [moduleLoop_cons] at hdone ⊢
    by_cases hg : isElementNamed g "DDFFieldDefn" = true
    · have hr := not_record_of_fieldDefn g hg
      simp only [hg, if_true] at hdone ⊢
      rw [Run.ofCalls_andThen] at hdone ⊢
      simp only [countWrites_append, countWrites_fieldDefnCalls, countRecords, List.countP_cons,
        hr, Bool.false_eq_true, if_false, Nat.add_zero, Nat.zero_add]
      exact ih _ _ hdone
    · by_cases hr : isElementNamed g "DDFRecord" = true
      · simp only [hg, hr, if_true, Bool.false_eq_true, if_false] at hdone ⊢
        obtain ⟨h1, h2⟩ := (Run.andThen_status_done _ _).mp hdone
        rw [Run.andThen_of_done _ _ h1]
        simp only [countWrites_append, countWrites_recordBody _ _ _ _ _ h1, countRecords,
          List.countP_cons, hr, if_true]
        have := ih _ _ h2
        unfold countRecords at this
        omega
      · simp only [hg, hr, Bool.false_eq_true, if_false] at hdone ⊢
        simp only [countRecords, List.countP_cons, hr, Bool.false_eq_true, if_false,
          Nat.add_zero]
        exact ih _ _ hdone

/-- C10: when the run reaches a `DDFField` child of a record whose name the
catalog lookup does not resolve, it ends there with `exit(1)`: the calls of the
run are those made for the nodes before the record, the opening calls of the
record, the calls for the fields before that child, and the diagnostic; the
record is not written, nothing after the field is processed, and the number of
`Write` calls is the number of record nodes that precede the record in the
document. -/
theorem unresolved_field_aborts (env : Env) (prog pszFilename pszOutFilename : String)
    (poRoot poXMLDDFModule : CPLXMLNode) (nSizeFieldTag : Nat)
    (mpre mpost : List CPLXMLNode) (psIter : CPLXMLNode) (pre post : List CPLXMLNode)
    (f : CPLXMLNode)
    (hparse : env.CPLParseXMLFile pszFilename = some poRoot)
    (hsearch : env.CPLSearchXMLNode poRoot "=DDFModule" = some poXMLDDFModule)
    (htag : tagSizeLoop 0 poXMLDDFModule.psChild = some nSizeFieldTag)
    (hmodule : poXMLDDFModule.psChild = mpre ++ psIter :: mpost)
    (hrec : isElementNamed psIter "DDFRecord" = true)
    (hchildren : psIter.psChild = pre ++ f :: post)
    (hf : isElementNamed f "DDFField" = true)
    (hreachRecord : (moduleLoop (some pszOutFilename)
      (moduleSizes poXMLDDFModule nSizeFieldTag) [] false mpre).status = Status.done)
    (hreachField : (fieldLoop (defnTags mpre) OccMap.empty pre).status = Status.done)
    (hnone : FindFieldDefn (defnTags mpre) (nodeName f) = false) :
    (main env [prog, pszFilename, pszOutFilename]).exitCode = some 1 ∧
      (main env [prog, pszFilename, pszOutFilename]).calls =
        [Call.CPLParseXMLFile pszFilename, initializeCall poXMLDDFModule nSizeFieldTag,
          Call.SetFieldControlLength
            (atoi (CPLGetXMLValue poXMLDDFModule (some "_fieldControlLength")
              (fmtInt env.GetFieldControlLength)))]
        ++ (moduleLoop (some pszOutFilename) (moduleSizes poXMLDDFModule nSizeFieldTag) [] false
            mpre).calls
        ++ (createCalls (some pszOutFilename) (createdAfter false mpre) ++ [Call.NewRecord]
            ++ recordSizeCalls (moduleSizes poXMLDDFModule nSizeFieldTag) psIter)
        ++ (fieldLoop (defnTags mpre) OccMap.empty pre).calls
        ++ [Call.fprintf_stderr ("Can't find field '" ++ nodeName f ++ "'\n")] ∧
      countWrites (main env [prog, pszFilename, pszOutFilename]).calls = countRecords mpre := by
  have hnd : ¬ isElementNamed psIter "DDFFieldDefn" = true := by
    intro h
    rw [not_record_of_fieldDefn psIter h] at hrec
    exact absurd hrec (by decide)
  have hrun : main env [prog, pszFilename, pszOutFilename] =
      { calls := [Call.CPLParseXMLFile pszFilename, initializeCall poXMLDDFModule nSizeFieldTag,
          Call.SetFieldControlLength
            (atoi (CPLGetXMLValue poXMLDDFModule (some "_fieldControlLength")
              (fmtInt env.GetFieldControlLength)))]
        ++ (moduleLoop (some pszOutFilename) (moduleSizes poXMLDDFModule nSizeFieldTag) [] false
            mpre).calls
        ++ (createCalls (some pszOutFilename) (createdAfter false mpre) ++ [Call.NewRecord]
            ++ recordSizeCalls (moduleSizes poXMLDDFModule nSizeFieldTag) psIter)
        ++ (fieldLoop (defnTags mpre) OccMap.empty pre).calls
        ++ [Call.fprintf_stderr ("Can't find field '" ++ nodeName f ++ "'\n")],
        status := Status.exit 1 } := by
    rw [main_of_loaded env prog pszFilename pszOutFilename poRoot poXMLDDFModule nSizeFieldTag
      hparse hsearch htag]
    unfold mainBody
    rw [hmodule, moduleLoop_append, moduleLoop_cons]
    simp only [hnd, hrec, if_true, Bool.false_eq_true, if_false, List.nil_append]
    unfold recordBody
    rw [hchildren, fieldLoop_append, fieldLoop_cons]
    simp only [hf, hnone, if_true, Bool.false_eq_true, if_false]
    simp [Run.andThen, Run.ofCalls, hreachRecord, hreachField]
  rw [hrun]
  refine ⟨rfl, rfl, ?_⟩
  show countWrites (_ ++ _ ++ _ ++ _ ++ _) = _
  rw [countWrites_append, countWrites_append, countWrites_append, countWrites_append,
    countWrites_fieldLoop, countWrites_recordHead,
    countWrites_moduleLoop _ _ _ _ _ hreachRecord]
  simp [countWrites, initializeCall]

/-- The statement of C10 on a document with a definition, a record, then a record
whose second field names the undeclared field `XXXX`, then another record. -/
theorem unresolved_field_aborts_witness :
    ((envOf unresolvedModule 9).CPLParseXMLFile "in.xml" = some unresolvedModule ∧
      (envOf unresolvedModule 9).CPLSearchXMLNode unresolvedModule "=DDFModule"
        = some unresolvedModule ∧
      tagSizeLoop 0 unresolvedModule.psChild = some 4 ∧
      unresolvedModule.psChild
        = [scenarioDefn, scenarioRecord] ++ unresolvedRecord :: [scenarioRecord] ∧
      isElementNamed unresolvedRecord "DDFRecord" = true ∧
      unresolvedRecord.psChild = [scenarioFieldA] ++ unresolvedField :: [scenarioFieldB] ∧
      isElementNamed unresolvedField "DDFField" = true ∧
      (moduleLoop (some "out.ddf") (moduleSizes unresolvedModule 4) [] false
        [scenarioDefn, scenarioRecord]).status = Status.done ∧
      (fieldLoop (defnTags [scenarioDefn, scenarioRecord]) OccMap.empty
        [scenarioFieldA]).status = Status.done ∧
      FindFieldDefn (defnTags [scenarioDefn, scenarioRecord]) (nodeName unresolvedField)
        = false) ∧
    ((main (envOf unresolvedModule 9) ["8211createfromxml", "in.xml", "out.ddf"]).exitCode
        = some 1 ∧
      (main (envOf unresolvedModule 9) ["8211createfromxml", "in.xml", "out.ddf"]).calls =
        [Call.CPLParseXMLFile "in.xml", initializeCall unresolvedModule 4,
          Call.SetFieldControlLength
            (atoi (CPLGetXMLValue unresolvedModule (some "_fieldControlLength")
              (fmtInt (envOf unresolvedModule 9).GetFieldControlLength)))]
        ++ (moduleLoop (some "out.ddf") (moduleSizes unresolvedModule 4) [] false
            [scenarioDefn, scenarioRecord]).calls
        ++ (createCalls (some "out.ddf") (createdAfter false [scenarioDefn, scenarioRecord])
            ++ [Call.NewRecord] ++ recordSizeCalls (moduleSizes unresolvedModule 4)
              unresolvedRecord)
        ++ (fieldLoop (defnTags [scenarioDefn, scenarioRecord]) OccMap.empty
            [scenarioFieldA]).calls
        ++ [Call.fprintf_stderr ("Can't find field '" ++ nodeName unresolvedField ++ "'\n")] ∧
      countWrites (main (envOf unresolvedModule 9)
          ["8211createfromxml", "in.xml", "out.ddf"]).calls
        = countRecords [scenarioDefn, scenarioRecord]) :=
  ⟨⟨rfl, rfl, by decide, rfl, by decide, rfl, by decide, by decide, by decide, by decide⟩,
    unresolved_field_aborts (envOf unresolvedModule 9) "8211createfromxml" "in.xml" "out.ddf"
      unresolvedModule unresolvedModule 4 [scenarioDefn, scenarioRecord] [scenarioRecord]
      unresolvedRecord [scenarioFieldA] [scenarioFieldB] unresolvedField rfl rfl (by decide) rfl
      (by decide) rfl (by decide) (by decide) (by decide) (by decide)⟩

/-! ## The field-definition branch -/

theorem fieldDefnCalls_eq (psIter : CPLXMLNode) :
    fieldDefnCalls psIter =
      [Call.FieldDefnCreate (defnTag psIter) (CPLGetXMLValue psIter (some "fieldName") "")
          (createArrayDescr psIter (defnStructCode psIter)) (defnStructCode psIter)
          (defnTypeCode psIter) (createFormatControls psIter (defnStructCode psIter))]
        ++ subfieldDefnLoop (defnTag psIter) psIter.psChild
        ++ setFormatControlsCalls psIter (defnTag psIter)
        ++ [Call.ModuleAddField (defnTag psIter)] := rfl

theorem CPLGetXMLValue_of_some (psRoot : CPLXMLNode) (pszPath pszDefault pszValue : String)
    (h : CPLGetXMLValueOrNull psRoot pszPath = some pszValue) :
    CPLGetXMLValue psRoot (some pszPath) pszDefault = pszValue := by
  unfold CPLGetXMLValueOrNull at h
  simp only [CPLGetXMLValue, h, Option.getD_some]

theorem CPLGetXMLValue_of_none (psRoot : CPLXMLNode) (pszPath pszDefault : String)
    (h : CPLGetXMLValueOrNull psRoot pszPath = none) :
    CPLGetXMLValue psRoot (some pszPath) pszDefault = pszDefault := by
  unfold CPLGetXMLValueOrNull at h
  simp only [CPLGetXMLValue, h, Option.getD_none]

/-- C13: structure-code resolution is a total function of the `dataStructCode`
attribute: the exact strings `elementary`, `vector`, `array` and `concatenated`
give their variants, every other string gives elementary, and so does an absent
attribute; whatever the attribute, the definition is created with the resolved
code (nothing fails). -/
theorem struct_code_resolution (psIter : CPLXMLNode) :
    structCode "elementary" = DDF_data_struct_code.dsc_elementary ∧
      structCode "vector" = DDF_data_struct_code.dsc_vector ∧
      structCode "array" = DDF_data_struct_code.dsc_array ∧
      structCode "concatenated" = DDF_data_struct_code.dsc_concatenated ∧
      (∀ s : String, s ≠ "elementary" → s ≠ "vector" → s ≠ "array" → s ≠ "concatenated" →
        structCode s = DDF_data_struct_code.dsc_elementary) ∧
      (∀ v, CPLGetXMLValueOrNull psIter "dataStructCode" = some v →
        defnStructCode psIter = structCode v) ∧
      (CPLGetXMLValueOrNull psIter "dataStructCode" = none →
        defnStructCode psIter = DDF_data_struct_code.dsc_elementary) ∧
      ∃ pszTag pszFieldName pszArrayDescr eTypeCode pszFormatControls rest,
        fieldDefnCalls psIter =
          Call.FieldDefnCreate pszTag pszFieldName pszArrayDescr (defnStructCode psIter)
            eTypeCode pszFormatControls :: rest := by
  refine ⟨by decide, by decide, by decide, by decide, ?_, ?_, ?_, ?_⟩
  · intro s h1 h2 h3 h4
    simp only [structCode, h1, h2, h3, h4, if_false]
  · intro v hv
    unfold defnStructCode
    rw [CPLGetXMLValue_of_some _ _ _ _ hv]
  · intro hv
    unfold defnStructCode
    rw [CPLGetXMLValue_of_none _ _ _ hv]
    decide
  · exact ⟨_, _, _, _, _, _, by rw [fieldDefnCalls_eq]; rfl⟩

/-- The statement of C13 on a definition node with `dataStructCode` = `Vector`,
which is not one of the four literals. -/
theorem struct_code_resolution_witness :
    structCode "Vector" = DDF_data_struct_code.dsc_elementary ∧
      defnStructCode (defnWith [("tag", "0001"), ("dataStructCode", "array")])
        = structCode "array" ∧
      defnStructCode (defnWith [("tag", "0001")]) = DDF_data_struct_code.dsc_elementary :=
  ⟨(struct_code_resolution (defnWith [])).2.2.2.2.1 "Vector" (by decide) (by decide)
      (by decide) (by decide),
    (struct_code_resolution (defnWith [("tag", "0001"), ("dataStructCode", "array")])).2.2.2.2.2.1
      "array" rfl,
    (struct_code_resolution (defnWith [("tag", "0001")])).2.2.2.2.2.2.1 rfl⟩

/-- C14: type-code resolution is a total function of the `dataTypeCode` attribute:
the seven exact strings give their variants (`explicit_point_scaled` is not taken
for `explicit_point`), every other string gives `char_string`, and so does an
absent attribute; the definition is created with the resolved code. -/
theorem type_code_resolution (psIter : CPLXMLNode) :
    typeCode "char_string" = DDF_data_type_code.dtc_char_string ∧
      typeCode "implicit_point" = DDF_data_type_code.dtc_implicit_point ∧
      typeCode "explicit_point" = DDF_data_type_code.dtc_explicit_point ∧
      typeCode "explicit_point_scaled" = DDF_data_type_code.dtc_explicit_point_scaled ∧
      typeCode "char_bit_string" = DDF_data_type_code.dtc_char_bit_string ∧
      typeCode "bit_string" = DDF_data_type_code.dtc_bit_string ∧
      typeCode "mixed_data_type" = DDF_data_type_code.dtc_mixed_data_type ∧
      (∀ s : String, s ≠ "char_string" → s ≠ "implicit_point" → s ≠ "explicit_point" →
        s ≠ "explicit_point_scaled" → s ≠ "char_bit_string" → s ≠ "bit_string" →
        s ≠ "mixed_data_type" → typeCode s = DDF_data_type_code.dtc_char_string) ∧
      (∀ v, CPLGetXMLValueOrNull psIter "dataTypeCode" = some v →
        defnTypeCode psIter = typeCode v) ∧
      (CPLGetXMLValueOrNull psIter "dataTypeCode" = none →
        defnTypeCode psIter = DDF_data_type_code.dtc_char_string) ∧
      ∃ pszTag pszFieldName pszArrayDescr eStructCode pszFormatControls rest,
        fieldDefnCalls psIter =
          Call.FieldDefnCreate pszTag pszFieldName pszArrayDescr eStructCode
            (defnTypeCode psIter) pszFormatControls :: rest := by
  refine ⟨by decide, by decide, by decide, by decide, by decide, by decide, by decide,
    ?_, ?_, ?_, ?_⟩
  · intro s h1 h2 h3 h4 h5 h6 h7
    simp only [typeCode, h1, h2, h3, h4, h5, h6, h7, if_false]
  · intro v hv
    unfold defnTypeCode
    rw [CPLGetXMLValue_of_some _ _ _ _ hv]
  · intro hv
    unfold defnTypeCode
    rw [CPLGetXMLValue_of_none _ _ _ hv]
    decide
  · exact ⟨_, _, _, _, _, _, by rw [fieldDefnCalls_eq]; rfl⟩

/-- The statement of C14 on the string `float`, on a definition node with
`dataTypeCode` = `bit_string` and on one without the attribute. -/
theorem type_code_resolution_witness :
    typeCode "float" = DDF_data_type_code.dtc_char_string ∧
      defnTypeCode (defnWith [("tag", "0001"), ("dataTypeCode", "bit_string")])
        = typeCode "bit_string" ∧
      defnTypeCode (defnWith [("tag", "0001")]) = DDF_data_type_code.dtc_char_string :=
  ⟨(type_code_resolution (defnWith [])).2.2.2.2.2.2.2.1 "float" (by decide) (by decide)
      (by decide) (by decide) (by decide) (by decide) (by decide),
    (type_code_resolution
      (defnWith [("tag", "0001"), ("dataTypeCode", "bit_string")])).2.2.2.2.2.2.2.2.1
      "bit_string" rfl,
    (type_code_resolution (defnWith [("tag", "0001")])).2.2.2.2.2.2.2.2.2.1 rfl⟩

/-- C16: the repeat-count descriptor handed to `Create` is the empty string when
the structure code is vector and `*` when it is array, whatever the `arrayDescr`
attribute holds; when the structure code is concatenated it is the text of the
`arrayDescr` attribute unchanged, the empty string when the attribute is
absent. -/
theorem array_descr_by_struct_code (psIter : CPLXMLNode) :
    (∃ pszTag pszFieldName eTypeCode pszFormatControls rest,
        fieldDefnCalls psIter =
          Call.FieldDefnCreate pszTag pszFieldName
            (createArrayDescr psIter (defnStructCode psIter)) (defnStructCode psIter)
            eTypeCode pszFormatControls :: rest) ∧
      (defnStructCode psIter = DDF_data_struct_code.dsc_vector →
        createArrayDescr psIter (defnStructCode psIter) = "") ∧
      (defnStructCode psIter = DDF_data_struct_code.dsc_array →
        createArrayDescr psIter (defnStructCode psIter) = "*") ∧
      (defnStructCode psIter = DDF_data_struct_code.dsc_concatenated →
        (∀ v, CPLGetXMLValueOrNull psIter "arrayDescr" = some v →
          createArrayDescr psIter (defnStructCode psIter) = v) ∧
        (CPLGetXMLValueOrNull psIter "arrayDescr" = none →
          createArrayDescr psIter (defnStructCode psIter) = "")) := by
  refine ⟨⟨_, _, _, _, _, by rw [fieldDefnCalls_eq]; rfl⟩, ?_, ?_, ?_⟩
  · intro h
    rw [h]; rfl
  · intro h
    rw [h]; rfl
  · intro h
    rw [h]
    constructor
    · intro v hv
      simp only [createArrayDescr, CPLGetXMLValue_of_some _ _ _ _ hv]
      rfl
    · intro hv
      simp only [createArrayDescr, CPLGetXMLValue_of_none _ _ _ hv]
      rfl

/-- The statement of C16 on a vector, an array and a concatenated definition that
all carry `arrayDescr` = `3`. -/
theorem array_descr_by_struct_code_witness :
    createArrayDescr (defnWith [("dataStructCode", "vector"), ("arrayDescr", "3")])
        (defnStructCode (defnWith [("dataStructCode", "vector"), ("arrayDescr", "3")])) = "" ∧
      createArrayDescr (defnWith [("dataStructCode", "array"), ("arrayDescr", "3")])
        (defnStructCode (defnWith [("dataStructCode", "array"), ("arrayDescr", "3")])) = "*" ∧
      createArrayDescr (defnWith [("dataStructCode", "concatenated"), ("arrayDescr", "3")])
        (defnStructCode (defnWith [("dataStructCode", "concatenated"), ("arrayDescr", "3")]))
        = "3" :=
  ⟨(array_descr_by_struct_code
      (defnWith [("dataStructCode", "vector"), ("arrayDescr", "3")])).2.1 (by decide),
    (array_descr_by_struct_code
      (defnWith [("dataStructCode", "array"), ("arrayDescr", "3")])).2.2.1 (by decide),
    ((array_descr_by_struct_code
      (defnWith [("dataStructCode", "concatenated"), ("arrayDescr", "3")])).2.2.2
      (by decide)).1 "3" rfl⟩

/-- C17 fails on an elementary definition that carries `arrayDescr` = `3`: the
definition is created with the descriptor `3`, not without one. -/
theorem elementary_array_descr_counterexample :
    defnStructCode elementaryDefnWithArrayDescr = DDF_data_struct_code.dsc_elementary ∧
      fieldDefnCalls elementaryDefnWithArrayDescr =
        [Call.FieldDefnCreate "0001" "" "3" DDF_data_struct_code.dsc_elementary
            DDF_data_type_code.dtc_char_string none,
          Call.ModuleAddField "0001"] ∧
      createArrayDescr elementaryDefnWithArrayDescr
        (defnStructCode elementaryDefnWithArrayDescr) ≠ "" := by
  decide

/-- C17 as amended: for every field-definition node whose structure code resolves
to elementary, the repeat-count descriptor handed to `Create` is the text of the
`arrayDescr` attribute unchanged, and the empty string when the attribute is
absent. -/
theorem elementary_array_descr (psIter : CPLXMLNode)
    (helem : defnStructCode psIter = DDF_data_struct_code.dsc_elementary) :
    (∃ pszTag pszFieldName eTypeCode pszFormatControls rest,
        fieldDefnCalls psIter =
          Call.FieldDefnCreate pszTag pszFieldName
            (createArrayDescr psIter (defnStructCode psIter)) DDF_data_struct_code.dsc_elementary
            eTypeCode pszFormatControls :: rest) ∧
      (∀ v, CPLGetXMLValueOrNull psIter "arrayDescr" = some v →
        createArrayDescr psIter (defnStructCode psIter) = v) ∧
      (CPLGetXMLValueOrNull psIter "arrayDescr" = none →
        createArrayDescr psIter (defnStructCode psIter) = "") := by
  refine ⟨⟨_, _, _, _, _, by rw [fieldDefnCalls_eq, helem]; rfl⟩, ?_, ?_⟩
  · intro v hv
    rw [helem]
    simp only [createArrayDescr, CPLGetXMLValue_of_some _ _ _ _ hv]
    rfl
  · intro hv
    rw [helem]
    simp only [createArrayDescr, CPLGetXMLValue_of_none _ _ _ hv]
    rfl

/-- The amended C17 on the elementary definition with `arrayDescr` = `3`. -/
theorem elementary_array_descr_witness :
    defnStructCode elementaryDefnWithArrayDescr = DDF_data_struct_code.dsc_elementary ∧
      createArrayDescr elementaryDefnWithArrayDescr
        (defnStructCode elementaryDefnWithArrayDescr) = "3" :=
  ⟨by decide, (elementary_array_descr elementaryDefnWithArrayDescr (by decide)).2.1 "3" rfl⟩

theorem subfieldDefnLoop_eq (pszTag : String) (children : List CPLXMLNode) :
    subfieldDefnLoop pszTag children = subfieldDefnCalls pszTag children := by
  induction children with
  | nil => rfl
  | cons c rest ih =>
    by_cases hc : isElementNamed c "DDFSubfieldDefn" = true
    · simp only [subfieldDefnLoop, hc, if_true, ih, subfieldDefnCalls, List.filter_cons,
        List.map_cons, nodeName]
    · simp only [subfieldDefnLoop, hc, Bool.false_eq_true, if_false, ih, subfieldDefnCalls,
        List.filter_cons]

/-- C15 fails on a vector definition that carries `formatControls` = `(A)`: the
definition is created without format controls, but the text of the attribute is
applied to it afterwards by `SetFormatControls`. -/
theorem non_elementary_format_controls_counterexample :
    defnStructCode vectorDefnWithControls ≠ DDF_data_struct_code.dsc_elementary ∧
      fieldDefnCalls vectorDefnWithControls =
        [Call.FieldDefnCreate "0001" "Text" "" DDF_data_struct_code.dsc_vector
            DDF_data_type_code.dtc_char_string none,
          Call.AddSubfield "0001" "TXT" "A",
          Call.SetFormatControls "0001" "(A)",
          Call.ModuleAddField "0001"] := by
  decide

/-- C15 as amended: for every field-definition node whose resolved structure code
is not elementary, the format-control string is absent at initial construction
(`Create` gets the null pointer); when the `formatControls` attribute is present
its text is applied afterwards by `SetFormatControls`, after the subfields are
attached and before the definition is added to the module, and when it is absent
no format-control string is applied. -/
theorem non_elementary_format_controls (psIter : CPLXMLNode)
    (hstruct : defnStructCode psIter ≠ DDF_data_struct_code.dsc_elementary) :
    (∀ v, CPLGetXMLValueOrNull psIter "formatControls" = some v →
        fieldDefnCalls psIter =
          [Call.FieldDefnCreate (defnTag psIter) (CPLGetXMLValue psIter (some "fieldName") "")
              (createArrayDescr psIter (defnStructCode psIter)) (defnStructCode psIter)
              (defnTypeCode psIter) none]
            ++ subfieldDefnCalls (defnTag psIter) psIter.psChild
            ++ [Call.SetFormatControls (defnTag psIter) v]
            ++ [Call.ModuleAddField (defnTag psIter)]) ∧
      (CPLGetXMLValueOrNull psIter "formatControls" = none →
        fieldDefnCalls psIter =
          [Call.FieldDefnCreate (defnTag psIter) (CPLGetXMLValue psIter (some "fieldName") "")
              (createArrayDescr psIter (defnStructCode psIter)) (defnStructCode psIter)
              (defnTypeCode psIter) none]
            ++ subfieldDefnCalls (defnTag psIter) psIter.psChild
            ++ [Call.ModuleAddField (defnTag psIter)]) := by
  have hfc : createFormatControls psIter (defnStructCode psIter) = none := by
    simp only [createFormatControls, hstruct, ne_eq, not_false_eq_true, if_true]
  constructor
  · intro v hv
    rw [fieldDefnCalls_eq, hfc, subfieldDefnLoop_eq]
    simp only [setFormatControlsCalls, hv]
  · intro hv
    rw [fieldDefnCalls_eq, hfc, subfieldDefnLoop_eq]
    simp only [setFormatControlsCalls, hv, List.append_nil]

/-- The amended C15 on the vector definition with `formatControls` = `(A)`. -/
theorem non_elementary_format_controls_witness :
    defnStructCode vectorDefnWithControls ≠ DDF_data_struct_code.dsc_elementary ∧
      fieldDefnCalls vectorDefnWithControls =
        [Call.FieldDefnCreate (defnTag vectorDefnWithControls)
            (CPLGetXMLValue vectorDefnWithControls (some "fieldName") "")
            (createArrayDescr vectorDefnWithControls (defnStructCode vectorDefnWithControls))
            (defnStructCode vectorDefnWithControls) (defnTypeCode vectorDefnWithControls) none]
          ++ subfieldDefnCalls (defnTag vectorDefnWithControls) vectorDefnWithControls.psChild
          ++ [Call.SetFormatControls (defnTag vectorDefnWithControls) "(A)"]
          ++ [Call.ModuleAddField (defnTag vectorDefnWithControls)] :=
  ⟨by decide,
    (non_elementary_format_controls vectorDefnWithControls (by decide)).1 "(A)" rfl⟩

/-- C20 fails on an elementary definition that carries `formatControls` = `(A)`:
the first call creates the definition with the format controls `(A)`, not
without them. -/
theorem defn_call_order_counterexample :
    fieldDefnCalls elementaryDefnWithControls =
      [Call.FieldDefnCreate "0001" "Text" "" DDF_data_struct_code.dsc_elementary
          DDF_data_type_code.dtc_char_string (some "(A)"),
        Call.AddSubfield "0001" "TXT" "A",
        Call.SetFormatControls "0001" "(A)",
        Call.ModuleAddField "0001"] := by
  decide

/-- C20 as amended: for every field-definition node the calls are, in this order:
`Create`, which gets the text of the `formatControls` attribute when the structure
code is elementary and the attribute is present, and no format-control string
otherwise; one `AddSubfield` per `DDFSubfieldDefn` child, in document order, with
that child's name and format (other children are skipped); `SetFormatControls`
with the text of the `formatControls` attribute when it is present; and last the
`AddField` that puts the definition in the module's catalog. -/
theorem defn_call_order (psIter : CPLXMLNode) :
    fieldDefnCalls psIter =
      [Call.FieldDefnCreate (defnTag psIter) (CPLGetXMLValue psIter (some "fieldName") "")
          (createArrayDescr psIter (defnStructCode psIter)) (defnStructCode psIter)
          (defnTypeCode psIter)
          (if defnStructCode psIter = DDF_data_struct_code.dsc_elementary then
            CPLGetXMLValueOrNull psIter "formatControls" else none)]
        ++ (psIter.psChild.filter (fun c => isElementNamed c "DDFSubfieldDefn")).map
            (fun c => Call.AddSubfield (defnTag psIter) (nodeName c)
              (CPLGetXMLValue c (some "format") ""))
        ++ (match CPLGetXMLValueOrNull psIter "formatControls" with
            | some pszFormatControls =>
              [Call.SetFormatControls (defnTag psIter) pszFormatControls]
            | none => [])
        ++ [Call.ModuleAddField (defnTag psIter)] := by
  have hfc : createFormatControls psIter (defnStructCode psIter) =
      if defnStructCode psIter = DDF_data_struct_code.dsc_elementary then
        CPLGetXMLValueOrNull psIter "formatControls" else none := by
    unfold createFormatControls
    by_cases h : defnStructCode psIter = DDF_data_struct_code.dsc_elementary
    · simp only [h, ne_eq, not_true_eq_false, if_false, if_true]
    · simp only [h, ne_eq, not_false_eq_true, if_true, if_false]
  rw [fieldDefnCalls_eq, hfc, subfieldDefnLoop_eq]
  rfl

/-! ## The type dispatch of a subfield -/

/-- C18: for every `DDFSubfield` node on the structured path at most one setter
call is made, chosen by the exact type string: `float` makes one
`SetFloatSubfield` call whose value is `CPLAtof` of the node text, for every
reading `CPLAtof` of texts as floating-point values; `integer` with a text whose
base-10 integer value fits a C `int` sets that value; `string` sets the node text
verbatim; and `binary` with a text that starts with `0x` sets the hex-decoded
bytes with their count; for any other type string, and for `binary` with a text
whose first two characters are not `0x`, no call is made; in every case the
dispatch runs to its end without error. -/
theorem subfield_type_dispatch (pszFieldName : String) (nFieldOcc : Nat)
    (psSubfieldIter : CPLXMLNode) (nOcc : Nat) :
    (subfieldBody pszFieldName nFieldOcc psSubfieldIter nOcc).status = Status.done ∧
      (subfieldBody pszFieldName nFieldOcc psSubfieldIter nOcc).calls.length ≤ 1 ∧
      (∀ c ∈ (subfieldBody pszFieldName nFieldOcc psSubfieldIter nOcc).calls,
        c.isSubfieldSetter = true) ∧
      (CPLGetXMLValue psSubfieldIter (some "type") "" = "float" →
        (subfieldBody pszFieldName nFieldOcc psSubfieldIter nOcc).calls =
          [Call.SetFloatSubfield pszFieldName nFieldOcc (nodeName psSubfieldIter) nOcc
            (CPLGetXMLValue psSubfieldIter none "")] ∧
        ∀ (F : Type) (CPLAtof : String → F),
          (subfieldBody pszFieldName nFieldOcc psSubfieldIter nOcc).calls.filterMap
            (Call.floatValue CPLAtof) = [CPLAtof (CPLGetXMLValue psSubfieldIter none "")]) ∧
      (CPLGetXMLValue psSubfieldIter (some "type") "" = "integer" →
        fitsInt (atoi (CPLGetXMLValue psSubfieldIter none "")) →
        (subfieldBody pszFieldName nFieldOcc psSubfieldIter nOcc).calls =
          [Call.SetIntSubfield pszFieldName nFieldOcc (nodeName psSubfieldIter) nOcc
            (atoi (CPLGetXMLValue psSubfieldIter none ""))]) ∧
      (CPLGetXMLValue psSubfieldIter (some "type") "" = "string" →
        (subfieldBody pszFieldName nFieldOcc psSubfieldIter nOcc).calls =
          [Call.SetStringSubfield pszFieldName nFieldOcc (nodeName psSubfieldIter) nOcc
            (CPLGetXMLValue psSubfieldIter none "")]) ∧
      (CPLGetXMLValue psSubfieldIter (some "type") "" = "binary" →
        (∀ pszHex : List Char,
          (CPLGetXMLValue psSubfieldIter none "").data = '0' :: 'x' :: pszHex →
          ∃ pabyData, binDecode pszHex = some pabyData ∧
            pabyData.length = pszHex.length / 2 ∧
            (subfieldBody pszFieldName nFieldOcc psSubfieldIter nOcc).calls =
              [Call.SetStringSubfieldBytes pszFieldName nFieldOcc (nodeName psSubfieldIter)
                nOcc pabyData (pszHex.length / 2)]) ∧
        (¬ startsWith0x (CPLGetXMLValue psSubfieldIter none "") →
          (subfieldBody pszFieldName nFieldOcc psSubfieldIter nOcc).calls = [])) ∧
      (CPLGetXMLValue psSubfieldIter (some "type") "" ≠ "float" →
        CPLGetXMLValue psSubfieldIter (some "type") "" ≠ "integer" →
        CPLGetXMLValue psSubfieldIter (some "type") "" ≠ "string" →
        CPLGetXMLValue psSubfieldIter (some "type") "" ≠ "binary" →
        (subfieldBody pszFieldName nFieldOcc psSubfieldIter nOcc).calls = []) := by
  refine ⟨subfieldBody_status _ _ _ _, ?_,
    fun c hc => (subfieldBody_calls _ _ _ _ c hc).2.2.1, ?_, ?_, ?_, ?_, ?_⟩
  · unfold subfieldBody
    dsimp only
    split_ifs
    · simp [Run.ofCalls]
    · simp [Run.ofCalls]
    · simp [Run.ofCalls]
    · split
      · rw [binDecode_eq_rawDecode, rawDecode_pairs]; simp [Run.ofCalls]
      · simp [Run.ofCalls]
    · simp [Run.ofCalls]
  · intro h
    have hcalls : (subfieldBody pszFieldName nFieldOcc psSubfieldIter nOcc).calls =
        [Call.SetFloatSubfield pszFieldName nFieldOcc (nodeName psSubfieldIter) nOcc
          (CPLGetXMLValue psSubfieldIter none "")] := by
      simp only [subfieldBody, h, if_true, Run.ofCalls, nodeName]
    refine ⟨hcalls, ?_⟩
    intro F CPLAtof
    rw [hcalls]
    rfl
  · intro h _
    have h1 : ¬ ("integer" = "float") := by decide
    simp only [subfieldBody, h, h1, if_true, if_false, Run.ofCalls, nodeName]
  · intro h
    have h1 : ¬ ("string" = "float") := by decide
    have h2 : ¬ ("string" = "integer") := by decide
    simp only [subfieldBody, h, h1, h2, if_true, if_false, Run.ofCalls, nodeName]
  · intro h
    have h1 : ¬ ("binary" = "float") := by decide
    have h2 : ¬ ("binary" = "integer") := by decide
    have h3 : ¬ ("binary" = "string") := by decide
    constructor
    · intro pszHex hdata
      have hskip : skip0x (CPLGetXMLValue psSubfieldIter none "") = some pszHex :=
        skip0x_of_data _ _ hdata
      refine ⟨pairsDecode pszHex, by rw [binDecode_eq_rawDecode, rawDecode_pairs],
        pairsDecode_length pszHex, ?_⟩
      simp only [subfieldBody, h, h1, h2, h3, if_true, if_false, hskip,
        binDecode_eq_rawDecode, rawDecode_pairs, Run.ofCalls, nodeName]
    · intro hno
      have hskip : skip0x (CPLGetXMLValue psSubfieldIter none "") = none :=
        (skip0x_eq_none_iff _).mpr hno
      simp only [subfieldBody, h, h1, h2, h3, if_true, if_false, hskip, Run.ofCalls]
  · intro h1 h2 h3 h4
    simp only [subfieldBody, h1, h2, h3, h4, if_false, Run.ofCalls]

/-- The statement of C18 on a `binary` subfield with the text `0x4142`, on a
`binary` subfield with the text `zz4142`, on an `integer` subfield with the text
`42`, on a `float` subfield with the text `1.5`, and on a subfield of the unknown
type `real`. -/
theorem subfield_type_dispatch_witness :
    (∃ pabyData, binDecode "4142".data = some pabyData ∧
        pabyData.length = "4142".data.length / 2 ∧
        (subfieldBody "0001" 0 binarySubfield 0).calls =
          [Call.SetStringSubfieldBytes "0001" 0 (nodeName binarySubfield) 0 pabyData
            ("4142".data.length / 2)]) ∧
      (subfieldBody "0001" 0 (subfieldNode "X" "binary" "zz4142") 0).calls = [] ∧
      (fitsInt (atoi "42") ∧
        (subfieldBody "0001" 0 (subfieldNode "X" "integer" "42") 0).calls =
          [Call.SetIntSubfield "0001" 0 "X" 0 42]) ∧
      ((subfieldBody "0001" 0 (subfieldNode "X" "float" "1.5") 0).calls =
          [Call.SetFloatSubfield "0001" 0 "X" 0 "1.5"] ∧
        ∀ (F : Type) (CPLAtof : String → F),
          (subfieldBody "0001" 0 (subfieldNode "X" "float" "1.5") 0).calls.filterMap
            (Call.floatValue CPLAtof) = [CPLAtof "1.5"]) ∧
      (subfieldBody "0001" 0 (subfieldNode "X" "real" "1.5") 0).calls = [] :=
  ⟨((subfield_type_dispatch "0001" 0 binarySubfield 0).2.2.2.2.2.2.1 rfl).1 "4142".data rfl,
    ((subfield_type_dispatch "0001" 0 (subfieldNode "X" "binary" "zz4142") 0).2.2.2.2.2.2.1
      rfl).2 (by decide),
    ⟨by decide,
      (subfield_type_dispatch "0001" 0 (subfieldNode "X" "integer" "42") 0).2.2.2.2.1
        rfl (by decide)⟩,
    (subfield_type_dispatch "0001" 0 (subfieldNode "X" "float" "1.5") 0).2.2.2.1 rfl,
    (subfield_type_dispatch "0001" 0 (subfieldNode "X" "real" "1.5") 0).2.2.2.2.2.2.2
      (by decide) (by decide) (by decide) (by decide)⟩

/-! ## The order of the `AddField` and `Write` calls -/

theorem filter_eq_nil_of_forall (p : Call → Bool) (calls : List Call)
    (h : ∀ c ∈ calls, p c = false) : calls.filter p = [] := by
  rw [List.filter_eq_nil_iff]
  intro c hc
  rw [h c hc]
  exact Bool.false_ne_true

theorem Call.not_addFieldOrWrite_of_isSubfieldSetter (c : Call)
    (h : c.isSubfieldSetter = true) : c.isAddFieldOrWrite = false := by
  cases c <;> first | rfl | exact absurd h Bool.false_ne_true

theorem Call.not_addFieldOrWrite_of_isDefnCall (c : Call) (h : c.isDefnCall = true) :
    c.isAddFieldOrWrite = false := by
  cases c <;> first | rfl | exact absurd h Bool.false_ne_true

theorem Call.not_addFieldOrWrite_of_isRecordHeadCall (c : Call)
    (h : c.isRecordHeadCall = true) : c.isAddFieldOrWrite = false := by
  cases c <;> first | rfl | exact absurd h Bool.false_ne_true

theorem fieldBody_outline (pszFieldName : String) (nFieldOcc : Nat) (f : CPLXMLNode) :
    (fieldBody pszFieldName nFieldOcc f).calls.filter Call.isAddFieldOrWrite =
      [Call.RecordAddField pszFieldName] := by
  cases hv : (CPLGetXMLValueOrNull f "value").bind skip0x with
  | some pszHex => rw [fieldBody_raw _ _ _ _ hv]; rfl
  | none =>
    rw [fieldBody_structured _ _ _ hv, Run.ofCalls_andThen]
    show List.filter Call.isAddFieldOrWrite (_ ++ _) = _
    rw [List.filter_append, filter_eq_nil_of_forall _ (subfieldLoop _ _ _ _).calls
      (fun c hc => Call.not_addFieldOrWrite_of_isSubfieldSetter c
        (subfieldLoop_calls _ _ _ _ c hc).2.1)]
    rfl

theorem fieldLoop_outline (catalog : List String) (nodes : List CPLXMLNode) (m : OccMap)
    (hdone : (fieldLoop catalog m nodes).status = Status.done) :
    (fieldLoop catalog m nodes).calls.filter Call.isAddFieldOrWrite = fieldOutline nodes := by
  induction nodes generalizing m with
  | nil => rfl
  | cons g rest ih =>
    rw [fieldLoop_cons] at hdone ⊢
    by_cases hg : isElementNamed g "DDFField" = true
    · by_cases hres : FindFieldDefn catalog (nodeName g) = true
      · simp only [hg, hres, if_true] at hdone ⊢
        rw [Run.andThen_of_done _ _ (fieldBody_status _ _ _)] at hdone ⊢
        show List.filter Call.isAddFieldOrWrite (_ ++ _) = _
        rw [List.filter_append, fieldBody_outline, ih _ hdone]
        simp only [fieldOutline, List.filter_cons, hg, if_true, List.map_cons,
          List.singleton_append]
      · simp only [hg, hres, if_true, Bool.false_eq_true, if_false] at hdone
        exact absurd hdone (fun e => Status.noConfusion e)
    · simp only [hg, Bool.false_eq_true, if_false] at hdone ⊢
      rw [ih _ hdone]
      simp only [fieldOutline, List.filter_cons, hg, Bool.false_eq_true, if_false]

theorem recordBody_outline (pszOutFilename : Option String) (sizes : SizeFields)
    (catalog : List String) (bCreated : Bool) (g : CPLXMLNode)
    (hdone : (recordBody pszOutFilename sizes catalog bCreated g).status = Status.done) :
    (recordBody pszOutFilename sizes catalog bCreated g).calls.filter Call.isAddFieldOrWrite
      = fieldOutline g.psChild ++ [Call.Write] := by
  rw [recordBody_eq] at hdone ⊢
  simp only at hdone
  simp only [hdone, if_true]
  rw [List.filter_append, List.filter_append, fieldLoop_outline _ _ _ hdone,
    filter_eq_nil_of_forall _ _ (fun c hc => Call.not_addFieldOrWrite_of_isRecordHeadCall c
      (recordHead_calls pszOutFilename sizes bCreated g c hc))]
  rfl

theorem moduleLoop_outline (pszOutFilename : Option String) (sizes : SizeFields)
    (nodes : List CPLXMLNode) (catalog : List String) (bCreated : Bool)
    (hdone : (moduleLoop pszOutFilename sizes catalog bCreated nodes).status = Status.done) :
    (moduleLoop pszOutFilename sizes catalog bCreated nodes).calls.filter
      Call.isAddFieldOrWrite = recordsOutline nodes := by
  induction nodes generalizing catalog bCreated with
  | nil => rfl
  | cons g rest ih =>
    rw [moduleLoop_cons] at hdone ⊢
    by_cases hg : isElementNamed g "DDFFieldDefn" = true
    · have hr := not_record_of_fieldDefn g hg
      simp only [hg, if_true] at hdone ⊢
      rw [Run.ofCalls_andThen] at hdone ⊢
      show List.filter Call.isAddFieldOrWrite (_ ++ _) = _
      rw [List.filter_append, filter_eq_nil_of_forall _ (fieldDefnCalls g)
        (fun c hc => Call.not_addFieldOrWrite_of_isDefnCall c (fieldDefnCalls_calls g c hc)),
        ih _ _ hdone]
      simp only [recordsOutline, hr, Bool.false_eq_true, if_false, List.nil_append]
    · by_cases hr : isElementNamed g "DDFRecord" = true
      · simp only [hg, hr, if_true, Bool.false_eq_true, if_false] at hdone ⊢
        obtain ⟨h1, h2⟩ := (Run.andThen_status_done _ _).mp hdone
        rw [Run.andThen_of_done _ _ h1]
        show List.filter Call.isAddFieldOrWrite (_ ++ _) = _
        rw [List.filter_append, recordBody_outline _ _ _ _ _ h1, ih _ _ h2]
        simp only [recordsOutline, hr, if_true]
      · simp only [hg, hr, Bool.false_eq_true, if_false] at hdone ⊢
        rw [ih _ _ hdone]
        simp only [recordsOutline, hr, Bool.false_eq_true, if_false]

theorem mainBody_of_done (env : Env) (pszOutFilename : Option String)
    (poXMLDDFModule : CPLXMLNode) (nSizeFieldTag : Nat)
    (hdone : (moduleLoop pszOutFilename (moduleSizes poXMLDDFModule nSizeFieldTag) [] false
      poXMLDDFModule.psChild).status = Status.done) :
    mainBody env pszOutFilename poXMLDDFModule nSizeFieldTag =
      Run.ofCalls ([initializeCall poXMLDDFModule nSizeFieldTag,
          Call.SetFieldControlLength
            (atoi (CPLGetXMLValue poXMLDDFModule (some "_fieldControlLength")
              (fmtInt env.GetFieldControlLength)))]
        ++ (moduleLoop pszOutFilename (moduleSizes poXMLDDFModule nSizeFieldTag) [] false
            poXMLDDFModule.psChild).calls
        ++ [Call.Close]) := by
  unfold mainBody
  rw [Run.andThen_of_done _ _ hdone, Run.ofCalls_andThen]
  simp [Run.ofCalls]

theorem mainBody_status (env : Env) (pszOutFilename : Option String)
    (poXMLDDFModule : CPLXMLNode) (nSizeFieldTag : Nat) :
    (mainBody env pszOutFilename poXMLDDFModule nSizeFieldTag).status =
      (moduleLoop pszOutFilename (moduleSizes poXMLDDFModule nSizeFieldTag) [] false
        poXMLDDFModule.psChild).status := by
  unfold mainBody
  rw [Run.ofCalls_andThen]
  show (Run.andThen _ _).status = _
  cases h : (moduleLoop pszOutFilename (moduleSizes poXMLDDFModule nSizeFieldTag) [] false
      poXMLDDFModule.psChild).status with
  | done => rw [Run.andThen_of_done _ _ h]; rfl
  | exit code =>
    rw [Run.andThen_of_not_done _ _ (by rw [h]; exact fun e => Status.noConfusion e), h]
  | fault =>
    rw [Run.andThen_of_not_done _ _ (by rw [h]; exact fun e => Status.noConfusion e), h]

/-- C11: for every document processed without a fatal error, each `DDFRecord`
node is written exactly once, the `Write` calls come in the document order of the
record nodes, and for each record the `AddField` calls come in the document order
of its `DDFField` children, all of them before the `Write` of that record: the
`AddField` and `Write` calls of the run are, record node after record node, the
`AddField` calls of its field children followed by one `Write`. -/
theorem records_written_in_order (env : Env) (prog pszFilename pszOutFilename : String)
    (poRoot poXMLDDFModule : CPLXMLNode) (nSizeFieldTag : Nat)
    (hparse : env.CPLParseXMLFile pszFilename = some poRoot)
    (hsearch : env.CPLSearchXMLNode poRoot "=DDFModule" = some poXMLDDFModule)
    (htag : tagSizeLoop 0 poXMLDDFModule.psChild = some nSizeFieldTag)
    (hdone : (main env [prog, pszFilename, pszOutFilename]).status = Status.done) :
    (main env [prog, pszFilename, pszOutFilename]).calls.filter Call.isAddFieldOrWrite
        = recordsOutline poXMLDDFModule.psChild ∧
      countWrites (main env [prog, pszFilename, pszOutFilename]).calls
        = countRecords poXMLDDFModule.psChild := by
  rw [main_of_loaded env prog pszFilename pszOutFilename poRoot poXMLDDFModule nSizeFieldTag
    hparse hsearch htag, Run.ofCalls_andThen] at hdone ⊢
  simp only at hdone
  rw [mainBody_status] at hdone
  rw [mainBody_of_done _ _ _ _ hdone]
  constructor
  · show List.filter Call.isAddFieldOrWrite (_ ++ (_ ++ _ ++ _)) = _
    rw [List.filter_append, List.filter_append, List.filter_append,
      moduleLoop_outline _ _ _ _ _ hdone]
    simp [List.filter, initializeCall, Call.isAddFieldOrWrite]
  · show countWrites (_ ++ (_ ++ _ ++ _)) = _
    rw [countWrites_append, countWrites_append, countWrites_append,
      countWrites_moduleLoop _ _ _ _ _ hdone]
    simp [countWrites, initializeCall]

/-- The statement of C11 on a document with one definition and two records. -/
theorem records_written_in_order_witness :
    ((envOf twoRecordsModule 9).CPLParseXMLFile "in.xml" = some twoRecordsModule ∧
      (envOf twoRecordsModule 9).CPLSearchXMLNode twoRecordsModule "=DDFModule"
        = some twoRecordsModule ∧
      tagSizeLoop 0 twoRecordsModule.psChild = some 4 ∧
      (main (envOf twoRecordsModule 9) ["8211createfromxml", "in.xml", "out.ddf"]).status
        = Status.done) ∧
    ((main (envOf twoRecordsModule 9)
          ["8211createfromxml", "in.xml", "out.ddf"]).calls.filter Call.isAddFieldOrWrite
        = recordsOutline twoRecordsModule.psChild ∧
      countWrites (main (envOf twoRecordsModule 9)
          ["8211createfromxml", "in.xml", "out.ddf"]).calls
        = countRecords twoRecordsModule.psChild) :=
  ⟨⟨rfl, rfl, by decide, by decide⟩,
    records_written_in_order (envOf twoRecordsModule 9) "8211createfromxml" "in.xml" "out.ddf"
      twoRecordsModule twoRecordsModule 4 rfl rfl (by decide) (by decide)⟩

/-! ## The lazy `Create` -/

theorem countCreates_append (a b : List Call) :
    countCreates (a ++ b) = countCreates a + countCreates b := by
  unfold countCreates
  exact List.countP_append _ _ _

theorem countCreates_eq_zero (calls : List Call)
    (h : ∀ c ∈ calls, c.isModuleCreate = false) : countCreates calls = 0 := by
  unfold countCreates
  rw [List.countP_eq_zero]
  intro c hc
  rw [h c hc]
  exact Bool.false_ne_true

theorem Call.not_moduleCreate_of_isDefnCall (c : Call) (h : c.isDefnCall = true) :
    c.isModuleCreate = false := by
  cases c <;> first | rfl | exact absurd h Bool.false_ne_true

theorem Call.not_moduleCreate_of_isFieldCall (c : Call) (h : c.isFieldCall = true) :
    c.isModuleCreate = false := by
  cases c <;> first | rfl | exact absurd h Bool.false_ne_true

theorem countCreates_fieldDefnCalls (g : CPLXMLNode) : countCreates (fieldDefnCalls g) = 0 :=
  countCreates_eq_zero _ fun c hc =>
    Call.not_moduleCreate_of_isDefnCall c (fieldDefnCalls_calls g c hc)

theorem countCreates_fieldLoop (catalog : List String) (nodes : List CPLXMLNode) (m : OccMap) :
    countCreates (fieldLoop catalog m nodes).calls = 0 :=
  countCreates_eq_zero _ fun c hc =>
    Call.not_moduleCreate_of_isFieldCall c (fieldLoop_calls _ _ _ c hc)

theorem countCreates_recordSizeCalls (sizes : SizeFields) (g : CPLXMLNode) :
    countCreates (recordSizeCalls sizes g) = 0 := rfl

theorem countCreates_recordBody (pszOutFilename : Option String) (sizes : SizeFields)
    (catalog : List String) (bCreated : Bool) (g : CPLXMLNode) :
    countCreates (recordBody pszOutFilename sizes catalog bCreated g).calls
      = if bCreated then 0 else 1 := by
  rw [recordBody_eq]
  show countCreates (_ ++ _ ++ _ ++ _ ++ _) = _
  rw [countCreates_append, countCreates_append, countCreates_append, countCreates_append,
    countCreates_fieldLoop, countCreates_recordSizeCalls]
  cases bCreated <;>
    by_cases h : (fieldLoop catalog OccMap.empty g.psChild).status = Status.done <;>
    simp [h, createCalls, countCreates, Call.isModuleCreate]

theorem countCreates_andThen_le (a b : Run) :
    countCreates (a.andThen b).calls ≤ countCreates a.calls + countCreates b.calls := by
  rw [Run.andThen_calls, countCreates_append]
  split_ifs
  · exact Nat.le_refl _
  · exact Nat.add_le_add_left (Nat.zero_le _) _

theorem countCreates_moduleLoop_created (pszOutFilename : Option String) (sizes : SizeFields)
    (nodes : List CPLXMLNode) (catalog : List String) :
    countCreates (moduleLoop pszOutFilename sizes catalog true nodes).calls = 0 := by
  induction nodes generalizing catalog with
  | nil => rfl
  | cons g rest ih =>
    rw [moduleLoop_cons]
    split_ifs
    · have h := countCreates_andThen_le (Run.ofCalls (fieldDefnCalls g))
        (moduleLoop pszOutFilename sizes (catalog ++ defnTags [g]) true rest)
      rw [ih] at h
      have h2 : countCreates (Run.ofCalls (fieldDefnCalls g)).calls = 0 :=
        countCreates_fieldDefnCalls g
      omega
    · have h := countCreates_andThen_le (recordBody pszOutFilename sizes catalog true g)
        (moduleLoop pszOutFilename sizes catalog true rest)
      rw [ih, countCreates_recordBody] at h
      simpa using h
    · exact ih _

theorem countCreates_moduleLoop_le (pszOutFilename : Option String) (sizes : SizeFields)
    (nodes : List CPLXMLNode) (catalog : List String) (bCreated : Bool) :
    countCreates (moduleLoop pszOutFilename sizes catalog bCreated nodes).calls ≤ 1 := by
  induction nodes generalizing catalog bCreated with
  | nil => exact Nat.zero_le _
  | cons g rest ih =>
    rw [moduleLoop_cons]
    split_ifs
    · have h := countCreates_andThen_le (Run.ofCalls (fieldDefnCalls g))
        (moduleLoop pszOutFilename sizes (catalog ++ defnTags [g]) bCreated rest)
      have h2 : countCreates (Run.ofCalls (fieldDefnCalls g)).calls = 0 :=
        countCreates_fieldDefnCalls g
      have h3 := ih (catalog ++ defnTags [g]) bCreated
      omega
    · have h := countCreates_andThen_le (recordBody pszOutFilename sizes catalog bCreated g)
        (moduleLoop pszOutFilename sizes catalog true rest)
      rw [countCreates_moduleLoop_created, countCreates_recordBody] at h
      cases bCreated <;> simp at h <;> omega
    · exact ih _ _

theorem moduleLoop_without_record (pszOutFilename : Option String) (sizes : SizeFields)
    (nodes : List CPLXMLNode) (catalog : List String) (bCreated : Bool)
    (hnone : countRecords nodes = 0) :
    (moduleLoop pszOutFilename sizes catalog bCreated nodes).status = Status.done ∧
      (∀ c ∈ (moduleLoop pszOutFilename sizes catalog bCreated nodes).calls,
        c.isDefnCall = true) ∧
      createdAfter bCreated nodes = bCreated := by
  induction nodes generalizing catalog with
  | nil => exact ⟨rfl, by simp [moduleLoop, Run.ofCalls], by simp [createdAfter]⟩
  | cons g rest ih =>
    have hg : isElementNamed g "DDFRecord" = false ∧ countRecords rest = 0 := by
      unfold countRecords at hnone ⊢
      rw [List.countP_cons] at hnone
      by_cases h : isElementNamed g "DDFRecord" = true
      · simp [h] at hnone
      · exact ⟨by simpa using h, by omega⟩
    have hc : createdAfter bCreated (g :: rest) = createdAfter bCreated rest := by
      simp [createdAfter, hg.1]
    rw [moduleLoop_cons, hc]
    simp only [hg.1, Bool.false_eq_true, if_false]
    split_ifs with h1
    · obtain ⟨i1, i2, i3⟩ := ih (catalog ++ defnTags [g]) hg.2
      rw [Run.ofCalls_andThen]
      refine ⟨i1, ?_, i3⟩
      intro c hc
      rcases List.mem_append.mp hc with h | h
      · exact fieldDefnCalls_calls g c h
      · exact i2 c h
    · exact ih catalog hg.2

theorem countCreates_mainBody_le (env : Env) (pszOutFilename : Option String)
    (poXMLDDFModule : CPLXMLNode) (nSizeFieldTag : Nat) :
    countCreates (mainBody env pszOutFilename poXMLDDFModule nSizeFieldTag).calls ≤ 1 := by
  unfold mainBody
  have h1 := countCreates_andThen_le
    (Run.ofCalls
      [initializeCall poXMLDDFModule nSizeFieldTag,
        Call.SetFieldControlLength
          (atoi (CPLGetXMLValue poXMLDDFModule (some "_fieldControlLength")
            (fmtInt env.GetFieldControlLength)))])
    ((moduleLoop pszOutFilename (moduleSizes poXMLDDFModule nSizeFieldTag) [] false
        poXMLDDFModule.psChild).andThen (Run.ofCalls [Call.Close]))
  have h2 := countCreates_andThen_le
    (moduleLoop pszOutFilename (moduleSizes poXMLDDFModule nSizeFieldTag) [] false
      poXMLDDFModule.psChild) (Run.ofCalls [Call.Close])
  have h3 := countCreates_moduleLoop_le pszOutFilename
    (moduleSizes poXMLDDFModule nSizeFieldTag) poXMLDDFModule.psChild [] false
  have h4 : countCreates (Run.ofCalls [Call.Close]).calls = 0 := rfl
  have h5 : countCreates (Run.ofCalls
      [initializeCall poXMLDDFModule nSizeFieldTag,
        Call.SetFieldControlLength
          (atoi (CPLGetXMLValue poXMLDDFModule (some "_fieldControlLength")
            (fmtInt env.GetFieldControlLength)))]).calls = 0 := rfl
  omega

theorem countCreates_main_le (env : Env) (papszArgv : List String) :
    countCreates (main env papszArgv).calls ≤ 1 := by
  unfold main
  split
  · exact Nat.zero_le _
  · split
    · exact Nat.zero_le _
    · split
      · exact Nat.zero_le _
      · split
        · exact Nat.zero_le _
        · refine Nat.le_trans (countCreates_andThen_le _ _) ?_
          have h3 : ∀ f, countCreates (Run.ofCalls [Call.CPLParseXMLFile f]).calls = 0 :=
            fun _ => rfl
          rw [h3, Nat.zero_add]
          exact countCreates_mainBody_le _ _ _ _

/-- C12: the output file is created at most once per run; when the module node has
a `DDFRecord` child, the `Create` call is made when the first such node is reached,
after the calls for the definitions before it (none of which touches a record) and
right before the record is constructed and its fields are assembled, and never
again; when the module node has no `DDFRecord` child, `Create` is never called. -/
theorem create_lazily_at_most_once (env : Env) (prog pszFilename pszOutFilename : String)
    (poRoot poXMLDDFModule : CPLXMLNode) (nSizeFieldTag : Nat)
    (hparse : env.CPLParseXMLFile pszFilename = some poRoot)
    (hsearch : env.CPLSearchXMLNode poRoot "=DDFModule" = some poXMLDDFModule)
    (htag : tagSizeLoop 0 poXMLDDFModule.psChild = some nSizeFieldTag) :
    (∀ (anyEnv : Env) (papszArgv : List String),
        countCreates (main anyEnv papszArgv).calls ≤ 1) ∧
      (countRecords poXMLDDFModule.psChild = 0 →
        countCreates (main env [prog, pszFilename, pszOutFilename]).calls = 0) ∧
      (∀ (mpre mpost : List CPLXMLNode) (psIter : CPLXMLNode),
        poXMLDDFModule.psChild = mpre ++ psIter :: mpost →
        countRecords mpre = 0 → isElementNamed psIter "DDFRecord" = true →
        ∃ rest,
          (main env [prog, pszFilename, pszOutFilename]).calls =
            [Call.CPLParseXMLFile pszFilename, initializeCall poXMLDDFModule nSizeFieldTag,
              Call.SetFieldControlLength
                (atoi (CPLGetXMLValue poXMLDDFModule (some "_fieldControlLength")
                  (fmtInt env.GetFieldControlLength)))]
            ++ (moduleLoop (some pszOutFilename) (moduleSizes poXMLDDFModule nSizeFieldTag) []
                false mpre).calls
            ++ Call.ModuleCreate (some pszOutFilename) :: Call.NewRecord :: rest ∧
          (∀ c ∈ (moduleLoop (some pszOutFilename) (moduleSizes poXMLDDFModule nSizeFieldTag)
              [] false mpre).calls, c.isDefnCall = true) ∧
          countCreates rest = 0) := by
  have hmain := main_of_loaded env prog pszFilename pszOutFilename poRoot poXMLDDFModule
    nSizeFieldTag hparse hsearch htag
  refine ⟨countCreates_main_le, ?_, ?_⟩
  · intro hnone
    obtain ⟨hdone, hcalls, _⟩ := moduleLoop_without_record (some pszOutFilename)
      (moduleSizes poXMLDDFModule nSizeFieldTag) poXMLDDFModule.psChild [] false hnone
    rw [hmain, mainBody_of_done _ _ _ _ hdone, Run.ofCalls_andThen]
    show countCreates (_ ++ (_ ++ _ ++ _)) = 0
    rw [countCreates_append, countCreates_append, countCreates_append,
      countCreates_eq_zero _ (fun c hc => Call.not_moduleCreate_of_isDefnCall c (hcalls c hc))]
    rfl
  · intro mpre mpost psIter hmodule hnone hrec
    obtain ⟨hdone, hcalls, hcreated⟩ := moduleLoop_without_record (some pszOutFilename)
      (moduleSizes poXMLDDFModule nSizeFieldTag) mpre [] false hnone
    have hnd : ¬ isElementNamed psIter "DDFFieldDefn" = true := by
      intro h
      rw [not_record_of_fieldDefn psIter h] at hrec
      exact absurd hrec (by decide)
    have hle := countCreates_main_le env [prog, pszFilename, pszOutFilename]
    have hcalls0 := countCreates_eq_zero _
      (fun c hc => Call.not_moduleCreate_of_isDefnCall c (hcalls c hc))
    rw [hmain] at hle ⊢
    unfold mainBody at hle ⊢
    rw [hmodule, moduleLoop_append, moduleLoop_cons, hcreated] at hle ⊢
    simp only [hnd, hrec, if_true, Bool.false_eq_true, if_false] at hle ⊢
    rw [Run.andThen_of_done _ _ hdone, Run.ofCalls_andThen, Run.ofCalls_andThen,
      Run.andThen_calls, Run.andThen_calls, recordBody_eq] at hle ⊢
    simp only [createCalls, Bool.false_eq_true, if_false, List.append_assoc,
      List.singleton_append, List.cons_append, List.nil_append] at hle ⊢
    refine ⟨_, rfl, hcalls, ?_⟩
    unfold countCreates at hle hcalls0 ⊢
    simp only [List.countP_cons, List.countP_append, hcalls0, Call.isModuleCreate,
      initializeCall, Bool.false_eq_true, if_false, if_true] at hle
    simp only [List.countP_append]
    omega

/-- The statement of C12 on a document without a record and on the scenario
document, whose first record comes after one definition. -/
theorem create_lazily_at_most_once_witness :
    (((envOf noRecordModule 9).CPLParseXMLFile "in.xml" = some noRecordModule ∧
        (envOf noRecordModule 9).CPLSearchXMLNode noRecordModule "=DDFModule"
          = some noRecordModule ∧
        tagSizeLoop 0 noRecordModule.psChild = some 4 ∧
        countRecords noRecordModule.psChild = 0) ∧
      countCreates (main (envOf noRecordModule 9)
        ["8211createfromxml", "in.xml", "out.ddf"]).calls = 0) ∧
    (((envOf scenarioModule 9).CPLParseXMLFile "in.xml" = some scenarioModule ∧
        (envOf scenarioModule 9).CPLSearchXMLNode scenarioModule "=DDFModule"
          = some scenarioModule ∧
        tagSizeLoop 0 scenarioModule.psChild = some 4 ∧
        scenarioModule.psChild = [scenarioDefn] ++ scenarioRecord :: [] ∧
        countRecords [scenarioDefn] = 0 ∧
        isElementNamed scenarioRecord "DDFRecord" = true) ∧
      ∃ rest,
        (main (envOf scenarioModule 9) ["8211createfromxml", "in.xml", "out.ddf"]).calls =
          [Call.CPLParseXMLFile "in.xml", initializeCall scenarioModule 4,
            Call.SetFieldControlLength
              (atoi (CPLGetXMLValue scenarioModule (some "_fieldControlLength")
                (fmtInt (envOf scenarioModule 9).GetFieldControlLength)))]
          ++ (moduleLoop (some "out.ddf") (moduleSizes scenarioModule 4) [] false
              [scenarioDefn]).calls
          ++ Call.ModuleCreate (some "out.ddf") :: Call.NewRecord :: rest ∧
        (∀ c ∈ (moduleLoop (some "out.ddf") (moduleSizes scenarioModule 4) [] false
            [scenarioDefn]).calls, c.isDefnCall = true) ∧
        countCreates rest = 0) :=
  ⟨⟨⟨rfl, rfl, by decide, by decide⟩,
      (create_lazily_at_most_once (envOf noRecordModule 9) "8211createfromxml" "in.xml"
        "out.ddf" noRecordModule noRecordModule 4 rfl rfl (by decide)).2.1 (by decide)⟩,
    ⟨⟨rfl, rfl, by decide, rfl, by decide, by decide⟩,
      (create_lazily_at_most_once (envOf scenarioModule 9) "8211createfromxml" "in.xml"
        "out.ddf" scenarioModule scenarioModule 4 rfl rfl (by decide)).2.2 [scenarioDefn] []
        scenarioRecord rfl (by decide) (by decide)⟩⟩

/-! ## The tags in the catalog and the tag width of the module -/

theorem tagSizeTags_of_ne_zero (tags : List String) (m n : Nat) (hm : m ≠ 0)
    (h : tagSizeTags m tags = some n) : n = m ∧ ∀ t ∈ tags, t.length = m := by
  induction tags with
  | nil =>
    simp only [tagSizeTags, Option.some.injEq] at h
    exact ⟨h.symm, by simp⟩
  | cons t rest ih =>
    unfold tagSizeTags at h
    rw [if_neg hm] at h
    by_cases ht : m ≠ t.length
    · rw [if_pos ht] at h
      exact absurd h (by simp)
    · rw [if_neg ht] at h
      obtain ⟨h1, h2⟩ := ih h
      refine ⟨h1, ?_⟩
      intro u hu
      rcases List.mem_cons.mp hu with e | e
      · subst e; exact (not_not.mp ht).symm
      · exact h2 u e

theorem tagSizeTags_first_nonempty (tags : List String) (n : Nat)
    (hfirst : ∀ t, tags.head? = some t → t.length ≠ 0)
    (h : tagSizeTags 0 tags = some n) : ∀ t ∈ tags, t.length = n := by
  cases tags with
  | nil => simp
  | cons t rest =>
    have ht : t.length ≠ 0 := hfirst t rfl
    unfold tagSizeTags at h
    rw [if_pos rfl] at h
    obtain ⟨h1, h2⟩ := tagSizeTags_of_ne_zero rest t.length n ht h
    intro u hu
    rcases List.mem_cons.mp hu with e | e
    · subst e; exact h1.symm
    · rw [h1]; exact h2 u e

theorem mem_defnTags_of_fieldDefn (g : CPLXMLNode) (nodes : List CPLXMLNode)
    (hg : isElementNamed g "DDFFieldDefn" = true) (hmem : g ∈ nodes) :
    defnTag g ∈ defnTags nodes := by
  induction nodes with
  | nil => simp at hmem
  | cons x rest ih =>
    rcases List.mem_cons.mp hmem with e | e
    · subst e
      simp [defnTags, hg, defnTag]
    · by_cases hx : isElementNamed x "DDFFieldDefn" = true
      · simp only [defnTags, hx, if_true, List.mem_cons]
        exact Or.inr (ih e)
      · simp only [defnTags, hx, Bool.false_eq_true, if_false]
        exact ih e

theorem fieldDefnCalls_addField (g : CPLXMLNode) (pszTag : String)
    (h : Call.ModuleAddField pszTag ∈ fieldDefnCalls g) : pszTag = defnTag g := by
  rw [fieldDefnCalls_eq, subfieldDefnLoop_eq] at h
  simp only [List.mem_append, List.mem_singleton, List.mem_cons, List.not_mem_nil, or_false,
    subfieldDefnCalls, List.mem_map, List.mem_filter, setFormatControlsCalls] at h
  rcases h with ((h | h) | h) | h
  · exact absurd h (by simp)
  · obtain ⟨_, _, h⟩ := h
    exact absurd h (by simp)
  · split at h
    · simp at h
    · simp at h
  · simpa using h

theorem moduleLoop_addField (pszOutFilename : Option String) (sizes : SizeFields)
    (nodes : List CPLXMLNode) (catalog : List String) (bCreated : Bool) (pszTag : String)
    (h : Call.ModuleAddField pszTag
      ∈ (moduleLoop pszOutFilename sizes catalog bCreated nodes).calls) :
    pszTag ∈ defnTags nodes := by
  induction nodes generalizing catalog bCreated with
  | nil => simp [moduleLoop, Run.ofCalls] at h
  | cons g rest ih =>
    rw [moduleLoop_cons] at h
    rw [defnTags_cons]
    split_ifs at h with h1 h2
    · rcases Run.mem_andThen _ _ _ h with e | e
      · have := fieldDefnCalls_addField g pszTag e
        rw [this]
        exact List.mem_append_left _ (mem_defnTags_of_fieldDefn g [g] h1 (by simp))
      · exact List.mem_append_right _ (ih _ _ e)
    · rcases Run.mem_andThen _ _ _ h with e | e
      · rcases recordBody_calls _ _ _ _ g _ e with k | k | k
        · exact absurd k Bool.false_ne_true
        · exact absurd k Bool.false_ne_true
        · exact absurd k (by simp)
      · exact List.mem_append_right _ (ih _ _ e)
    · exact List.mem_append_right _ (ih _ _ h)

/-- C19 fails on a module node with `_sizeFieldTag` = `7` and one definition tagged
`0001`: the run passes the tag-size loop with the width 4, the module is
initialised with the tag width 7, and the definition added to the catalog has a
tag of four characters. -/
theorem catalog_tag_width_counterexample :
    tagSizeLoop 0 overrideModule.psChild = some 4 ∧
      (main (envOf overrideModule 9)
        ["8211createfromxml", "in.xml", "out.ddf"]).calls.filterMap Call.initTagWidth = [7] ∧
      Call.ModuleAddField "0001"
        ∈ (main (envOf overrideModule 9) ["8211createfromxml", "in.xml", "out.ddf"]).calls ∧
      "0001".length ≠ 7 := by
  decide

/-- C19 as amended: in every run that passes the tag-size loop, whose module node
carries no `_sizeFieldTag` attribute and whose first definition has a non-empty
tag, the module is initialised with the inferred tag width, every field definition
of the document has a tag of that length, and so has every definition added to
the catalog. -/
theorem catalog_tag_width (env : Env) (prog pszFilename pszOutFilename : String)
    (poRoot poXMLDDFModule : CPLXMLNode) (nSizeFieldTag : Nat)
    (hparse : env.CPLParseXMLFile pszFilename = some poRoot)
    (hsearch : env.CPLSearchXMLNode poRoot "=DDFModule" = some poXMLDDFModule)
    (htag : tagSizeLoop 0 poXMLDDFModule.psChild = some nSizeFieldTag)
    (hattr : CPLGetXMLValueOrNull poXMLDDFModule "_sizeFieldTag" = none)
    (hfirst : ∀ t, (defnTags poXMLDDFModule.psChild).head? = some t → t.length ≠ 0) :
    (main env [prog, pszFilename, pszOutFilename]).calls.filterMap Call.initTagWidth
        = [(nSizeFieldTag : Int)] ∧
      (∀ t ∈ defnTags poXMLDDFModule.psChild, t.length = nSizeFieldTag) ∧
      (∀ pszTag, Call.ModuleAddField pszTag ∈ (main env [prog, pszFilename, pszOutFilename]).calls →
        pszTag.length = nSizeFieldTag) := by
  have hall : ∀ t ∈ defnTags poXMLDDFModule.psChild, t.length = nSizeFieldTag := by
    rw [tagSizeLoop_eq_tagSizeTags] at htag
    exact tagSizeTags_first_nonempty _ _ hfirst htag
  have hmain := main_of_loaded env prog pszFilename pszOutFilename poRoot poXMLDDFModule
    nSizeFieldTag hparse hsearch htag
  refine ⟨?_, hall, ?_⟩
  · rw [hmain]
    unfold mainBody
    rw [Run.ofCalls_andThen, Run.ofCalls_andThen]
    simp only [List.filterMap_append]
    rw [moduleLoop_initTagWidth _ _ _ _ _ _ (by
      intro c hc
      simp only [Run.ofCalls, List.mem_singleton] at hc
      subst hc; rfl)]
    unfold CPLGetXMLValueOrNull at hattr
    simp [List.filterMap, initializeCall, Call.initTagWidth, moduleSizes, CPLGetXMLValue, hattr,
      atoi_fmtInt_natCast]
  · intro pszTag hmem
    rw [hmain] at hmem
    unfold mainBody at hmem
    rcases Run.mem_andThen _ _ _ hmem with h | h
    · simp [Run.ofCalls] at h
    · rcases Run.mem_andThen _ _ _ h with h | h
      · simp [Run.ofCalls, initializeCall] at h
      · rcases Run.mem_andThen _ _ _ h with h | h
        · exact hall _ (moduleLoop_addField _ _ _ _ _ _ h)
        · simp [Run.ofCalls] at h

/-- The amended C19 on the scenario document. -/
theorem catalog_tag_width_witness :
    ((envOf scenarioModule 9).CPLParseXMLFile "in.xml" = some scenarioModule ∧
      (envOf scenarioModule 9).CPLSearchXMLNode scenarioModule "=DDFModule"
        = some scenarioModule ∧
      tagSizeLoop 0 scenarioModule.psChild = some 4 ∧
      CPLGetXMLValueOrNull scenarioModule "_sizeFieldTag" = none ∧
      (∀ t, (defnTags scenarioModule.psChild).head? = some t → t.length ≠ 0)) ∧
    ((main (envOf scenarioModule 9)
          ["8211createfromxml", "in.xml", "out.ddf"]).calls.filterMap Call.initTagWidth
        = [((4 : Nat) : Int)] ∧
      (∀ t ∈ defnTags scenarioModule.psChild, t.length = 4) ∧
      (∀ pszTag, Call.ModuleAddField pszTag
          ∈ (main (envOf scenarioModule 9) ["8211createfromxml", "in.xml", "out.ddf"]).calls →
        pszTag.length = 4)) :=
  ⟨⟨rfl, rfl, by decide, rfl, by
      intro t ht
      have e : (defnTags scenarioModule.psChild).head? = some "0001" := by decide
      rw [e] at ht
      cases ht
      decide⟩,
    catalog_tag_width (envOf scenarioModule 9) "8211createfromxml" "in.xml" "out.ddf"
      scenarioModule scenarioModule 4 rfl rfl (by decide) rfl (by
        intro t ht
        have e : (defnTags scenarioModule.psChild).head? = some "0001" := by decide
        rw [e] at ht
        cases ht
        decide)⟩

/-! ## Characters outside `0`-`9` and `A`-`F` -/

theorem rawNibble_lowBits (x : Char) :
    rawNibble x = (lowBitsNibble x : Int)
        + 16 * (if isUpperHex x then 0 else (x.toNat : Int) / 16 - 3) ∧
      lowBitsNibble x < 16 := by
  have e0 : '0'.toNat = 48 := rfl
  have e9 : '9'.toNat = 57 := rfl
  have eA : 'A'.toNat = 65 := rfl
  have eF : 'F'.toNat = 70 := rfl
  simp only [rawNibble, lowBitsNibble, hexValue, isUpperHex, e0, e9, eA, eF]
  split_ifs <;> omega

theorem rawByte_lowBits (c d : Char) :
    rawByte (rawNibble c) (rawNibble d)
        = ((16 * (lowBitsNibble c : Int) + rawNibble d) % 256).toNat ∧
      rawByte (rawNibble c) (rawNibble d) % 16 = lowBitsNibble d ∧
      (isUpperHex d →
        rawByte (rawNibble c) (rawNibble d) = 16 * lowBitsNibble c + lowBitsNibble d) := by
  obtain ⟨hc, lc⟩ := rawNibble_lowBits c
  obtain ⟨hd, ld⟩ := rawNibble_lowBits d
  unfold rawByte
  refine ⟨?_, ?_, ?_⟩
  · rw [hc]; congr 1; omega
  · rw [hc, hd]; omega
  · intro hup
    rw [hc, hd, if_pos hup]; omega

/-- C21 fails on the group `4a`: both loops decode it to the byte `0x71`, while
`16 * n('4') + n('a')` is `0x41`; the lowercase letter in the low position has
changed the high nibble from 4 to 7. -/
theorem low_bits_nibble_counterexample :
    rawDecode "4a".data = some [0x71] ∧ binDecode "4a".data = some [0x71] ∧
      16 * lowBitsNibble '4' + lowBitsNibble 'a' = 0x41 ∧
      0x71 / 16 ≠ lowBitsNibble '4' := by
  decide

/-- C21 as amended: for every two-character group `c1 c2` of a text, the decoded
byte is `(16 * n(c1) + m(c2)) mod 256`, with `n(c)` the value of the digit for
`0`-`9` and `A`-`F` and the character code modulo 16 otherwise, and `m(c2)` the
nibble the loop computes (`10 + c2 - 'A'` for `A`-`F`, `c2 - '0'` otherwise); the
low nibble of the byte is `n(c2)`, and when `c2` is one of `0`-`9`, `A`-`F` the
byte is `16 * n(c1) + n(c2)`, whatever `c1` is. -/
theorem low_bits_nibble (s : List Char) (i : Nat) (c d : Char)
    (hc : s[2 * i]? = some c) (hd : s[2 * i + 1]? = some d) :
    ∃ bytes b, rawDecode s = some bytes ∧ binDecode s = some bytes ∧ bytes[i]? = some b ∧
      b = ((16 * (lowBitsNibble c : Int) + rawNibble d) % 256).toNat ∧
      b % 16 = lowBitsNibble d ∧
      (isUpperHex d → b = 16 * lowBitsNibble c + lowBitsNibble d) := by
  have h1 : 2 * i + 1 < s.length := by
    by_contra h
    rw [List.getElem?_eq_none (by omega)] at hd
    cases hd
  have h0 : 2 * i < s.length := by omega
  have gc : s.getD (2 * i) NUL = c := by
    rw [List.getD_eq_getElem?_getD, hc]; rfl
  have gd : s.getD (2 * i + 1) NUL = d := by
    rw [List.getD_eq_getElem?_getD, hd]; rfl
  obtain ⟨k1, k2, k3⟩ := rawByte_lowBits c d
  refine ⟨pairsDecode s, rawByte (rawNibble c) (rawNibble d), rawDecode_pairs s, ?_, ?_,
    k1, k2, k3⟩
  · rw [binDecode_eq_rawDecode, rawDecode_pairs]
  · rw [pairsDecode_get s i h1, gc, gd]

/-- The amended C21 on the text `4142Z9`, whose third group has the letter `Z` in
the high position. -/
theorem low_bits_nibble_witness :
    ("4142Z9".data[2 * 2]? = some 'Z' ∧ "4142Z9".data[2 * 2 + 1]? = some '9') ∧
    ∃ bytes b, rawDecode "4142Z9".data = some bytes ∧ binDecode "4142Z9".data = some bytes ∧
      bytes[2]? = some b ∧
      b = ((16 * (lowBitsNibble 'Z' : Int) + rawNibble '9') % 256).toNat ∧
      b % 16 = lowBitsNibble '9' ∧
      (isUpperHex '9' → b = 16 * lowBitsNibble 'Z' + lowBitsNibble '9') :=
  ⟨⟨by decide, by decide⟩, low_bits_nibble "4142Z9".data 2 'Z' '9' (by decide) (by decide)⟩

/-! ## The catalog a record is assembled against -/

theorem FindFieldDefn_iff (catalog : List String) (pszFieldName : String) :
    FindFieldDefn catalog pszFieldName = true ↔ pszFieldName ∈ catalog := by
  simp [FindFieldDefn]

theorem fieldLoop_split (catalog : List String) (pre post : List CPLXMLNode) (f : CPLXMLNode)
    (hf : isElementNamed f "DDFField" = true) :
    fieldLoop catalog OccMap.empty (pre ++ f :: post) =
      (fieldLoop catalog OccMap.empty pre).andThen
        (if FindFieldDefn catalog (nodeName f) then
          (fieldBody (nodeName f) (countField (nodeName f) pre) f).andThen
            (fieldLoop catalog (fieldOccMap (pre ++ [f])) post)
        else
          { calls := [Call.fprintf_stderr ("Can't find field '" ++ nodeName f ++ "'\n")],
            status := Status.exit 1 }) := by
  have hempty : (fun k => OccMap.empty k + countField k pre) = fieldOccMap pre := by
    funext k; simp [OccMap.empty, fieldOccMap]
  have hincr : OccMap.incr (fieldOccMap pre) (nodeName f) = fieldOccMap (pre ++ [f]) := by
    funext k
    unfold OccMap.incr fieldOccMap countField
    by_cases hk : k = nodeName f
    · subst hk; simp [List.countP_append, hf]
    · have hk2 : ¬ nodeName f = k := fun e => hk e.symm
      simp [List.countP_append, hk, hk2]
  have h0 : OccMap.empty (nodeName f) + countField (nodeName f) pre
      = countField (nodeName f) pre := by simp [OccMap.empty]
  rw [fieldLoop_append, fieldLoop_cons]
  simp only [hf, if_true, hempty, hincr, h0]

/-- C22 fails on a document whose record comes before the definition: the field
`0001` names a definition declared among the children of the module node, but the
definition is not in the catalog yet when the record is assembled, and the run
ends with `exit(1)` at that field. -/
theorem catalog_single_pass_counterexample :
    "0001" ∈ defnTags lateDefnModule.psChild ∧
      main (envOf lateDefnModule 9) ["8211createfromxml", "in.xml", "out.ddf"] =
        { calls := [Call.CPLParseXMLFile "in.xml",
            Call.Initialize '3' 'L' 'E' '1' ' ' " ! " 3 4 4,
            Call.SetFieldControlLength 9,
            Call.ModuleCreate (some "out.ddf"), Call.NewRecord,
            Call.SetSizeFieldLength 3, Call.SetSizeFieldPos 4, Call.SetSizeFieldTag 4,
            Call.fprintf_stderr "Can't find field '0001'\n"],
          status := Status.exit 1 } := by
  decide

/-- C22 as amended: every record is assembled against the catalog of the
definitions whose nodes come before the record node in document order; a field of
the record resolves exactly when it names one of those definitions, and a field
that names a definition declared only after the record, or none, ends the run
with `exit(1)` at that field. -/
theorem catalog_single_pass (pszOutFilename : Option String) (sizes : SizeFields)
    (mpre mpost : List CPLXMLNode) (psIter : CPLXMLNode) (pre post : List CPLXMLNode)
    (f : CPLXMLNode)
    (hrec : isElementNamed psIter "DDFRecord" = true)
    (hchildren : psIter.psChild = pre ++ f :: post)
    (hf : isElementNamed f "DDFField" = true) :
    moduleLoop pszOutFilename sizes [] false (mpre ++ psIter :: mpost) =
        (moduleLoop pszOutFilename sizes [] false mpre).andThen
          ((recordBody pszOutFilename sizes (defnTags mpre) (createdAfter false mpre)
              psIter).andThen
            (moduleLoop pszOutFilename sizes (defnTags mpre) true mpost)) ∧
      (FindFieldDefn (defnTags mpre) (nodeName f) = true ↔ nodeName f ∈ defnTags mpre) ∧
      (nodeName f ∈ defnTags mpre →
        fieldLoop (defnTags mpre) OccMap.empty psIter.psChild =
          (fieldLoop (defnTags mpre) OccMap.empty pre).andThen
            ((fieldBody (nodeName f) (countField (nodeName f) pre) f).andThen
              (fieldLoop (defnTags mpre) (fieldOccMap (pre ++ [f])) post))) ∧
      (nodeName f ∉ defnTags mpre →
        fieldLoop (defnTags mpre) OccMap.empty psIter.psChild =
          (fieldLoop (defnTags mpre) OccMap.empty pre).andThen
            { calls := [Call.fprintf_stderr ("Can't find field '" ++ nodeName f ++ "'\n")],
              status := Status.exit 1 }) := by
  have hnd : ¬ isElementNamed psIter "DDFFieldDefn" = true := by
    intro h
    rw [not_record_of_fieldDefn psIter h] at hrec
    exact absurd hrec (by decide)
  refine ⟨?_, FindFieldDefn_iff _ _, ?_, ?_⟩
  · rw [moduleLoop_append, moduleLoop_cons]
    simp only [hnd, hrec, if_true, Bool.false_eq_true, if_false, List.nil_append]
  · intro hmem
    rw [hchildren, fieldLoop_split _ _ _ _ hf, if_pos ((FindFieldDefn_iff _ _).mpr hmem)]
  · intro hmem
    have hno : ¬ FindFieldDefn (defnTags mpre) (nodeName f) = true :=
      fun h => hmem ((FindFieldDefn_iff _ _).mp h)
    rw [hchildren, fieldLoop_split _ _ _ _ hf, if_neg hno]

/-- The amended C22 on the scenario document, whose definition comes before the
record. -/
theorem catalog_single_pass_witness :
    (isElementNamed scenarioRecord "DDFRecord" = true ∧
      scenarioRecord.psChild = [scenarioFieldA] ++ scenarioFieldB :: [] ∧
      isElementNamed scenarioFieldB "DDFField" = true ∧
      nodeName scenarioFieldB ∈ defnTags [scenarioDefn]) ∧
    fieldLoop (defnTags [scenarioDefn]) OccMap.empty scenarioRecord.psChild =
      (fieldLoop (defnTags [scenarioDefn]) OccMap.empty [scenarioFieldA]).andThen
        ((fieldBody (nodeName scenarioFieldB)
            (countField (nodeName scenarioFieldB) [scenarioFieldA]) scenarioFieldB).andThen
          (fieldLoop (defnTags [scenarioDefn])
            (fieldOccMap ([scenarioFieldA] ++ [scenarioFieldB])) [])) :=
  ⟨⟨by decide, rfl, by decide, by decide⟩,
    (catalog_single_pass none ⟨3, 4, 4⟩ [scenarioDefn] [] scenarioRecord [scenarioFieldA] []
      scenarioFieldB (by decide) rfl (by decide)).2.2.1 (by decide)⟩

/-! ## Subfields that set no value -/

theorem subfieldLoop_split (pszFieldName : String) (nFieldOcc : Nat)
    (pre post : List CPLXMLNode) (sf : CPLXMLNode)
    (hsf : isElementNamed sf "DDFSubfield" = true) :
    subfieldLoop pszFieldName nFieldOcc OccMap.empty (pre ++ sf :: post) =
      (subfieldLoop pszFieldName nFieldOcc OccMap.empty pre).andThen
        ((subfieldBody pszFieldName nFieldOcc sf (countSubfield (nodeName sf) pre)).andThen
          (subfieldLoop pszFieldName nFieldOcc (subfieldOccMap (pre ++ [sf])) post)) := by
  have hempty : (fun k => OccMap.empty k + countSubfield k pre) = subfieldOccMap pre := by
    funext k; simp [OccMap.empty, subfieldOccMap]
  have hincr : OccMap.incr (subfieldOccMap pre) (nodeName sf) = subfieldOccMap (pre ++ [sf]) := by
    funext k
    unfold OccMap.incr subfieldOccMap countSubfield
    by_cases hk : k = nodeName sf
    · subst hk; simp [List.countP_append, hsf]
    · have hk2 : ¬ nodeName sf = k := fun e => hk e.symm
      simp [List.countP_append, hk, hk2]
  have h0 : OccMap.empty (nodeName sf) + countSubfield (nodeName sf) pre
      = countSubfield (nodeName sf) pre := by simp [OccMap.empty]
  rw [subfieldLoop_append, subfieldLoop_cons]
  simp only [hsf, if_true, hempty, hincr, h0]

/-- C23: a `DDFSubfield` node that sets no value (its type is none of `float`,
`integer`, `string`, and it is not `binary` with a `0x` text) still advances the
occurrence counter of its name: a later subfield of the same name in the same
field instance gets the index that counts all earlier `DDFSubfield` nodes of that
name, the silent one included; so the index can exceed the number of values set
under that name, as on a field whose first `TXT` subfield has the unknown type
`real`: the only setter call passes the index 1. -/
theorem skipped_subfield_advances_counter (pszFieldName : String) (nFieldOcc : Nat)
    (psSubIter : CPLXMLNode) (pre mid post : List CPLXMLNode) (g sf : CPLXMLNode)
    (hpath : (CPLGetXMLValueOrNull psSubIter "value").bind skip0x = none)
    (hchildren : psSubIter.psChild = (pre ++ g :: mid) ++ sf :: post)
    (hg : isElementNamed g "DDFSubfield" = true)
    (hsf : isElementNamed sf "DDFSubfield" = true)
    (hname : nodeName g = nodeName sf)
    (hfloat : CPLGetXMLValue g (some "type") "" ≠ "float")
    (hinteger : CPLGetXMLValue g (some "type") "" ≠ "integer")
    (hstring : CPLGetXMLValue g (some "type") "" ≠ "string")
    (hbinary : CPLGetXMLValue g (some "type") "" = "binary" →
      skip0x (CPLGetXMLValue g none "") = none) :
    (∀ nOcc, (subfieldBody pszFieldName nFieldOcc g nOcc).calls = []) ∧
      countSubfield (nodeName sf) (pre ++ g :: mid)
        = countSubfield (nodeName sf) pre + 1 + countSubfield (nodeName sf) mid ∧
      fieldBody pszFieldName nFieldOcc psSubIter =
        (Run.ofCalls [Call.RecordAddField pszFieldName]).andThen
          ((subfieldLoop pszFieldName nFieldOcc OccMap.empty (pre ++ g :: mid)).andThen
            ((subfieldBody pszFieldName nFieldOcc sf
                (countSubfield (nodeName sf) (pre ++ g :: mid))).andThen
              (subfieldLoop pszFieldName nFieldOcc
                (subfieldOccMap ((pre ++ g :: mid) ++ [sf])) post))) ∧
      (∀ c ∈ (subfieldBody pszFieldName nFieldOcc sf
          (countSubfield (nodeName sf) (pre ++ g :: mid))).calls,
        c.subfieldOcc = some (nodeName sf, countSubfield (nodeName sf) (pre ++ g :: mid))) ∧
      fieldBody "0001" 0 skippedThenSetField =
        Run.ofCalls [Call.RecordAddField "0001",
          Call.SetStringSubfield "0001" 0 "TXT" 1 "B"] := by
  refine ⟨?_, ?_, ?_, ?_, by decide⟩
  · intro nOcc
    by_cases hb : CPLGetXMLValue g (some "type") "" = "binary"
    · have h1 : ¬ ("binary" = "float") := by decide
      have h2 : ¬ ("binary" = "integer") := by decide
      have h3 : ¬ ("binary" = "string") := by decide
      simp only [subfieldBody, hb, hbinary hb, h1, h2, h3, if_false, if_true, Run.ofCalls]
    · simp only [subfieldBody, hfloat, hinteger, hstring, hb, if_false, Run.ofCalls]
  · simp only [countSubfield, List.countP_append, List.countP_cons, hg, hname,
      Bool.true_and, decide_True, if_true]
    omega
  · rw [fieldBody_structured _ _ _ hpath, hchildren, subfieldLoop_split _ _ _ _ _ hsf]
  · intro c hc
    exact (subfieldBody_calls _ _ _ _ c hc).2.1

/-- The statement of C23 on a field whose first `TXT` subfield has the unknown
type `real` and whose second `TXT` subfield is a string. -/
theorem skipped_subfield_advances_counter_witness :
    ((CPLGetXMLValueOrNull skippedThenSetField "value").bind skip0x = none ∧
      skippedThenSetField.psChild
        = ([] ++ subfieldNode "TXT" "real" "1.5" :: []) ++ subfieldNode "TXT" "string" "B" :: [] ∧
      isElementNamed (subfieldNode "TXT" "real" "1.5") "DDFSubfield" = true ∧
      isElementNamed (subfieldNode "TXT" "string" "B") "DDFSubfield" = true ∧
      nodeName (subfieldNode "TXT" "real" "1.5") = nodeName (subfieldNode "TXT" "string" "B") ∧
      CPLGetXMLValue (subfieldNode "TXT" "real" "1.5") (some "type") "" ≠ "float" ∧
      CPLGetXMLValue (subfieldNode "TXT" "real" "1.5") (some "type") "" ≠ "integer" ∧
      CPLGetXMLValue (subfieldNode "TXT" "real" "1.5") (some "type") "" ≠ "string" ∧
      CPLGetXMLValue (subfieldNode "TXT" "real" "1.5") (some "type") "" ≠ "binary") ∧
    ((∀ nOcc, (subfieldBody "0001" 0 (subfieldNode "TXT" "real" "1.5") nOcc).calls = []) ∧
      countSubfield (nodeName (subfieldNode "TXT" "string" "B"))
          ([] ++ subfieldNode "TXT" "real" "1.5" :: [])
        = countSubfield (nodeName (subfieldNode "TXT" "string" "B")) [] + 1
          + countSubfield (nodeName (subfieldNode "TXT" "string" "B")) []) :=
  ⟨⟨by decide, rfl, by decide, by decide, by decide, by decide, by decide, by decide,
      by decide⟩,
    (skipped_subfield_advances_counter "0001" 0 skippedThenSetField [] [] []
      (subfieldNode "TXT" "real" "1.5") (subfieldNode "TXT" "string" "B") (by decide) rfl
      (by decide) (by decide) (by decide) (by decide) (by decide) (by decide)
      (fun h => absurd h (by decide))).1,
    (skipped_subfield_advances_counter "0001" 0 skippedThenSetField [] [] []
      (subfieldNode "TXT" "real" "1.5") (subfieldNode "TXT" "string" "B") (by decide) rfl
      (by decide) (by decide) (by decide) (by decide) (by decide) (by decide)
      (fun h => absurd h (by decide))).2.1⟩

/-! ## Texts of odd length -/

theorem pairsDecode_append_single (s : List Char) (c : Char) (heven : s.length % 2 = 0) :
    pairsDecode (s ++ [c]) = pairsDecode s := by
  induction s using pairsDecode.induct with
  | case1 a b rest ih =>
    have hrest : rest.length % 2 = 0 := by
      simp only [List.length_cons] at heven; omega
    show pairsDecode (a :: b :: (rest ++ [c])) = pairsDecode (a :: b :: rest)
    simp only [pairsDecode, ih hrest]
  | case2 s h =>
    match s, h with
    | [], _ => rfl
    | [_], _ => simp only [List.length_singleton] at heven; omega
    | a :: b :: rest, h => exact absurd rfl (h a b rest)

/-- C24: for every text of odd length `2n + 1`, both decoding loops yield exactly
`n` bytes and never read outside the string, and the bytes are those of the first
`2n` characters: the result stays the same whatever the trailing character is. -/
theorem odd_length_decode (s : List Char) (n : Nat) (hlen : s.length = 2 * n + 1) :
    ∃ bytes, rawDecode s = some bytes ∧ binDecode s = some bytes ∧ bytes.length = n ∧
      rawDecode (s.take (2 * n)) = some bytes ∧ binDecode (s.take (2 * n)) = some bytes ∧
      ∀ c : Char, rawDecode (s.take (2 * n) ++ [c]) = some bytes ∧
        binDecode (s.take (2 * n) ++ [c]) = some bytes := by
  have htake : (s.take (2 * n)).length = 2 * n := by
    rw [List.length_take]; omega
  have heven : (s.take (2 * n)).length % 2 = 0 := by omega
  have hdrop : ∃ x, s.drop (2 * n) = [x] := by
    have hl : (s.drop (2 * n)).length = 1 := by rw [List.length_drop]; omega
    match hd : s.drop (2 * n), hl with
    | [x], _ => exact ⟨x, rfl⟩
  obtain ⟨x, hx⟩ := hdrop
  have hs : s = s.take (2 * n) ++ [x] := by
    rw [← hx, List.take_append_drop]
  have hp : pairsDecode s = pairsDecode (s.take (2 * n)) := by
    conv_lhs => rw [hs]
    exact pairsDecode_append_single _ x heven
  refine ⟨pairsDecode s, rawDecode_pairs s, ?_, ?_, ?_, ?_, ?_⟩
  · rw [binDecode_eq_rawDecode, rawDecode_pairs]
  · rw [pairsDecode_length, hlen]; omega
  · rw [rawDecode_pairs, hp]
  · rw [binDecode_eq_rawDecode, rawDecode_pairs, hp]
  · intro c
    rw [binDecode_eq_rawDecode, rawDecode_pairs, pairsDecode_append_single _ c heven, hp]
    exact ⟨rfl, rfl⟩

/-- The statement of C24 on the text `41423`. -/
theorem odd_length_decode_witness :
    "41423".data.length = 2 * 2 + 1 ∧
    ∃ bytes, rawDecode "41423".data = some bytes ∧ binDecode "41423".data = some bytes ∧
      bytes.length = 2 ∧
      rawDecode ("41423".data.take (2 * 2)) = some bytes ∧
      binDecode ("41423".data.take (2 * 2)) = some bytes ∧
      ∀ c : Char, rawDecode ("41423".data.take (2 * 2) ++ [c]) = some bytes ∧
        binDecode ("41423".data.take (2 * 2) ++ [c]) = some bytes :=
  ⟨by decide, odd_length_decode "41423".data 2 (by decide)⟩

end Iso8211Create
